import Mathlib

/-!
Video-Game-Bulletin backend: reviews, rating aggregation, authorization.

A shallow embedding of `backend/src/controllers/review.controller.js`,
`favorite.controller.js`, `game.controller.js`, the `adminOnly` middleware
and the three mongoose schemas they use (`review.model.js`,
`game.model.js`, `favorite.model.js`), and of the frontend helpers
`filterAndSortGames`, `esc`, `clamp` and `starString`.

Modelling conventions.

* The document store is explicit state: one list per collection, in
  insertion order. `find`, `findById`, `create`, `save`, `deleteOne` and
  `findByIdAndUpdate` are the mongoose calls of the controllers, acting on
  those lists; by-id operations act on the first document with that id.
* An `ObjectId` is a natural number. Ids that reach a handler are
  well-formed ObjectIds; a fresh one is drawn from the counter `nextId`.
* A request field is `undefined`, `null` or a value (`JsField`), because
  the handlers tell the three apart.
* A JavaScript `Number` is a rational. The handlers are modelled with exact sums and
  quotients; `Binary64.recalculateGameRating` is the aggregator with every sum and
  quotient rounded to the nearest IEEE 754 double (`roundDouble`), as JavaScript does.
* `async`/`await` is sequential composition: each handler runs to
  completion on the store it is given. `try { .. } catch` turns a thrown
  schema validation error into the 500 answer and persists nothing.
  `addFavoriteInterleaved` is the one schedule in which a second handler
  runs while the first is suspended at an `await`.
* The `timestamps` columns and `datePosted`/`dateAdded` are left out.
* The database's `$regex` test is a parameter `rx` of `getGames`. `regexI` describes it on
  a fragment of the pattern language (ordinary characters, dots, `?`, `*`, `+`, a leading
  caret, a trailing dollar) and printable ASCII subjects, and is silent elsewhere.
-/

namespace VGB

/-- Identifier of a stored document. -/
abbrev ObjectId := Nat

/-- A field of a JSON body or of a stored document: missing, `null`, or a value. -/
inductive JsField (α : Type) where
  | undefined : JsField α
  | null : JsField α
  | val (a : α) : JsField α
deriving DecidableEq, Repr

namespace JsField

/-- JavaScript `!text` for a string field: `undefined`, `null` and `""` are falsy. -/
def falsyStr : JsField String → Bool
  | undefined => true
  | null => true
  | val s => s == ""

/-- Test `x === undefined || x === null`. -/
def isNullish {α : Type} : JsField α → Bool
  | undefined => true
  | null => true
  | val _ => false

/-- Test `x !== undefined`. -/
def isDefined {α : Type} : JsField α → Bool
  | undefined => false
  | _ => true

/-- JavaScript `x || d` for a numeric field: `d` when `x` is missing, `null` or `0`. -/
def orElse : JsField ℚ → ℚ → ℚ
  | undefined, d => d
  | null, d => d
  | val v, d => if v = 0 then d else v

end JsField

/-- A document of the `Review` collection (`review.model.js`). -/
structure Review where
  _id : ObjectId
  userId : ObjectId
  gameId : ObjectId
  text : JsField String
  rating : JsField ℚ
deriving DecidableEq, Repr

/-- A document of the `Game` collection (`game.model.js`). -/
structure Game where
  _id : ObjectId
  title : String
  description : JsField String
  releaseDate : JsField Int
  platform : List String
  genre : List String
  imageURL : JsField String
  status : JsField String
  averageRating : ℚ
  totalRatings : ℚ
deriving DecidableEq, Repr

/-- A document of the `Favorite` collection (`favorite.model.js`). -/
structure Favorite where
  _id : ObjectId
  userId : ObjectId
  gameId : ObjectId
deriving DecidableEq, Repr

/-- The authenticated user that `auth` attaches to the request (`req.user`). -/
structure User where
  _id : ObjectId
  userType : String
deriving DecidableEq, Repr

/-- The document store. -/
structure Store where
  games : List Game
  reviews : List Review
  favorites : List Favorite
  nextId : ObjectId
deriving DecidableEq, Repr

/-- What a handler sends back: the status code and the JSON body's fields. -/
structure Response where
  status : Nat
  error : Option String := none
  message : Option String := none
  review : Option Review := none
  game : Option Game := none
  favorite : Option Favorite := none
deriving DecidableEq, Repr

/-! ## Persistence calls -/

/-- Query `Review.find({ gameId, rating: { $ne: null } })`. -/
def Review.findRated (reviews : List Review) (gameId : ObjectId) : List Review :=
  reviews.filter (fun r => r.gameId == gameId && !r.rating.isNullish)

/-- Query `Review.findById(id)`. -/
def Review.findById (reviews : List Review) (id : ObjectId) : Option Review :=
  reviews.find? (fun r => r._id == id)

/-- Validators of `reviewSchema`: `rating` has `min: 1, max: 5`; they run on a value only. -/
def Review.validate (r : Review) : Bool :=
  match r.rating with
  | .val x => decide (1 ≤ x) && decide (x ≤ 5)
  | _ => true

/-- Call `Review.create(fields)`: validate, then insert under a fresh id. -/
def Review.create (s : Store) (userId gameId : ObjectId) (text : JsField String)
    (rating : JsField ℚ) : Except String (Store × Review) :=
  let doc : Review :=
    { _id := s.nextId, userId := userId, gameId := gameId, text := text, rating := rating }
  if doc.validate then
    .ok ({ s with reviews := s.reviews ++ [doc], nextId := s.nextId + 1 }, doc)
  else
    .error "ValidationError"

/-- Replace the first document whose id is `doc._id` by `doc`. -/
def Review.replaceOne : List Review → Review → List Review
  | [], _ => []
  | r :: rs, doc => if r._id == doc._id then doc :: rs else r :: Review.replaceOne rs doc

/-- Call `review.save()` on a loaded document: validate, then write it back. -/
def Review.save (s : Store) (doc : Review) : Except String Store :=
  if doc.validate then
    .ok { s with reviews := Review.replaceOne s.reviews doc }
  else
    .error "ValidationError"

/-- Call `review.deleteOne()`: remove the first document with that id. -/
def Review.deleteOne : List Review → ObjectId → List Review
  | [], _ => []
  | r :: rs, id => if r._id == id then rs else r :: Review.deleteOne rs id

/-- Query `Game.findById(id)`. -/
def Game.findById (games : List Game) (id : ObjectId) : Option Game :=
  games.find? (fun g => g._id == id)

/-- Call `Game.findByIdAndUpdate(id, update)`: apply `update` to the first game with that id;
nothing happens when there is none. -/
def Game.findByIdAndUpdate : List Game → ObjectId → (Game → Game) → List Game
  | [], _, _ => []
  | g :: gs, id, update =>
    if g._id == id then update g :: gs else g :: Game.findByIdAndUpdate gs id update

/-- The characters JavaScript's `String.prototype.trim` removes. -/
def isJsWhitespace (c : Char) : Bool :=
  let n := c.toNat
  n == 9 || n == 10 || n == 11 || n == 12 || n == 13 || n == 32 || n == 160 || n == 5760 ||
    (8192 ≤ n && n ≤ 8202) || n == 8232 || n == 8233 || n == 8239 || n == 8287 ||
    n == 12288 || n == 65279

/-- JavaScript `s.trim()`. -/
def jsTrim (s : String) : String :=
  String.mk ((s.data.dropWhile isJsWhitespace).reverse.dropWhile isJsWhitespace).reverse

/-- JavaScript `s.split(',')` on the characters of `s`. -/
def splitComma : List Char → List (List Char)
  | [] => [[]]
  | c :: cs =>
    match splitComma cs with
    | [] => [[]]
    | w :: ws => if c == ',' then [] :: w :: ws else (c :: w) :: ws

/-- A comma-separated string as tags: `s.split(',').map(p => p.trim())`. -/
def splitTags (s : String) : List String :=
  (splitComma s.data).map (fun w => jsTrim (String.mk w))

/-- The fields handed to `Game.create`. -/
structure GameFields where
  title : String
  description : JsField String
  releaseDate : JsField Int
  platform : Option (List String)
  genre : Option (List String)
  imageURL : JsField String
  status : JsField String
  averageRating : ℚ
  totalRatings : ℚ
deriving DecidableEq, Repr

/-- Validators of `gameSchema` on the document about to be stored: `title` is required
(an empty string does not count), `status` is one of the two enum values when it is a value. -/
def Game.validate (g : Game) : Bool :=
  g.title != "" &&
    (match g.status with
     | .val v => v == "Upcoming" || v == "Released"
     | _ => true)

/-- Call `Game.create(fields)`: apply the schema's setters (`trim` on `title`) and defaults
(`status: 'Upcoming'`, empty tag arrays), validate, then insert under a fresh id. -/
def Game.create (s : Store) (f : GameFields) : Except String (Store × Game) :=
  let doc : Game :=
    { _id := s.nextId
      title := jsTrim f.title
      description := f.description
      releaseDate := f.releaseDate
      platform := f.platform.getD []
      genre := f.genre.getD []
      imageURL := f.imageURL
      status := if f.status = .undefined then .val "Upcoming" else f.status
      averageRating := f.averageRating
      totalRatings := f.totalRatings }
  if doc.validate then
    .ok ({ s with games := s.games ++ [doc], nextId := s.nextId + 1 }, doc)
  else
    .error "ValidationError"

/-! ## review.controller.js -/

/-- Helper `recalculateGameRating(gameId)`: recompute the derived fields of game `gameId`
from all of its rated reviews. The sum and the quotient are exact here;
`Binary64.recalculateGameRating` is the same helper with the rounding of JavaScript's
arithmetic. -/
def recalculateGameRating (s : Store) (gameId : ObjectId) : Store :=
  let reviews := Review.findRated s.reviews gameId
  if reviews.length = 0 then
    let games := Game.findByIdAndUpdate s.games gameId
      (fun g => { g with averageRating := 0, totalRatings := 0 })
    { s with games := games }
  else
    let sum := reviews.foldl (fun acc r => acc + r.rating.orElse 0) (0 : ℚ)
    let total := reviews.length
    let avg := sum / (total : ℚ)
    let games := Game.findByIdAndUpdate s.games gameId
      (fun g => { g with averageRating := avg, totalRatings := (total : ℚ) })
    { s with games := games }

/-- Body of `POST /api/reviews`. Only `gameId`, `text` and `rating` are read;
`userId` stands for whatever else the client puts in the body. -/
structure CreateReviewBody where
  gameId : JsField ObjectId
  text : JsField String
  rating : JsField ℚ
  userId : JsField ObjectId := .undefined
deriving DecidableEq, Repr

/-- Body of `PUT /api/reviews/:id`. -/
structure UpdateReviewBody where
  text : JsField String
  rating : JsField ℚ
deriving DecidableEq, Repr

/-- Handler `createReview(req, res)` with `req.user = user`, `req.body = body`. -/
def createReview (s : Store) (user : User) (body : CreateReviewBody) : Store × Response :=
  match body.gameId with
  | .val gameId =>
    if body.text.falsyStr && body.rating.isNullish then
      (s, { status := 400, error := some "Provide either text or rating" })
    else
      match Review.create s user._id gameId body.text body.rating with
      | .error _ => (s, { status := 500, error := some "Server error" })
      | .ok (s1, review) =>
        let s2 := if !body.rating.isNullish then recalculateGameRating s1 gameId else s1
        (s2, { status := 201, message := some "Review added", review := some review })
  | _ => (s, { status := 400, error := some "gameId is required" })

/-- The guard of `updateReview` and `deleteReview`:
`review.userId.toString() !== req.user._id.toString() && req.user.userType !== 'Admin'`. -/
def notAllowed (review : Review) (user : User) : Bool :=
  review.userId != user._id && user.userType != "Admin"

/-- Handler `updateReview(req, res)` with `req.params.id = id`. -/
def updateReview (s : Store) (user : User) (id : ObjectId) (body : UpdateReviewBody) :
    Store × Response :=
  match Review.findById s.reviews id with
  | none => (s, { status := 404, error := some "Review not found" })
  | some review =>
    if notAllowed review user then
      (s, { status := 403, error := some "Not allowed" })
    else
      let review := if body.text.isDefined then { review with text := body.text } else review
      let review := if body.rating.isDefined then { review with rating := body.rating } else review
      match Review.save s review with
      | .error _ => (s, { status := 500, error := some "Server error" })
      | .ok s1 =>
        (recalculateGameRating s1 review.gameId,
          { status := 200, message := some "Review updated", review := some review })

/-- Handler `deleteReview(req, res)` with `req.params.id = id`. -/
def deleteReview (s : Store) (user : User) (id : ObjectId) : Store × Response :=
  match Review.findById s.reviews id with
  | none => (s, { status := 404, error := some "Review not found" })
  | some review =>
    if notAllowed review user then
      (s, { status := 403, error := some "Not allowed" })
    else
      let gameId := review.gameId
      let s1 := { s with reviews := Review.deleteOne s.reviews review._id }
      (recalculateGameRating s1 gameId, { status := 200, message := some "Review deleted" })

/-! ## review.controller.js: recalculateGameRating in double precision -/

/-- Round a rational to the nearest integer, a tie going to the even neighbour. -/
def roundHalfEven (q : ℚ) : ℤ :=
  let f := ⌊q⌋
  let r := q - f
  if r < 1 / 2 then f
  else if 1 / 2 < r then f + 1
  else if f % 2 = 0 then f else f + 1

/-- The binary exponent of the doubles around `x`: `e` with `2 ^ e ≤ |x| < 2 ^ (e + 1)`,
and `-1022`, the exponent of the subnormal doubles, below that. -/
def binade (x : ℚ) : ℤ :=
  max (Int.log 2 |x|) (-1022)

/-- The IEEE 754 binary64 value nearest to `x`, a tie going to the even significand: the
result of a JavaScript `+` or `/` whose exact result is `x`. Doubles with exponent `e` are
the multiples of `2 ^ (e - 52)`. Overflow to `Infinity` is left out: a stored rating lies
between `1` and `5` and an array has fewer than `2 ^ 32` elements, so no sum or quotient of
the helper comes near `2 ^ 1024`. -/
def roundDouble (x : ℚ) : ℚ :=
  let ulp : ℚ := 2 ^ (binade x - 52)
  (roundHalfEven (x / ulp) : ℚ) * ulp

namespace Binary64

/-- Helper `recalculateGameRating(gameId)` with the arithmetic of JavaScript: every
`acc + (r.rating || 0)` of the `reduce` and the quotient `sum / total` are rounded to the
nearest double. The count `total` is an array length, a double as it stands. -/
def recalculateGameRating (s : Store) (gameId : ObjectId) : Store :=
  let reviews := Review.findRated s.reviews gameId
  if reviews.length = 0 then
    let games := Game.findByIdAndUpdate s.games gameId
      (fun g => { g with averageRating := 0, totalRatings := 0 })
    { s with games := games }
  else
    let sum := reviews.foldl (fun acc r => roundDouble (acc + r.rating.orElse 0)) (0 : ℚ)
    let total := reviews.length
    let avg := roundDouble (sum / (total : ℚ))
    let games := Game.findByIdAndUpdate s.games gameId
      (fun g => { g with averageRating := avg, totalRatings := (total : ℚ) })
    { s with games := games }

end Binary64

/-! ## game.controller.js: createGame -/

/-- A `platform`/`genre` field of a game body: missing, one string, or an array of strings. -/
inductive TagInput where
  | undefined : TagInput
  | str (s : String) : TagInput
  | arr (xs : List String) : TagInput
deriving DecidableEq, Repr

/-- The tag field after `if (typeof x === 'string') x = x.split(',').map(p => p.trim())`. -/
def TagInput.normalize : TagInput → Option (List String)
  | .undefined => none
  | .str s => some (splitTags s)
  | .arr xs => some xs

/-- Body of `POST /api/games`. -/
structure CreateGameBody where
  title : JsField String
  description : JsField String := .undefined
  releaseDate : JsField Int := .undefined
  platform : TagInput := .undefined
  genre : TagInput := .undefined
  imageURL : JsField String := .undefined
  status : JsField String := .undefined
  averageRating : JsField ℚ := .undefined
  totalRatings : JsField ℚ := .undefined
deriving DecidableEq, Repr

/-- Handler `createGame(req, res)` with `req.body = body`. -/
def createGame (s : Store) (body : CreateGameBody) : Store × Response :=
  match body.title with
  | .val title =>
    if title == "" then
      (s, { status := 400, error := some "Title is required" })
    else
      let platform := body.platform.normalize
      let genre := body.genre.normalize
      match Game.create s
          { title := title, description := body.description, releaseDate := body.releaseDate,
            platform := platform, genre := genre, imageURL := body.imageURL,
            status := body.status, averageRating := 0, totalRatings := 0 } with
      | .error _ => (s, { status := 500, error := some "Server error" })
      | .ok (s1, game) => (s1, { status := 201, message := some "Game created", game := some game })
  | _ => (s, { status := 400, error := some "Title is required" })

/-- The document that `createGame` has validated and stored for a body whose title is
`title`: setters and defaults applied, derived fields forced to `0`. -/
def Game.fresh (s : Store) (title : String) (body : CreateGameBody) : Game :=
  { _id := s.nextId
    title := jsTrim title
    description := body.description
    releaseDate := body.releaseDate
    platform := body.platform.normalize.getD []
    genre := body.genre.normalize.getD []
    imageURL := body.imageURL
    status := if body.status = .undefined then .val "Upcoming" else body.status
    averageRating := 0
    totalRatings := 0 }

/-! ## game.controller.js: updateGame, deleteGame -/

/-- Body of `PUT /api/games/:id`. A key that is missing is `undefined`, `none` or
`TagInput.undefined`; `title`, `averageRating` and `totalRatings` are missing or hold a
value of the schema's type. -/
structure UpdateGameBody where
  title : Option String := none
  description : JsField String := .undefined
  releaseDate : JsField Int := .undefined
  platform : TagInput := .undefined
  genre : TagInput := .undefined
  imageURL : JsField String := .undefined
  status : JsField String := .undefined
  averageRating : Option ℚ := none
  totalRatings : Option ℚ := none
deriving DecidableEq, Repr

/-- The object `update` that `updateGame` builds, as the change it makes to a game:
every key of `rest` that is present is written, `platform` and `genre` are written when
they are a string (split into tags) or an array. The schema's `trim` setter runs on
`title`; no validator runs. -/
def UpdateGameBody.toUpdate (body : UpdateGameBody) (g : Game) : Game :=
  { g with
    title := (body.title.map jsTrim).getD g.title
    description := if body.description.isDefined then body.description else g.description
    releaseDate := if body.releaseDate.isDefined then body.releaseDate else g.releaseDate
    platform := body.platform.normalize.getD g.platform
    genre := body.genre.normalize.getD g.genre
    imageURL := if body.imageURL.isDefined then body.imageURL else g.imageURL
    status := if body.status.isDefined then body.status else g.status
    averageRating := body.averageRating.getD g.averageRating
    totalRatings := body.totalRatings.getD g.totalRatings }

/-- Handler `updateGame(req, res)` with `req.params.id = id`, `req.body = body`. -/
def updateGame (s : Store) (id : ObjectId) (body : UpdateGameBody) : Store × Response :=
  let update := body.toUpdate
  let s1 : Store := { s with games := (Game.findByIdAndUpdate s.games id update) }
  match (Game.findById s.games id).map update with
  | none => (s1, { status := 404, error := some "Game not found" })
  | some game => (s1, { status := 200, message := some "Game updated", game := some game })

/-- Call `Game.findByIdAndDelete(id)`: remove the first game with that id. -/
def Game.findByIdAndDelete : List Game → ObjectId → List Game
  | [], _ => []
  | g :: gs, id => if g._id == id then gs else g :: Game.findByIdAndDelete gs id

/-- Call `Review.deleteMany({ gameId })`: remove every review of that game. -/
def Review.deleteMany (reviews : List Review) (gameId : ObjectId) : List Review :=
  reviews.filter (fun r => !(r.gameId == gameId))

/-- Handler `deleteGame(req, res)` with `req.params.id = id`. -/
def deleteGame (s : Store) (id : ObjectId) : Store × Response :=
  match Game.findById s.games id with
  | none => (s, { status := 404, error := some "Game not found" })
  | some game =>
    let s1 : Store := { s with games := (Game.findByIdAndDelete s.games id) }
    let s2 : Store := { s1 with reviews := (Review.deleteMany s1.reviews game._id) }
    (s2, { status := 200, message := some "Game deleted" })

/-! ## favorite.controller.js -/

/-- Query `Favorite.findOne({ userId, gameId })`. -/
def Favorite.findOne (favorites : List Favorite) (userId gameId : ObjectId) :
    Option Favorite :=
  favorites.find? (fun f => f.userId == userId && f.gameId == gameId)

/-- Call `Favorite.create({ userId, gameId })`: insert under a fresh id. The schema has
no validator that can fail on two ids and declares no index. -/
def Favorite.create (s : Store) (userId gameId : ObjectId) : Store × Favorite :=
  let doc : Favorite := { _id := s.nextId, userId := userId, gameId := gameId }
  ({ s with favorites := s.favorites ++ [doc], nextId := s.nextId + 1 }, doc)

/-- Call `Favorite.findOneAndDelete({ userId, gameId })`: remove the first match. -/
def Favorite.findOneAndDelete : List Favorite → ObjectId → ObjectId → List Favorite
  | [], _, _ => []
  | f :: fs, userId, gameId =>
    if f.userId == userId && f.gameId == gameId then fs
    else f :: Favorite.findOneAndDelete fs userId gameId

/-- Body of `POST /api/favorites`. -/
structure AddFavoriteBody where
  gameId : JsField ObjectId
deriving DecidableEq, Repr

/-- Handler `addFavorite(req, res)` with `req.user = user`, `req.body = body`. -/
def addFavorite (s : Store) (user : User) (body : AddFavoriteBody) : Store × Response :=
  match body.gameId with
  | .val gameId =>
    match Favorite.findOne s.favorites user._id gameId with
    | some _ => (s, { status := 400, error := some "Game already in favorites" })
    | none =>
      match Favorite.create s user._id gameId with
      | (s1, favorite) =>
        (s1, { status := 201, message := some "Added to favorites", favorite := some favorite })
  | _ => (s, { status := 400, error := some "gameId is required" })

/-- Handler `removeFavorite(req, res)` with `req.params.gameId = gameId`. -/
def removeFavorite (s : Store) (user : User) (gameId : ObjectId) : Store × Response :=
  let s1 : Store :=
    { s with favorites := (Favorite.findOneAndDelete s.favorites user._id gameId) }
  (s1, { status := 200, message := some "Removed from favorites" })

/-- The first half of `addFavorite`, up to the `await` on `Favorite.findOne`: the answer
`exists` of the existence check, read from the store as it is then. -/
def addFavoriteCheck (s : Store) (user : User) (gameId : ObjectId) : Bool :=
  (Favorite.findOne s.favorites user._id gameId).isSome

/-- The second half of `addFavorite`, run on the store as it is when the handler resumes,
with the answer `found` that its existence check gave earlier. -/
def addFavoriteResume (s : Store) (user : User) (gameId : ObjectId) (found : Bool) :
    Store × Response :=
  if found then (s, { status := 400, error := some "Game already in favorites" })
  else
    match Favorite.create s user._id gameId with
    | (s1, favorite) =>
      (s1, { status := 201, message := some "Added to favorites", favorite := some favorite })

/-- Two `addFavorite` requests served by the event loop so that both existence checks run
before either handler resumes. -/
def addFavoriteInterleaved (s : Store) (userA : User) (gameA : ObjectId) (userB : User)
    (gameB : ObjectId) : Store :=
  let foundA := addFavoriteCheck s userA gameA
  let foundB := addFavoriteCheck s userB gameB
  let sA := (addFavoriteResume s userA gameA foundA).1
  (addFavoriteResume sA userB gameB foundB).1

/-- The favorites of the pair `(userId, gameId)`. -/
def favoritesOf (favorites : List Favorite) (userId gameId : ObjectId) : List Favorite :=
  favorites.filter (fun f => f.userId == userId && f.gameId == gameId)

/-- The store after a sequence of `addFavorite` calls, executed one after another. -/
def runAdds (s : Store) (calls : List (User × AddFavoriteBody)) : Store :=
  calls.foldl (fun st c => (addFavorite st c.1 c.2).1) s

/-! ## auth.middleware.js: adminOnly, and the routes it guards -/

/-- Middleware `adminOnly(req, res, next)` with `req.user = user`; `next` is the rest of
the route. -/
def adminOnly (user : Option User) (next : Store → Store × Response) (s : Store) :
    Store × Response :=
  match user with
  | some u =>
    if u.userType != "Admin" then (s, { status := 403, error := some "Admin access required" })
    else next s
  | none => (s, { status := 403, error := some "Admin access required" })

/-- Route `router.post('/', auth, adminOnly, createGame)` once `auth` has run. -/
def Route.postGame (user : Option User) (s : Store) (body : CreateGameBody) :
    Store × Response :=
  adminOnly user (fun st => createGame st body) s

/-- Route `router.put('/:id', auth, adminOnly, updateGame)` once `auth` has run. -/
def Route.putGame (user : Option User) (s : Store) (id : ObjectId) (body : UpdateGameBody) :
    Store × Response :=
  adminOnly user (fun st => updateGame st id body) s

/-- Route `router.delete('/:id', auth, adminOnly, deleteGame)` once `auth` has run. -/
def Route.deleteGame (user : Option User) (s : Store) (id : ObjectId) : Store × Response :=
  adminOnly user (fun st => VGB.deleteGame st id) s

/-! ## game.controller.js: getGames -/

/-- Query string of `GET /api/games`; a parameter that is not sent is `none`. -/
structure GamesQuery where
  search : Option String := none
  platform : Option String := none
  genre : Option String := none
  status : Option String := none
deriving DecidableEq, Repr

/-- JavaScript truthiness of a query parameter: sent and not empty. -/
def queryGiven : Option String → Bool
  | some v => v != ""
  | none => false

/-- The sort key of `.sort({ releaseDate: -1 })`: a missing or `null` date sorts below
every date. -/
def releaseKey (g : Game) : WithBot ℤ :=
  match g.releaseDate with
  | .val d => ((d : ℤ) : WithBot ℤ)
  | _ => ⊥

/-- The object `filter` that `getGames` builds, as the test `Game.find(filter)` applies to
a game. `rx pattern subject` is the database's `{ $regex: pattern, $options: 'i' }` test;
a filter on an array field holds when the array has the value as an element. -/
def gamesFilter (rx : String → String → Bool) (q : GamesQuery) (g : Game) : Bool :=
  (if queryGiven q.search then rx (q.search.getD "") g.title else true) &&
    (if queryGiven q.platform then decide (q.platform.getD "" ∈ g.platform) else true) &&
    (if queryGiven q.genre then decide (q.genre.getD "" ∈ g.genre) else true) &&
    (if queryGiven q.status then decide (g.status = .val (q.status.getD "")) else true)

/-- Handler `getGames(req, res)` with `req.query = q`: the array sent back, with status
200. -/
def getGames (rx : String → String → Bool) (s : Store) (q : GamesQuery) : List Game :=
  let games := s.games.filter (gamesFilter rx q)
  games.insertionSort (fun a b => releaseKey b ≤ releaseKey a)

/-- In the specification's words: the game meets every criterion that is provided; a
criterion that is absent or empty imposes nothing. -/
def meetsCriteria (rx : String → String → Bool) (q : GamesQuery) (g : Game) : Prop :=
  (∀ v, q.search = some v → v ≠ "" → rx v g.title = true) ∧
    (∀ v, q.platform = some v → v ≠ "" → v ∈ g.platform) ∧
    (∀ v, q.genre = some v → v ≠ "" → v ∈ g.genre) ∧
    (∀ v, q.status = some v → v ≠ "" → g.status = .val v)

/-! ## The database's regular-expression test, on a fragment of the pattern language -/

/-- The characters with a special meaning in a pattern: backslash, caret, dollar, dot, bar,
question mark, star, plus, the round, square and curly brackets. -/
def isRegexMeta (c : Char) : Bool :=
  decide (c.toNat ∈ [92, 94, 36, 46, 124, 63, 42, 43, 40, 41, 91, 93, 123, 125])

/-- Printable ASCII: the codes 32 to 126. -/
def isPlainChar (c : Char) : Bool :=
  decide (32 ≤ c.toNat ∧ c.toNat ≤ 126)

/-- What a pattern matches one character with: a given character, or any (the dot). -/
inductive RxAtom where
  | lit (c : Char) : RxAtom
  | dot : RxAtom
deriving DecidableEq, Repr

/-- How often an atom is to occur: once, at most once (`?`), any number of times (`*`), at
least once (`+`). -/
inductive RxQuant where
  | one : RxQuant
  | opt : RxQuant
  | star : RxQuant
  | plus : RxQuant
deriving DecidableEq, Repr

/-- An atom with its quantifier. -/
structure RxItem where
  atom : RxAtom
  quant : RxQuant
deriving DecidableEq, Repr

/-- A pattern of the fragment: a sequence of items, after a caret or not, before a dollar
or not. -/
structure RxPattern where
  anchoredStart : Bool
  items : List RxItem
  anchoredEnd : Bool
deriving DecidableEq, Repr

/-- The atom a pattern character stands for: the dot (code 46) is any character, a
printable character without special meaning is itself; no other character is an atom of
the fragment. -/
def rxAtomOf (c : Char) : Option RxAtom :=
  if c.toNat = 46 then some .dot
  else if isPlainChar c && !isRegexMeta c then some (.lit c)
  else none

/-- The quantifier a pattern character stands for: `?` (code 63), `*` (42), `+` (43). -/
def rxQuantOf (c : Char) : Option RxQuant :=
  if c.toNat = 63 then some .opt
  else if c.toNat = 42 then some .star
  else if c.toNat = 43 then some .plus
  else none

/-- Read the items of a pattern, and whether a dollar (code 36) ends it. Each item is an
atom and the quantifier that follows it, if one does. The answer is `none` when the
characters are not a pattern of the fragment: a bracket, a bar, a backslash, a caret or a
character that is not printable ASCII occurs, a dollar is not last, or a quantifier does
not follow an atom. -/
def parseItems : List Char → Option (List RxItem × Bool)
  | [] => some ([], false)
  | p :: rest =>
    if p.toNat = 36 ∧ rest = [] then some ([], true)
    else
      match rxAtomOf p, rest with
      | none, _ => none
      | some a, [] => some ([⟨a, .one⟩], false)
      | some a, q :: rest' =>
        match rxQuantOf q with
        | some k => (parseItems rest').map (fun r => (⟨a, k⟩ :: r.1, r.2))
        | none => (parseItems (q :: rest')).map (fun r => (⟨a, .one⟩ :: r.1, r.2))

/-- Read a pattern of the fragment: a caret (code 94) in first place anchors it at the
start of the subject. -/
def parsePattern (ps : List Char) : Option RxPattern :=
  match ps with
  | [] => some ⟨false, [], false⟩
  | p :: rest =>
    if p.toNat = 94 then (parseItems rest).map (fun r => ⟨true, r.1, r.2⟩)
    else (parseItems (p :: rest)).map (fun r => ⟨false, r.1, r.2⟩)

/-- The items of a pattern that is read character by character. -/
def literalItems (ps : List Char) : List RxItem :=
  ps.map (fun c => (⟨.lit c, .one⟩ : RxItem))

/-- One atom against one subject character under option `i`: the dot matches every
character but the line feed (code 10), a given character matches itself up to the case of
letters. -/
def rxAtomMatches (a : RxAtom) (c : Char) : Bool :=
  match a with
  | .dot => !(c.toNat == 10)
  | .lit p => p.toLower == c.toLower

/-- Zero or more characters matched by `a`, then what `k` accepts. -/
def rxStar (a : RxAtom) (k : List Char → Bool) : List Char → Bool
  | [] => k []
  | c :: cs => k (c :: cs) || (rxAtomMatches a c && rxStar a k cs)

/-- The items match a prefix of the subject; with `anchoredEnd`, all of it. -/
def rxMatchesAt (anchoredEnd : Bool) : List RxItem → List Char → Bool
  | [], cs => !anchoredEnd || cs.isEmpty
  | ⟨a, .one⟩ :: is, cs =>
    (match cs with
     | [] => false
     | c :: cs' => rxAtomMatches a c && rxMatchesAt anchoredEnd is cs')
  | ⟨a, .opt⟩ :: is, cs =>
    rxMatchesAt anchoredEnd is cs ||
      (match cs with
       | [] => false
       | c :: cs' => rxAtomMatches a c && rxMatchesAt anchoredEnd is cs')
  | ⟨a, .star⟩ :: is, cs => rxStar a (rxMatchesAt anchoredEnd is) cs
  | ⟨a, .plus⟩ :: is, cs =>
    (match cs with
     | [] => false
     | c :: cs' => rxAtomMatches a c && rxStar a (rxMatchesAt anchoredEnd is) cs')

/-- The items match somewhere in the subject. -/
def rxSearch (anchoredEnd : Bool) (is : List RxItem) : List Char → Bool
  | [] => rxMatchesAt anchoredEnd is []
  | c :: cs => rxMatchesAt anchoredEnd is (c :: cs) || rxSearch anchoredEnd is cs

/-- The pattern finds a match in the subject. -/
def RxPattern.test (p : RxPattern) (cs : List Char) : Bool :=
  if p.anchoredStart then rxMatchesAt p.anchoredEnd p.items cs
  else rxSearch p.anchoredEnd p.items cs

/-- What the test `{ $regex: pattern, $options: 'i' }` answers on a string, as far as it is
described here: for a pattern of the fragment and a subject of printable ASCII characters.
Elsewhere the answer is `none`: nothing is said of other patterns or subjects, among them
the strings that the database refuses as a pattern (a lone `(`, for one), on which the
query fails and `getGames` answers 500. -/
def regexI (pattern subject : String) : Option Bool :=
  if subject.data.all isPlainChar then
    (parsePattern pattern.data).map (fun p => p.test subject.data)
  else none

/-- The test `rx` answers as `regexI` does wherever `regexI` gives an answer. -/
def AgreesWithRegexI (rx : String → String → Bool) : Prop :=
  ∀ pattern subject b, regexI pattern subject = some b → rx pattern subject = b

/-- The test that answers as `regexI` does, and `false` where `regexI` is silent. -/
def regexOrFalse (pattern subject : String) : Bool :=
  (regexI pattern subject).getD false

/-- In the specification's words: `s` occurs in `title` as a literal substring, letter
case ignored. -/
def containsIgnoringCase (s title : String) : Prop :=
  s.data.map Char.toLower <:+: title.data.map Char.toLower

/-- The word `w` is what the item stands for: characters the atom matches, as many as the
quantifier allows. -/
def RxItem.Accepts (i : RxItem) (w : List Char) : Prop :=
  (∀ c ∈ w, rxAtomMatches i.atom c = true) ∧
    (match i.quant with
     | .one => w.length = 1
     | .opt => w.length ≤ 1
     | .star => True
     | .plus => 1 ≤ w.length)

/-- The word `w` is a concatenation of words that the items stand for, one per item, in
order. -/
def ItemsAccept : List RxItem → List Char → Prop
  | [], w => w = []
  | i :: is, w => ∃ w1 w2, w = w1 ++ w2 ∧ i.Accepts w1 ∧ ItemsAccept is w2

/-- The pattern matches the subject, as the pattern language defines it: some substring of
the subject is a word of the items; it starts the subject if the pattern begins with a
caret and ends it if the pattern ends with a dollar. -/
def RxPattern.Matches (p : RxPattern) (subject : List Char) : Prop :=
  ∃ pre w post, subject = pre ++ w ++ post ∧ (p.anchoredStart = true → pre = []) ∧
    (p.anchoredEnd = true → post = []) ∧ ItemsAccept p.items w

/-! ## frontend/utils/helpers.js and frontend/js/main.js: esc -/

/-- The replacement that the callback of `esc` gives for one character. The five special
characters are the ampersand (code 38), `<` (60), `>` (62), the double quote (34) and
the apostrophe (39), whose entity is `apos`; any other character is not matched by the
pattern and stays. -/
def escChar (apos : List Char) (c : Char) : List Char :=
  if c.toNat = 38 then "&amp;".data
  else if c.toNat = 60 then "&lt;".data
  else if c.toNat = 62 then "&gt;".data
  else if c.toNat = 34 then "&quot;".data
  else if c.toNat = 39 then apos
  else [c]

/-- The global replace of `esc` on the characters of a string. -/
def escChars (apos : List Char) : List Char → List Char
  | [] => []
  | c :: cs => escChar apos c ++ escChars apos cs

/-- The body shared by every copy of `esc`: `String(s ?? "").replace(..)`. The input is
missing, `null`, or a value `v` that stands for its conversion `String(v)`. -/
def escWith (apos : String) (s : JsField String) : String :=
  match s with
  | .val v => String.mk (escChars apos.data v.data)
  | _ => ""

/-- Function `esc` of `utils/helpers.js` (and of `components/FilterBar.js`). -/
def esc (s : JsField String) : String :=
  escWith "&#39;" s

/-- Function `esc` of `js/main.js`, which writes the apostrophe with a leading zero. -/
def Main.esc (s : JsField String) : String :=
  escWith "&#039;" s

/-- The five entities that `esc` of `utils/helpers.js` emits. -/
def escEntities : List String := ["&amp;", "&lt;", "&gt;", "&quot;", "&#39;"]

/-- The five entities that `esc` of `js/main.js` emits. -/
def Main.escEntities : List String := ["&amp;", "&lt;", "&gt;", "&quot;", "&#039;"]

/-- One of the five characters that `esc` replaces. -/
def isEscSpecial (c : Char) : Bool :=
  decide (c.toNat ∈ [38, 60, 62, 34, 39])

/-! ## frontend/utils/helpers.js: clamp, starString -/

/-- A JavaScript number: a finite value, `NaN`, `Infinity` or `-Infinity`. -/
inductive JsNum where
  | finite (x : ℚ) : JsNum
  | nan : JsNum
  | posInf : JsNum
  | negInf : JsNum
deriving DecidableEq, Repr

/-- Test `Number.isFinite(x)`. -/
def JsNum.isFinite : JsNum → Bool
  | .finite _ => true
  | _ => false

/-- A value handed to `clamp` or `starString`: missing, `null`, a string or a number. -/
inductive JsValue where
  | undefined : JsValue
  | null : JsValue
  | str (s : String) : JsValue
  | num (x : JsNum) : JsValue
deriving DecidableEq, Repr

/-- Conversion `Number(v)`; `parse` is the language's conversion of a string. -/
def toNumber (parse : String → JsNum) : JsValue → JsNum
  | .undefined => .nan
  | .null => .finite 0
  | .str s => parse s
  | .num x => x

/-- Function `clamp(n, min, max)` for finite bounds. -/
def clamp (parse : String → JsNum) (n : JsValue) (min max : ℚ) : ℚ :=
  match toNumber parse n with
  | .finite x => Max.max min (Min.min max x)
  | _ => min

/-- Function `starString(rating)`; `s.repeat(k)` is `k` copies of the glyph. -/
def starString (parse : String → JsNum) (rating : JsValue) : String :=
  if rating = .undefined ∨ rating = .null ∨ rating = .str "" then "—"
  else
    let n := clamp parse rating 0 5
    let full := List.replicate (Int.toNat ⌊n⌋) '★'
    let empty := List.replicate (Int.toNat (5 - ⌊n⌋)) '☆'
    String.mk (full ++ empty)

/-! ## frontend/components/FilterBar.js: filterAndSortGames -/

/-- What `filterAndSortGames` takes from the browser: `String.prototype.toLowerCase`,
`String.prototype.localeCompare`, and `setHours(23, 59, 59, 999)` on a time stamp, which
depends on the local time zone. -/
structure JsRuntime where
  toLowerCase : String → String
  localeCompare : String → String → ℤ
  endOfDay : ℤ → ℤ

/-- The object `filters`, with the defaults of the destructuring. `dateFrom` and `dateTo`
hold what `dateOrNull` makes of the field: a time stamp, or `none` for an empty or
unreadable date. -/
structure GameFilters where
  q : String := ""
  status : String := ""
  minRating : Option ℚ := none
  dateFrom : Option ℤ := none
  dateTo : Option ℤ := none
  sortBy : String := "releaseDesc"
  platforms : List String := []
  genres : List String := []
deriving DecidableEq, Repr

/-- JavaScript `x || 0` on a number. -/
def orZero (x : ℚ) : ℚ :=
  if x = 0 then 0 else x

/-- JavaScript `String(x || "")` on a string field that may be missing or `null`. -/
def strOrEmpty : JsField String → String
  | .val v => v
  | _ => ""

/-- JavaScript `haystack.includes(needle)`. -/
def includes (haystack needle : String) : Bool :=
  decide (needle.data <:+: haystack.data)

/-- The time used by the sort: `a?.releaseDate ? new Date(a.releaseDate).getTime() : 0`. -/
def releaseTime (g : Game) : ℤ :=
  match g.releaseDate with
  | .val d => d
  | _ => 0

/-- The callback of `out.sort(..)`. -/
def compareGames (rt : JsRuntime) (sortBy : String) (a b : Game) : ℚ :=
  if sortBy = "titleAsc" then ((rt.localeCompare a.title b.title : ℤ) : ℚ)
  else if sortBy = "ratingDesc" then orZero b.averageRating - orZero a.averageRating
  else if sortBy = "releaseAsc" then ((releaseTime a - releaseTime b : ℤ) : ℚ)
  else ((releaseTime b - releaseTime a : ℤ) : ℚ)

/-- The callback of the keyword filter. -/
def keywordTest (rt : JsRuntime) (q : String) (g : Game) : Bool :=
  includes (rt.toLowerCase g.title) q || includes (rt.toLowerCase (strOrEmpty g.description)) q

/-- The callback of the status filter: `g?.status === status`. -/
def statusTest (status : String) (g : Game) : Bool :=
  decide (g.status = .val status)

/-- The callback of the platform and genre filters on the game's tags:
`tags.some((p) => s.has(p))`. -/
def tagTest (selected tags : List String) : Bool :=
  tags.any (fun p => selected.contains p)

/-- The callback of the rating filter: `(g?.averageRating || 0) >= minRating`. -/
def minRatingTest (m : ℚ) (g : Game) : Bool :=
  decide (m ≤ orZero g.averageRating)

/-- The callback of the `dateFrom` filter: `g?.releaseDate && new Date(g.releaseDate) >= from`. -/
def fromTest (d : ℤ) (g : Game) : Bool :=
  match g.releaseDate with
  | .val r => decide (d ≤ r)
  | _ => false

/-- The callback of the `dateTo` filter, `end` being `to` moved to the end of its day. -/
def toTest (rt : JsRuntime) (d : ℤ) (g : Game) : Bool :=
  match g.releaseDate with
  | .val r => decide (r ≤ rt.endOfDay d)
  | _ => false

/-- Function `filterAndSortGames(games, filters)`. `Array.prototype.sort` is stable: it
puts `a` before `b` when the callback is negative and keeps their order when it is `0`. -/
def filterAndSortGames (rt : JsRuntime) (games : List Game) (f : GameFilters) : List Game :=
  let out : List Game := games
  let out : List Game := if f.q ≠ "" then out.filter (keywordTest rt f.q) else out
  let out : List Game := if f.status ≠ "" then out.filter (statusTest f.status) else out
  let out : List Game :=
    if f.platforms.length ≠ 0 then out.filter (fun g => tagTest f.platforms g.platform)
    else out
  let out : List Game :=
    if f.genres.length ≠ 0 then out.filter (fun g => tagTest f.genres g.genre) else out
  let out : List Game :=
    match f.minRating with
    | some m => out.filter (minRatingTest m)
    | none => out
  let out : List Game :=
    match f.dateFrom with
    | some d => out.filter (fromTest d)
    | none => out
  let out : List Game :=
    match f.dateTo with
    | some d => out.filter (toTest rt d)
    | none => out
  out.insertionSort (fun a b => compareGames rt f.sortBy a b ≤ 0)

/-- In the claim's words: the game passes every active criterion. -/
def passesFilters (rt : JsRuntime) (f : GameFilters) (g : Game) : Prop :=
  (f.q ≠ "" →
      f.q.data <:+: (rt.toLowerCase g.title).data ∨
        f.q.data <:+: (rt.toLowerCase (strOrEmpty g.description)).data) ∧
    (f.status ≠ "" → g.status = .val f.status) ∧
    (f.platforms ≠ [] → ∃ p ∈ g.platform, p ∈ f.platforms) ∧
    (f.genres ≠ [] → ∃ x ∈ g.genre, x ∈ f.genres) ∧
    (∀ m, f.minRating = some m → m ≤ g.averageRating) ∧
    (∀ d, f.dateFrom = some d → ∃ r, g.releaseDate = .val r ∧ d ≤ r) ∧
    (∀ d, f.dateTo = some d → ∃ r, g.releaseDate = .val r ∧ r ≤ rt.endOfDay d)

/-- The conjunction of the filter callbacks that are active, as one test. -/
def keptBy (rt : JsRuntime) (f : GameFilters) (g : Game) : Bool :=
  (decide (f.q = "") || keywordTest rt f.q g) &&
    (decide (f.status = "") || statusTest f.status g) &&
    (decide (f.platforms.length = 0) || tagTest f.platforms g.platform) &&
    (decide (f.genres.length = 0) || tagTest f.genres g.genre) &&
    (match f.minRating with
      | some m => minRatingTest m g
      | none => true) &&
    (match f.dateFrom with
      | some d => fromTest d g
      | none => true) &&
    (match f.dateTo with
      | some d => toTest rt d g
      | none => true)

/-! ## What the specification says the derived fields are -/

/-- The non-null rating values among the reviews whose `gameId` is `gameId`. -/
def ratedValues (reviews : List Review) (gameId : ObjectId) : List ℚ :=
  reviews.filterMap (fun r =>
    if r.gameId = gameId then
      (match r.rating with
       | .val x => some x
       | _ => none)
    else none)

/-- Arithmetic mean of a list of ratings, `0` for the empty list. -/
def mean (xs : List ℚ) : ℚ :=
  if xs.length = 0 then 0 else xs.sum / (xs.length : ℚ)

/-- The sum of a list of doubles as JavaScript accumulates it from `0`, left to right, each
partial sum rounded to the nearest double. -/
def floatSum (xs : List ℚ) : ℚ :=
  xs.foldl (fun acc x => roundDouble (acc + x)) 0

/-- The derived fields of game `g` agree with the reviews `reviews`. -/
def Game.agrees (g : Game) (reviews : List Review) : Prop :=
  g.averageRating = mean (ratedValues reviews g._id) ∧
    g.totalRatings = ((ratedValues reviews g._id).length : ℚ)

/-- Every game's derived fields agree with the stored reviews. -/
def RatingsAgree (s : Store) : Prop :=
  ∀ g ∈ s.games, g.agrees s.reviews

/-- One call of the review service. -/
inductive ReviewCall where
  | create (user : User) (body : CreateReviewBody) : ReviewCall
  | update (user : User) (id : ObjectId) (body : UpdateReviewBody) : ReviewCall
  | delete (user : User) (id : ObjectId) : ReviewCall
deriving DecidableEq, Repr

/-- The store after one call; the answer sent back is dropped. -/
def ReviewCall.run (s : Store) : ReviewCall → Store
  | .create user body => (createReview s user body).1
  | .update user id body => (updateReview s user id body).1
  | .delete user id => (deleteReview s user id).1

/-- The store after a sequence of calls, executed one after another. -/
def runCalls (s : Store) (calls : List ReviewCall) : Store :=
  calls.foldl ReviewCall.run s

/-- The derived fields of the game found under `gameId`, if there is one. -/
def ratingOf (s : Store) (gameId : ObjectId) : Option (ℚ × ℚ) :=
  (Game.findById s.games gameId).map (fun g => (g.averageRating, g.totalRatings))

/-- Overwrite the two derived fields of a game. -/
def Game.setRating (avg total : ℚ) (g : Game) : Game :=
  { g with averageRating := avg, totalRatings := total }

/-- The document `Review.create` builds from its fields. -/
def Review.fresh (s : Store) (userId gameId : ObjectId) (text : JsField String)
    (rating : JsField ℚ) : Review :=
  { _id := s.nextId, userId := userId, gameId := gameId, text := text, rating := rating }

/-- The store once `doc` is inserted into the `Review` collection. -/
def Store.insertReview (s : Store) (doc : Review) : Store :=
  { s with reviews := s.reviews ++ [doc], nextId := s.nextId + 1 }

/-- The loaded review after the two assignments of `updateReview`. -/
def Review.patched (review : Review) (body : UpdateReviewBody) : Review :=
  { review with
    text := if body.text.isDefined then body.text else review.text
    rating := if body.rating.isDefined then body.rating else review.rating }

/-! ## Concrete stores and requests -/

namespace Sample

/-- A registered user. -/
def alice : User := { _id := 101, userType := "Registered" }

/-- Another registered user. -/
def bob : User := { _id := 102, userType := "Registered" }

/-- An administrator. -/
def root : User := { _id := 100, userType := "Admin" }

/-- A game with two ratings, `4` and `2`. -/
def nova : Game :=
  { _id := 1, title := "Nova", description := .undefined, releaseDate := .undefined,
    platform := [], genre := [], imageURL := .undefined, status := .val "Upcoming",
    averageRating := 3, totalRatings := 2 }

/-- A game with one text-only review. -/
def orbit : Game :=
  { _id := 2, title := "Orbit", description := .undefined, releaseDate := .undefined,
    platform := ["PC"], genre := [], imageURL := .undefined, status := .val "Released",
    averageRating := 0, totalRatings := 0 }

/-- The review of `alice` on `nova`. -/
def r10 : Review := { _id := 10, userId := 101, gameId := 1, text := .undefined, rating := .val 4 }

/-- The review of `bob` on `nova`. -/
def r11 : Review := { _id := 11, userId := 102, gameId := 1, text := .val "ok", rating := .val 2 }

/-- The text-only review of `alice` on `orbit`. -/
def r12 : Review := { _id := 12, userId := 101, gameId := 2, text := .val "fun", rating := .null }

/-- A store whose derived fields agree with its reviews. -/
def store : Store :=
  { games := [nova, orbit], reviews := [r10, r11, r12], favorites := [], nextId := 13 }

/-- The same store with wrong derived fields on `nova`. -/
def stale : Store :=
  { games := [{ nova with averageRating := 5, totalRatings := 9 }, orbit],
    reviews := [r10, r11, r12], favorites := [], nextId := 13 }

/-- A mixed sequence of accepted and rejected calls. -/
def calls : List ReviewCall :=
  [ .create bob { gameId := .val 2, text := .undefined, rating := .val 5 },
    .update alice 10 { text := .val "meh", rating := .null },
    .delete alice 11,
    .create alice { gameId := .undefined, text := .val "x", rating := .val 3 },
    .update bob 11 { text := .undefined, rating := .val 7 },
    .delete root 11 ]

end Sample

namespace Sample

/-- The favorite of `alice` on `nova`. -/
def f20 : Favorite := { _id := 20, userId := 101, gameId := 1 }

/-- The favorite of `bob` on `nova`. -/
def f21 : Favorite := { _id := 21, userId := 102, gameId := 1 }

/-- The favorite of `alice` on `orbit`. -/
def f22 : Favorite := { _id := 22, userId := 101, gameId := 2 }

/-- The store `store` with three favorites. -/
def shelf : Store :=
  { games := [nova, orbit], reviews := [r10, r11, r12], favorites := [f20, f21, f22],
    nextId := 23 }

end Sample

namespace Sample

/-- A second review of `nova` rated `4`. -/
def r13 : Review := { _id := 13, userId := 102, gameId := 1, text := .undefined, rating := .val 4 }

/-- A review of `nova` rated `5`. -/
def r14 : Review := { _id := 14, userId := 103, gameId := 1, text := .undefined, rating := .val 5 }

/-- A store in which `nova` has the ratings `4`, `4` and `5`. -/
def trio : Store :=
  { games := [nova, orbit], reviews := [r10, r13, r14, r12], favorites := [], nextId := 15 }

end Sample

/-! ## The scenario of the specification -/

namespace Scenario

/-- The empty store. -/
def s0 : Store := { games := [], reviews := [], favorites := [], nextId := 1 }

/-- Game `g1` is created with only a title; it gets id `1`. -/
def s1 : Store := (createGame s0 { title := .val "Nova" }).1

/-- User `u1` reviews `g1` with rating `4`; the review gets id `2`. -/
def s2 : Store :=
  (createReview s1 Sample.alice { gameId := .val 1, text := .undefined, rating := .val 4 }).1

/-- User `u2` reviews `g1` with rating `2`; the review gets id `3`. -/
def s3 : Store :=
  (createReview s2 Sample.bob { gameId := .val 1, text := .undefined, rating := .val 2 }).1

/-- The first review is deleted by its author. -/
def s4 : Store := (deleteReview s3 Sample.alice 2).1

/-- The remaining review is deleted by its author. -/
def s5 : Store := (deleteReview s4 Sample.bob 3).1

/-- Game `g1` as stored, with the given derived fields. -/
def g1 (avg total : ℚ) : Game :=
  { _id := 1, title := "Nova", description := .undefined, releaseDate := .undefined,
    platform := [], genre := [], imageURL := .undefined, status := .val "Upcoming",
    averageRating := avg, totalRatings := total }

end Scenario

/-! ## Lemmas on the persistence calls -/

theorem Review.findById_id {rs : List Review} {id : ObjectId} {r : Review}
    (h : Review.findById rs id = some r) : r._id = id := by
  have := List.find?_some h
  simpa using this

theorem Review.findById_mem {rs : List Review} {id : ObjectId} {r : Review}
    (h : Review.findById rs id = some r) : r ∈ rs :=
  List.mem_of_find?_eq_some h

theorem Game.findByIdAndUpdate_ids (gs : List Game) (id : ObjectId) (f : Game → Game)
    (hf : ∀ g, (f g)._id = g._id) :
    (Game.findByIdAndUpdate gs id f).map (fun g => g._id) = gs.map (fun g => g._id) := by
  induction gs with
  | nil => rfl
  | cons g gs ih =>
    by_cases h : g._id = id
    · simp [Game.findByIdAndUpdate, h, hf]
    · simp [Game.findByIdAndUpdate, h, ih]

theorem Game.mem_findByIdAndUpdate (gs : List Game) (id : ObjectId) (f : Game → Game)
    (hnd : (gs.map (fun g => g._id)).Nodup) (x : Game)
    (hx : x ∈ Game.findByIdAndUpdate gs id f) :
    (x ∈ gs ∧ x._id ≠ id) ∨ (∃ g ∈ gs, g._id = id ∧ x = f g) := by
  induction gs with
  | nil => simp [Game.findByIdAndUpdate] at hx
  | cons g gs ih =>
    simp only [List.map_cons, List.nodup_cons, List.mem_map, not_exists, not_and] at hnd
    by_cases h : g._id = id
    · simp only [Game.findByIdAndUpdate, h, beq_self_eq_true, if_true, List.mem_cons] at hx
      rcases hx with hx | hx
      · exact Or.inr ⟨g, List.mem_cons_self _ _, h, hx⟩
      · refine Or.inl ⟨List.mem_cons_of_mem _ hx, fun hxid => hnd.1 x hx ?_⟩
        rw [hxid, h]
    · have hb : (g._id == id) = false := by simpa using h
      simp only [Game.findByIdAndUpdate, hb, Bool.false_eq_true, if_false, List.mem_cons] at hx
      rcases hx with hx | hx
      · subst hx
        exact Or.inl ⟨List.mem_cons_self _ _, h⟩
      · rcases ih hnd.2 hx with ⟨hm, hne⟩ | ⟨g0, hm, hid, hxe⟩
        · exact Or.inl ⟨List.mem_cons_of_mem _ hm, hne⟩
        · exact Or.inr ⟨g0, List.mem_cons_of_mem _ hm, hid, hxe⟩

theorem Game.findById_findByIdAndUpdate (gs : List Game) (id id2 : ObjectId) (f : Game → Game)
    (hf : ∀ g, (f g)._id = g._id) :
    Game.findById (Game.findByIdAndUpdate gs id f) id2 =
      if id2 = id then (Game.findById gs id2).map f else Game.findById gs id2 := by
  induction gs with
  | nil => simp [Game.findByIdAndUpdate, Game.findById]
  | cons g gs ih =>
    unfold Game.findById at ih ⊢
    by_cases h : g._id = id
    · by_cases h2 : id2 = id
      · simp [Game.findByIdAndUpdate, h, h2, hf]
      · have : ¬ id = id2 := fun e => h2 e.symm
        simp [Game.findByIdAndUpdate, h, h2, hf, List.find?_cons, this]
    · have hb : (g._id == id) = false := by simpa using h
      simp only [Game.findByIdAndUpdate, hb, Bool.false_eq_true, if_false, List.find?_cons]
      by_cases h3 : g._id = id2
      · have : ¬ id2 = id := fun e => h (h3.trans e)
        simp [h3, this]
      · have hb3 : (g._id == id2) = false := by simpa using h3
        simp only [hb3]
        exact ih

theorem Game.findByIdAndUpdate_idem (gs : List Game) (id : ObjectId) (f : Game → Game)
    (hf : ∀ g, (f g)._id = g._id) (hff : ∀ g, f (f g) = f g) :
    Game.findByIdAndUpdate (Game.findByIdAndUpdate gs id f) id f =
      Game.findByIdAndUpdate gs id f := by
  induction gs with
  | nil => rfl
  | cons g gs ih =>
    by_cases h : g._id = id
    · simp [Game.findByIdAndUpdate, h, hf, hff]
    · simp [Game.findByIdAndUpdate, h, ih]

theorem Game.findByIdAndUpdate_of_not_found (gs : List Game) (id : ObjectId) (f : Game → Game)
    (h : Game.findById gs id = none) : Game.findByIdAndUpdate gs id f = gs := by
  induction gs with
  | nil => rfl
  | cons g gs ih =>
    unfold Game.findById at h ih
    by_cases hg : g._id = id
    · simp [List.find?_cons, hg] at h
    · have hb : (g._id == id) = false := by simpa using hg
      simp only [List.find?_cons, hb] at h
      simp [Game.findByIdAndUpdate, hg, ih h]

/-! ## The aggregator computes the specified mean -/

theorem foldl_add_orElse (l : List Review) (a : ℚ) :
    l.foldl (fun acc r => acc + r.rating.orElse 0) a =
      a + (l.map (fun r => r.rating.orElse 0)).sum := by
  induction l generalizing a with
  | nil => simp
  | cons r l ih => simp [ih, add_assoc]

theorem findRated_cons (r : Review) (rs : List Review) (gameId : ObjectId) :
    Review.findRated (r :: rs) gameId =
      if (r.gameId == gameId && !r.rating.isNullish) = true then
        r :: Review.findRated rs gameId
      else Review.findRated rs gameId := by
  simp [Review.findRated, List.filter_cons]

theorem ratedValues_cons (r : Review) (rs : List Review) (gameId : ObjectId) :
    ratedValues (r :: rs) gameId = ratedValues [r] gameId ++ ratedValues rs gameId := by
  have : r :: rs = [r] ++ rs := rfl
  rw [this]
  simp only [ratedValues, List.filterMap_append]

theorem ratedValues_single_other (r : Review) (gameId : ObjectId) (h : r.gameId ≠ gameId) :
    ratedValues [r] gameId = [] := by
  simp [ratedValues, h]

theorem ratedValues_single_nullish (r : Review) (gameId : ObjectId)
    (h : r.rating.isNullish = true) : ratedValues [r] gameId = [] := by
  cases hr : r.rating with
  | undefined => simp [ratedValues, hr]
  | null => simp [ratedValues, hr]
  | val v => simp [hr, JsField.isNullish] at h

theorem ratedValues_single_val (r : Review) (gameId : ObjectId) (v : ℚ)
    (hg : r.gameId = gameId) (hr : r.rating = .val v) : ratedValues [r] gameId = [v] := by
  simp [ratedValues, hg, hr]

theorem findRated_map_orElse (rs : List Review) (gameId : ObjectId) :
    (Review.findRated rs gameId).map (fun r => r.rating.orElse 0) = ratedValues rs gameId := by
  induction rs with
  | nil => rfl
  | cons r rs ih =>
    rw [findRated_cons, ratedValues_cons]
    by_cases hg : r.gameId = gameId
    · cases hr : r.rating with
      | undefined =>
        rw [ratedValues_single_nullish r gameId (by rw [hr]; rfl)]
        simp [JsField.isNullish, ih]
      | null =>
        rw [ratedValues_single_nullish r gameId (by rw [hr]; rfl)]
        simp [JsField.isNullish, ih]
      | val v =>
        rw [ratedValues_single_val r gameId v hg hr]
        have hc : (r.gameId == gameId && !(JsField.val v : JsField ℚ).isNullish) = true := by
          simp [hg, JsField.isNullish]
        rw [if_pos hc, List.map_cons, ih]
        by_cases hv : v = 0
        · simp [hr, JsField.orElse, hv]
        · simp [hr, JsField.orElse, hv]
    · rw [ratedValues_single_other r gameId hg]
      simp [hg, ih]

theorem findRated_length (rs : List Review) (gameId : ObjectId) :
    (Review.findRated rs gameId).length = (ratedValues rs gameId).length := by
  rw [← findRated_map_orElse, List.length_map]

theorem findRated_sum (rs : List Review) (gameId : ObjectId) :
    (Review.findRated rs gameId).foldl (fun acc r => acc + r.rating.orElse 0) 0 =
      (ratedValues rs gameId).sum := by
  rw [foldl_add_orElse, findRated_map_orElse, zero_add]

/-- The aggregator writes the mean and the count of the rated values onto the game. -/
theorem recalculateGameRating_eq (s : Store) (gameId : ObjectId) :
    recalculateGameRating s gameId =
      { s with games := (Game.findByIdAndUpdate s.games gameId
          (Game.setRating (mean (ratedValues s.reviews gameId))
            ((ratedValues s.reviews gameId).length : ℚ))) } := by
  unfold recalculateGameRating
  simp only [findRated_length, findRated_sum]
  by_cases h : (ratedValues s.reviews gameId).length = 0
  · simp only [h, mean, if_true, Nat.cast_zero]
    rfl
  · simp only [h, mean, if_false]
    rfl

theorem setRating_id (a t : ℚ) (g : Game) : (Game.setRating a t g)._id = g._id := rfl

theorem setRating_agrees (rs : List Review) (g : Game) :
    (Game.setRating (mean (ratedValues rs g._id)) ((ratedValues rs g._id).length : ℚ) g).agrees
      rs :=
  ⟨rfl, rfl⟩

theorem recalculateGameRating_reviews (s : Store) (gameId : ObjectId) :
    (recalculateGameRating s gameId).reviews = s.reviews := by
  rw [recalculateGameRating_eq]

theorem recalculateGameRating_ids (s : Store) (gameId : ObjectId) :
    (recalculateGameRating s gameId).games.map (fun g => g._id) =
      s.games.map (fun g => g._id) := by
  rw [recalculateGameRating_eq]
  exact Game.findByIdAndUpdate_ids _ _ _ (setRating_id _ _)

/-- After a recomputation for `gameId` every game agrees with the reviews, provided the
games other than `gameId` did before. -/
theorem recalculateGameRating_agree (s : Store) (gameId : ObjectId)
    (hnd : (s.games.map (fun g => g._id)).Nodup)
    (h : ∀ g ∈ s.games, g._id ≠ gameId → g.agrees s.reviews) :
    RatingsAgree (recalculateGameRating s gameId) := by
  intro x hx
  rw [recalculateGameRating_reviews]
  rw [recalculateGameRating_eq] at hx
  rcases Game.mem_findByIdAndUpdate _ _ _ hnd x hx with ⟨hm, hne⟩ | ⟨g, _, hid, hxe⟩
  · exact h x hm hne
  · subst hxe
    subst hid
    exact setRating_agrees s.reviews g

/-! ## Rounding to the nearest double -/

theorem roundHalfEven_intCast (z : ℤ) : roundHalfEven (z : ℚ) = z := by
  simp [roundHalfEven]

theorem roundHalfEven_of_lt (q : ℚ) (f : ℤ) (h1 : (f : ℚ) ≤ q) (h2 : q < f + 1 / 2) :
    roundHalfEven q = f := by
  have hf : ⌊q⌋ = f := by
    rw [Int.floor_eq_iff]
    constructor
    · exact h1
    · linarith
  unfold roundHalfEven
  simp only [hf]
  rw [if_pos (by linarith)]

theorem roundHalfEven_of_gt (q : ℚ) (f : ℤ) (h1 : (f : ℚ) + 1 / 2 < q) (h2 : q < f + 1) :
    roundHalfEven q = f + 1 := by
  have hf : ⌊q⌋ = f := by
    rw [Int.floor_eq_iff]
    constructor
    · linarith
    · exact h2
  unfold roundHalfEven
  simp only [hf]
  rw [if_neg (by linarith), if_pos (by linarith)]

theorem roundHalfEven_abs_sub_le (q : ℚ) : |(roundHalfEven q : ℚ) - q| ≤ 1 / 2 := by
  have h1 : ((⌊q⌋ : ℤ) : ℚ) ≤ q := Int.floor_le q
  have h2 : q < (⌊q⌋ : ℚ) + 1 := Int.lt_floor_add_one q
  unfold roundHalfEven
  simp only
  rw [abs_le]
  split_ifs with ha hb hc
  · constructor <;> linarith
  · push_cast
    constructor <;> linarith
  · constructor <;> linarith
  · push_cast
    constructor <;> linarith

theorem binade_eq (x : ℚ) (e : ℤ) (he : -1022 ≤ e) (h1 : (2 : ℚ) ^ e ≤ |x|)
    (h2 : |x| < (2 : ℚ) ^ (e + 1)) : binade x = e := by
  have hpos : (0 : ℚ) < |x| := lt_of_lt_of_le (by positivity) h1
  have hl : Int.log 2 |x| = e := by
    apply le_antisymm
    · have := (Int.lt_zpow_iff_log_lt (b := 2) (by norm_num) hpos (x := e + 1)).1
        (by exact_mod_cast h2)
      omega
    · exact (Int.zpow_le_iff_le_log (b := 2) (by norm_num) hpos).1 (by exact_mod_cast h1)
  unfold binade
  rw [hl]
  exact max_eq_left he

theorem binade_le_two (x : ℚ) (h : |x| < 8) : binade x ≤ 2 := by
  unfold binade
  apply max_le
  · by_cases h0 : |x| = 0
    · rw [h0]; simp
    · have hpos : (0 : ℚ) < |x| := lt_of_le_of_ne (abs_nonneg x) (Ne.symm h0)
      have := (Int.lt_zpow_iff_log_lt (b := 2) (by norm_num) hpos (x := 3)).1
        (by norm_num; exact h)
      omega
  · norm_num

/-- Rounding moves a number by at most half the spacing of the doubles around it. -/
theorem roundDouble_abs_sub_le (x : ℚ) :
    |roundDouble x - x| ≤ (2 : ℚ) ^ (binade x - 53) := by
  have hu : (0 : ℚ) < 2 ^ (binade x - 52) := by positivity
  have h := roundHalfEven_abs_sub_le (x / 2 ^ (binade x - 52))
  have e1 : roundDouble x - x =
      ((roundHalfEven (x / 2 ^ (binade x - 52)) : ℚ) - x / 2 ^ (binade x - 52)) *
        2 ^ (binade x - 52) := by
    unfold roundDouble
    field_simp
  have e2 : (2 : ℚ) ^ (binade x - 53) = 1 / 2 * 2 ^ (binade x - 52) := by
    rw [show binade x - 53 = (binade x - 52) - 1 by ring, zpow_sub_one₀ (by norm_num)]
    ring
  rw [e1, e2, abs_mul, abs_of_pos hu]
  exact mul_le_mul_of_nonneg_right h hu.le

/-- A whole number below `2 ^ 53` is a double. -/
theorem roundDouble_natCast (n : ℕ) (h : n < 2 ^ 53) : roundDouble (n : ℚ) = n := by
  have hb : binade (n : ℚ) ≤ 52 := by
    unfold binade
    rw [abs_of_nonneg (by positivity), Int.log_natCast]
    apply max_le
    · by_cases h0 : n = 0
      · subst h0; simp
      · have := Nat.log_lt_of_lt_pow h0 h
        omega
    · norm_num
  unfold roundDouble
  simp only
  obtain ⟨k, hk⟩ : ∃ k : ℕ, binade (n : ℚ) - 52 = -(k : ℤ) :=
    ⟨(52 - binade (n : ℚ)).toNat, by omega⟩
  rw [hk, zpow_neg, zpow_natCast, div_inv_eq_mul]
  have : ((n : ℚ) * 2 ^ k) = (((n * 2 ^ k : ℕ) : ℤ) : ℚ) := by push_cast; ring
  rw [this, roundHalfEven_intCast]
  push_cast
  field_simp

theorem roundDouble_thirteen_thirds :
    roundDouble (13 / 3) = 4878899596318037 / 1125899906842624 := by
  have hb : binade (13 / 3 : ℚ) = 2 := by
    apply binade_eq
    · norm_num
    · rw [abs_of_nonneg (by norm_num)]; norm_num
    · rw [abs_of_nonneg (by norm_num)]; norm_num
  unfold roundDouble
  simp only [hb]
  rw [roundHalfEven_of_lt _ 4878899596318037 (by norm_num) (by norm_num)]
  norm_num

theorem roundDouble_one_tenth :
    roundDouble (1 / 10) = 3602879701896397 / 2 ^ 55 := by
  have hb : binade (1 / 10 : ℚ) = -4 := by
    apply binade_eq
    · norm_num
    · rw [abs_of_nonneg (by norm_num)]; norm_num
    · rw [abs_of_nonneg (by norm_num)]; norm_num
  unfold roundDouble
  simp only [hb]
  rw [roundHalfEven_of_gt _ 7205759403792793 (by norm_num) (by norm_num)]
  norm_num

theorem foldl_roundDouble_whole (xs : List ℚ) (a : ℕ)
    (hx : ∀ v ∈ xs, ∃ n : ℕ, v = n ∧ n ≤ 5) (ha : a + 5 * xs.length < 2 ^ 53) :
    xs.foldl (fun acc x => roundDouble (acc + x)) (a : ℚ) = (a : ℚ) + xs.sum := by
  induction xs generalizing a with
  | nil => simp
  | cons x xs ih =>
    obtain ⟨n, hn, hn5⟩ := hx x (List.mem_cons_self _ _)
    have hxs : ∀ v ∈ xs, ∃ n : ℕ, v = n ∧ n ≤ 5 := fun v hv =>
      hx v (List.mem_cons_of_mem _ hv)
    simp only [List.length_cons] at ha
    have hr : roundDouble ((a : ℚ) + x) = ((a + n : ℕ) : ℚ) := by
      rw [hn, ← Nat.cast_add]
      exact roundDouble_natCast _ (by omega)
    rw [List.foldl_cons, hr, ih (a + n) hxs (by omega), List.sum_cons, hn]
    push_cast
    ring

/-- Whole ratings from `0` to `5`, fewer than `2 ^ 50` of them, are summed without error. -/
theorem floatSum_whole (xs : List ℚ) (hx : ∀ v ∈ xs, ∃ n : ℕ, v = n ∧ n ≤ 5)
    (hl : xs.length < 2 ^ 50) : floatSum xs = xs.sum := by
  have h := foldl_roundDouble_whole xs 0 hx (by omega)
  simpa [floatSum] using h

theorem sum_whole_le (xs : List ℚ) (hx : ∀ v ∈ xs, ∃ n : ℕ, v = n ∧ n ≤ 5) :
    0 ≤ xs.sum ∧ xs.sum ≤ 5 * (xs.length : ℚ) := by
  induction xs with
  | nil => simp
  | cons x xs ih =>
    obtain ⟨n, hn, hn5⟩ := hx x (List.mem_cons_self _ _)
    have := ih (fun v hv => hx v (List.mem_cons_of_mem _ hv))
    have h0 : (0 : ℚ) ≤ n := by positivity
    have h5 : (n : ℚ) ≤ 5 := by exact_mod_cast hn5
    rw [List.sum_cons, List.length_cons, hn]
    push_cast
    constructor <;> linarith

theorem findRated_floatSum (rs : List Review) (gameId : ObjectId) :
    (Review.findRated rs gameId).foldl (fun acc r => roundDouble (acc + r.rating.orElse 0)) 0 =
      floatSum (ratedValues rs gameId) := by
  rw [← findRated_map_orElse, floatSum, List.foldl_map]

/-- The aggregator in double precision writes the rounded quotient and the count. -/
theorem Binary64.recalculateGameRating_rounded (s : Store) (gameId : ObjectId) :
    Binary64.recalculateGameRating s gameId =
      { s with games := (Game.findByIdAndUpdate s.games gameId
          (Game.setRating
            (if (ratedValues s.reviews gameId).length = 0 then 0
              else roundDouble (floatSum (ratedValues s.reviews gameId) /
                ((ratedValues s.reviews gameId).length : ℚ)))
            ((ratedValues s.reviews gameId).length : ℚ))) } := by
  unfold Binary64.recalculateGameRating
  simp only [findRated_length, findRated_floatSum]
  by_cases h : (ratedValues s.reviews gameId).length = 0
  · simp only [h, if_true, Nat.cast_zero]
    rfl
  · simp only [h, if_false]
    rfl

/-! ## How the rated values of a game move when one review changes -/

theorem ratedValues_append (rs : List Review) (r : Review) (gameId : ObjectId) :
    ratedValues (rs ++ [r]) gameId =
      ratedValues rs gameId ++ ratedValues [r] gameId := by
  simp [ratedValues, List.filterMap_append]

theorem ratedValues_replaceOne (rs : List Review) (id : ObjectId) (r0 doc : Review)
    (hfind : Review.findById rs id = some r0) (hid : doc._id = id)
    (hg : doc.gameId = r0.gameId) (gameId : ObjectId) (hne : r0.gameId ≠ gameId) :
    ratedValues (Review.replaceOne rs doc) gameId = ratedValues rs gameId := by
  induction rs with
  | nil => rfl
  | cons r rs ih =>
    unfold Review.findById at hfind ih
    by_cases h : r._id = id
    · have hr : r = r0 := by simpa [List.find?_cons, h] using hfind
      subst hr
      have hd : ¬ doc.gameId = gameId := by rw [hg]; exact hne
      simp [Review.replaceOne, h, hid, ratedValues, List.filterMap_cons, hne, hd]
    · have hb : (r._id == id) = false := by simpa using h
      simp only [List.find?_cons, hb] at hfind
      have hb2 : (r._id == doc._id) = false := by rw [hid]; exact hb
      have := ih hfind
      simp only [Review.replaceOne, hb2, Bool.false_eq_true, if_false]
      unfold ratedValues at this ⊢
      simp only [List.filterMap_cons, this]

theorem ratedValues_deleteOne (rs : List Review) (id : ObjectId) (r0 : Review)
    (hfind : Review.findById rs id = some r0) (gameId : ObjectId) (hne : r0.gameId ≠ gameId) :
    ratedValues (Review.deleteOne rs id) gameId = ratedValues rs gameId := by
  induction rs with
  | nil => rfl
  | cons r rs ih =>
    unfold Review.findById at hfind ih
    by_cases h : r._id = id
    · have hr : r = r0 := by simpa [List.find?_cons, h] using hfind
      subst hr
      simp [Review.deleteOne, h, ratedValues, List.filterMap_cons, hne]
    · have hb : (r._id == id) = false := by simpa using h
      simp only [List.find?_cons, hb] at hfind
      have := ih hfind
      simp only [Review.deleteOne, hb, Bool.false_eq_true, if_false]
      unfold ratedValues at this ⊢
      simp only [List.filterMap_cons, this]

/-! ## Each handler keeps the derived fields in agreement -/

theorem Game.agrees_congr (g : Game) (rs rs2 : List Review)
    (h : ratedValues rs2 g._id = ratedValues rs g._id) (hg : g.agrees rs) : g.agrees rs2 := by
  unfold Game.agrees at hg ⊢
  rw [h]
  exact hg

/-- The three outcomes of `createReview` once `gameId` is present. -/
theorem createReview_val (s : Store) (user : User) (body : CreateReviewBody) (gameId : ObjectId)
    (hg : body.gameId = .val gameId) :
    createReview s user body =
      if (body.text.falsyStr && body.rating.isNullish) = true then
        (s, { status := 400, error := some "Provide either text or rating" })
      else if (Review.fresh s user._id gameId body.text body.rating).validate = true then
        (if (!body.rating.isNullish) = true then
            recalculateGameRating
              (s.insertReview (Review.fresh s user._id gameId body.text body.rating)) gameId
          else s.insertReview (Review.fresh s user._id gameId body.text body.rating),
          { status := 201, message := some "Review added",
            review := some (Review.fresh s user._id gameId body.text body.rating) })
      else (s, { status := 500, error := some "Server error" }) := by
  unfold createReview Review.create
  rw [hg]
  simp only
  by_cases hc : (body.text.falsyStr && body.rating.isNullish) = true
  · rw [if_pos hc, if_pos hc]
  · rw [if_neg hc, if_neg hc]
    by_cases hv : (Review.fresh s user._id gameId body.text body.rating).validate = true
    · have hv2 := hv
      unfold Review.fresh at hv2
      rw [if_pos hv, if_pos hv2]
      rfl
    · have hv2 := hv
      unfold Review.fresh at hv2
      rw [if_neg hv, if_neg hv2]

/-- Without a `gameId` the request is refused. -/
theorem createReview_nullish (s : Store) (user : User) (body : CreateReviewBody)
    (hg : body.gameId.isNullish = true) :
    createReview s user body = (s, { status := 400, error := some "gameId is required" }) := by
  unfold createReview
  cases h : body.gameId with
  | undefined => rfl
  | null => rfl
  | val g => simp [h, JsField.isNullish] at hg

/-- The outcomes of `updateReview` once the review is found. -/
theorem updateReview_found (s : Store) (user : User) (id : ObjectId) (body : UpdateReviewBody)
    (r : Review) (hr : Review.findById s.reviews id = some r) :
    updateReview s user id body =
      if notAllowed r user = true then (s, { status := 403, error := some "Not allowed" })
      else if (r.patched body).validate = true then
        (recalculateGameRating
            { s with reviews := Review.replaceOne s.reviews (r.patched body) } r.gameId,
          { status := 200, message := some "Review updated", review := some (r.patched body) })
      else (s, { status := 500, error := some "Server error" }) := by
  have hp : (if body.rating.isDefined = true then
      { (if body.text.isDefined = true then { r with text := body.text } else r) with
        rating := body.rating }
      else (if body.text.isDefined = true then { r with text := body.text } else r)) =
      r.patched body := by
    unfold Review.patched
    by_cases h1 : body.text.isDefined = true <;> by_cases h2 : body.rating.isDefined = true <;>
      simp [h1, h2]
  unfold updateReview Review.save
  rw [hr]
  simp only
  by_cases hc : notAllowed r user = true
  · rw [if_pos hc, if_pos hc]
  · rw [if_neg hc, if_neg hc, hp]
    by_cases hv : (r.patched body).validate = true
    · rw [if_pos hv, if_pos hv]
      rfl
    · rw [if_neg hv, if_neg hv]

/-- The outcomes of `deleteReview` once the review is found. -/
theorem deleteReview_found (s : Store) (user : User) (id : ObjectId)
    (r : Review) (hr : Review.findById s.reviews id = some r) :
    deleteReview s user id =
      if notAllowed r user = true then (s, { status := 403, error := some "Not allowed" })
      else
        (recalculateGameRating { s with reviews := Review.deleteOne s.reviews id } r.gameId,
          { status := 200, message := some "Review deleted" }) := by
  unfold deleteReview
  rw [hr]
  simp only
  rw [Review.findById_id hr]

theorem updateReview_not_found (s : Store) (user : User) (id : ObjectId)
    (body : UpdateReviewBody) (hr : Review.findById s.reviews id = none) :
    updateReview s user id body = (s, { status := 404, error := some "Review not found" }) := by
  unfold updateReview
  rw [hr]

theorem deleteReview_not_found (s : Store) (user : User) (id : ObjectId)
    (hr : Review.findById s.reviews id = none) :
    deleteReview s user id = (s, { status := 404, error := some "Review not found" }) := by
  unfold deleteReview
  rw [hr]

theorem patched_id (r : Review) (body : UpdateReviewBody) : (r.patched body)._id = r._id := rfl

theorem patched_gameId (r : Review) (body : UpdateReviewBody) :
    (r.patched body).gameId = r.gameId := rfl

theorem createReview_ids (s : Store) (user : User) (body : CreateReviewBody) :
    (createReview s user body).1.games.map (fun g => g._id) = s.games.map (fun g => g._id) := by
  cases hg : body.gameId with
  | undefined => rw [createReview_nullish s user body (by rw [hg]; rfl)]
  | null => rw [createReview_nullish s user body (by rw [hg]; rfl)]
  | val gameId =>
    rw [createReview_val s user body gameId hg]
    split
    · rfl
    · split
      · split
        · exact recalculateGameRating_ids _ _
        · rfl
      · rfl

theorem createReview_agree (s : Store) (user : User) (body : CreateReviewBody)
    (hnd : (s.games.map (fun g => g._id)).Nodup) (h : RatingsAgree s) :
    RatingsAgree (createReview s user body).1 := by
  cases hg : body.gameId with
  | undefined => rw [createReview_nullish s user body (by rw [hg]; rfl)]; exact h
  | null => rw [createReview_nullish s user body (by rw [hg]; rfl)]; exact h
  | val gameId =>
    rw [createReview_val s user body gameId hg]
    split
    · exact h
    · split
      · split
        · show RatingsAgree (recalculateGameRating _ _)
          apply recalculateGameRating_agree
          · exact hnd
          intro g hm hne
          refine Game.agrees_congr g s.reviews _ ?_ (h g hm)
          show ratedValues (s.reviews ++ [_]) g._id = _
          rw [ratedValues_append, ratedValues_single_other _ _ (fun e => hne e.symm),
            List.append_nil]
        · rename_i hn
          intro g hm
          refine Game.agrees_congr g s.reviews _ ?_ (h g hm)
          show ratedValues (s.reviews ++ [_]) g._id = _
          rw [ratedValues_append, ratedValues_single_nullish _ _ (by simpa using hn),
            List.append_nil]
      · exact h

theorem updateReview_ids (s : Store) (user : User) (id : ObjectId) (body : UpdateReviewBody) :
    (updateReview s user id body).1.games.map (fun g => g._id) =
      s.games.map (fun g => g._id) := by
  cases hr : Review.findById s.reviews id with
  | none => rw [updateReview_not_found s user id body hr]
  | some r =>
    rw [updateReview_found s user id body r hr]
    split
    · rfl
    · split
      · exact recalculateGameRating_ids _ _
      · rfl

theorem updateReview_agree (s : Store) (user : User) (id : ObjectId) (body : UpdateReviewBody)
    (hnd : (s.games.map (fun g => g._id)).Nodup) (h : RatingsAgree s) :
    RatingsAgree (updateReview s user id body).1 := by
  cases hr : Review.findById s.reviews id with
  | none => rw [updateReview_not_found s user id body hr]; exact h
  | some r =>
    rw [updateReview_found s user id body r hr]
    split
    · exact h
    · split
      · show RatingsAgree (recalculateGameRating _ _)
        apply recalculateGameRating_agree
        · exact hnd
        intro g hm hne
        refine Game.agrees_congr g s.reviews _ ?_ (h g hm)
        have hid : (r.patched body)._id = id := (patched_id r body).trans (Review.findById_id hr)
        exact ratedValues_replaceOne s.reviews id r (r.patched body) hr hid rfl g._id
          (fun e => hne e.symm)
      · exact h

theorem deleteReview_ids (s : Store) (user : User) (id : ObjectId) :
    (deleteReview s user id).1.games.map (fun g => g._id) = s.games.map (fun g => g._id) := by
  cases hr : Review.findById s.reviews id with
  | none => rw [deleteReview_not_found s user id hr]
  | some r =>
    rw [deleteReview_found s user id r hr]
    split
    · rfl
    · exact recalculateGameRating_ids _ _

theorem deleteReview_agree (s : Store) (user : User) (id : ObjectId)
    (hnd : (s.games.map (fun g => g._id)).Nodup) (h : RatingsAgree s) :
    RatingsAgree (deleteReview s user id).1 := by
  cases hr : Review.findById s.reviews id with
  | none => rw [deleteReview_not_found s user id hr]; exact h
  | some r =>
    rw [deleteReview_found s user id r hr]
    split
    · exact h
    · show RatingsAgree (recalculateGameRating _ _)
      apply recalculateGameRating_agree
      · exact hnd
      intro g hm hne
      refine Game.agrees_congr g s.reviews _ ?_ (h g hm)
      exact ratedValues_deleteOne s.reviews id r hr g._id (fun e => hne e.symm)

theorem ReviewCall.run_ids (s : Store) (c : ReviewCall) :
    (c.run s).games.map (fun g => g._id) = s.games.map (fun g => g._id) := by
  cases c with
  | create user body => exact createReview_ids s user body
  | update user id body => exact updateReview_ids s user id body
  | delete user id => exact deleteReview_ids s user id

theorem ReviewCall.run_agree (s : Store) (c : ReviewCall)
    (hnd : (s.games.map (fun g => g._id)).Nodup) (h : RatingsAgree s) :
    RatingsAgree (c.run s) := by
  cases c with
  | create user body => exact createReview_agree s user body hnd h
  | update user id body => exact updateReview_agree s user id body hnd h
  | delete user id => exact deleteReview_agree s user id hnd h

/-! ## The claims -/

/-- C1: starting from a store whose games carry distinct ids and whose derived fields agree
with the rated reviews, after any finite sequence of `createReview`, `updateReview` and
`deleteReview` calls (accepted or rejected, run one after another) every game's
`averageRating` is the mean of the non-null ratings of its reviews and its `totalRatings`
is their number, both `0` when there are none. -/
theorem ratings_agree_after_calls (s : Store) (calls : List ReviewCall)
    (hnd : (s.games.map (fun g => g._id)).Nodup) (h : RatingsAgree s) :
    RatingsAgree (runCalls s calls) := by
  unfold runCalls
  induction calls generalizing s with
  | nil => exact h
  | cons c cs ih =>
    rw [List.foldl_cons]
    apply ih
    · show ((ReviewCall.run s c).games.map (fun g => g._id)).Nodup
      rw [ReviewCall.run_ids]
      exact hnd
    · exact ReviewCall.run_agree s c hnd h

theorem Sample.store_agrees : RatingsAgree Sample.store := by
  intro g hg
  simp only [Sample.store, List.mem_cons, List.mem_singleton, List.not_mem_nil, or_false] at hg
  have h1 : ratedValues Sample.store.reviews 1 = [4, 2] := by
    simp [ratedValues, Sample.store, Sample.r10, Sample.r11, Sample.r12]
  have h2 : ratedValues Sample.store.reviews 2 = [] := by
    simp [ratedValues, Sample.store, Sample.r10, Sample.r11, Sample.r12]
  rcases hg with rfl | rfl
  · show Sample.nova.averageRating = mean (ratedValues Sample.store.reviews 1) ∧
      Sample.nova.totalRatings = ((ratedValues Sample.store.reviews 1).length : ℚ)
    rw [h1]
    norm_num [Sample.nova, mean]
  · show Sample.orbit.averageRating = mean (ratedValues Sample.store.reviews 2) ∧
      Sample.orbit.totalRatings = ((ratedValues Sample.store.reviews 2).length : ℚ)
    rw [h2]
    norm_num [Sample.orbit, mean]

theorem Sample.store_ids : (Sample.store.games.map (fun g => g._id)).Nodup := by
  simp [Sample.store, Sample.nova, Sample.orbit]

/-- C1 at `Sample.store` and `Sample.calls`. -/
theorem ratings_agree_after_calls_witness :
    (Sample.store.games.map (fun g => g._id)).Nodup ∧ RatingsAgree Sample.store ∧
      RatingsAgree (runCalls Sample.store Sample.calls) :=
  ⟨Sample.store_ids, Sample.store_agrees,
    ratings_agree_after_calls Sample.store Sample.calls Sample.store_ids Sample.store_agrees⟩

/-- C2, as the code has it: for an existing game, `recalculateGameRating` leaves it with
`(0, 0)` when none of its reviews has a non-null rating, and otherwise with the count of
those ratings and, as average, the double-precision quotient of their double-precision sum
by that count; the game's other fields are kept. No rounding other than that of the
arithmetic is applied. When the ratings are whole numbers up to `5`, fewer than `2 ^ 50` of
them, the sum is exact and the average is the exact mean rounded once, within `2 ^ (-51)`
of it. -/
theorem recalculateGameRating_binary64 (s : Store) (gameId : ObjectId) (g : Game)
    (hg : Game.findById s.games gameId = some g) :
    (ratedValues s.reviews gameId = [] →
      Game.findById (Binary64.recalculateGameRating s gameId).games gameId =
        some { g with averageRating := 0, totalRatings := 0 }) ∧
    (ratedValues s.reviews gameId ≠ [] →
      Game.findById (Binary64.recalculateGameRating s gameId).games gameId =
        some { g with
          averageRating :=
            roundDouble (floatSum (ratedValues s.reviews gameId) /
              ((ratedValues s.reviews gameId).length : ℚ))
          totalRatings := ((ratedValues s.reviews gameId).length : ℚ) }) ∧
    ((∀ v ∈ ratedValues s.reviews gameId, ∃ n : ℕ, v = n ∧ n ≤ 5) →
      (ratedValues s.reviews gameId).length < 2 ^ 50 →
        floatSum (ratedValues s.reviews gameId) = (ratedValues s.reviews gameId).sum ∧
        |roundDouble ((ratedValues s.reviews gameId).sum /
              ((ratedValues s.reviews gameId).length : ℚ)) -
            (ratedValues s.reviews gameId).sum / ((ratedValues s.reviews gameId).length : ℚ)| ≤
          1 / 2 ^ 51) := by
  rw [Binary64.recalculateGameRating_rounded]
  simp only
  rw [Game.findById_findByIdAndUpdate _ _ _ _ (setRating_id _ _), if_pos rfl, hg]
  refine ⟨?_, ?_, ?_⟩
  · intro h
    simp [h, Game.setRating]
  · intro h
    have hl : (ratedValues s.reviews gameId).length ≠ 0 := by
      simpa [List.length_eq_zero] using h
    simp [hl, Game.setRating]
  · intro hw hlen
    refine ⟨floatSum_whole _ hw hlen, ?_⟩
    obtain ⟨h0, h5⟩ := sum_whole_le _ hw
    have hq0 : 0 ≤ (ratedValues s.reviews gameId).sum /
        ((ratedValues s.reviews gameId).length : ℚ) := div_nonneg h0 (by positivity)
    have hq5 : (ratedValues s.reviews gameId).sum /
        ((ratedValues s.reviews gameId).length : ℚ) ≤ 5 := by
      by_cases hl : ((ratedValues s.reviews gameId).length : ℚ) = 0
      · rw [hl, div_zero]; norm_num
      · have hp : (0 : ℚ) < ((ratedValues s.reviews gameId).length : ℚ) :=
          lt_of_le_of_ne (by positivity) (Ne.symm hl)
        rw [div_le_iff₀ hp]
        exact h5
    have hb := binade_le_two _ (by rw [abs_of_nonneg hq0]; linarith)
    refine le_trans (roundDouble_abs_sub_le _) ?_
    have : (2 : ℚ) ^ (binade ((ratedValues s.reviews gameId).sum /
        ((ratedValues s.reviews gameId).length : ℚ)) - 53) ≤ 2 ^ (-51 : ℤ) :=
      zpow_le_zpow_right₀ (by norm_num) (by omega)
    refine le_trans this ?_
    norm_num

/-- C2 (amended) at `Sample.stale`, whose game `1` carries wrong fields and has ratings `4`
and `2`: their sum `6` and the quotient `3` are doubles. -/
theorem recalculateGameRating_binary64_witness :
    Game.findById Sample.stale.games 1 =
        some { Sample.nova with averageRating := 5, totalRatings := 9 } ∧
      ratedValues Sample.stale.reviews 1 = [4, 2] ∧
      Game.findById (Binary64.recalculateGameRating Sample.stale 1).games 1 =
        some Sample.nova := by
  have hf : Game.findById Sample.stale.games 1 =
      some { Sample.nova with averageRating := 5, totalRatings := 9 } := by
    simp [Game.findById, Sample.stale, Sample.nova]
  have hv : ratedValues Sample.stale.reviews 1 = [4, 2] := by
    simp [ratedValues, Sample.stale, Sample.r10, Sample.r11, Sample.r12]
  refine ⟨hf, hv, ?_⟩
  have h := recalculateGameRating_binary64 Sample.stale 1 _ hf
  have hs : floatSum (ratedValues Sample.stale.reviews 1) = 6 := by
    rw [(h.2.2 (by rw [hv]; intro v hm; simp at hm; rcases hm with rfl | rfl
                   · exact ⟨4, by norm_num, by norm_num⟩
                   · exact ⟨2, by norm_num, by norm_num⟩)
          (by rw [hv]; norm_num)).1, hv]
    norm_num
  rw [h.2.1 (by rw [hv]; simp), hs, hv]
  have h3 : roundDouble ((6 : ℚ) / (([4, 2] : List ℚ).length : ℚ)) = 3 := by
    have := roundDouble_natCast 3 (by norm_num)
    norm_num at this ⊢
    exact this
  rw [h3]
  norm_num [Sample.nova]

/-- C2 fails as stated: with the ratings `4`, `4` and `5` the helper stores the double
`4878899596318037 / 2 ^ 50` (printed `4.333333333333333`), which is not the quotient
`13 / 3` of their sum by their count. -/
theorem recalculateGameRating_exact_counterexample :
    Game.findById Sample.trio.games 1 = some Sample.nova ∧
      ratedValues Sample.trio.reviews 1 = [4, 4, 5] ∧
      Game.findById (Binary64.recalculateGameRating Sample.trio 1).games 1 =
        some { Sample.nova with
          averageRating := 4878899596318037 / 2 ^ 50, totalRatings := 3 } ∧
      (4878899596318037 / 2 ^ 50 : ℚ) ≠ (4 + 4 + 5) / 3 := by
  have hf : Game.findById Sample.trio.games 1 = some Sample.nova := by
    simp [Game.findById, Sample.trio, Sample.nova]
  have hv : ratedValues Sample.trio.reviews 1 = [4, 4, 5] := by
    simp [ratedValues, Sample.trio, Sample.r10, Sample.r13, Sample.r14, Sample.r12]
  refine ⟨hf, hv, ?_, by norm_num⟩
  have hs : floatSum ([4, 4, 5] : List ℚ) = 13 := by
    rw [floatSum_whole _ (by
      intro v hm
      simp only [List.mem_cons, List.mem_singleton, List.not_mem_nil, or_false] at hm
      rcases hm with rfl | rfl | rfl
      · exact ⟨4, by norm_num, by norm_num⟩
      · exact ⟨4, by norm_num, by norm_num⟩
      · exact ⟨5, by norm_num, by norm_num⟩) (by norm_num)]
    norm_num
  rw [Binary64.recalculateGameRating_rounded]
  simp only
  rw [Game.findById_findByIdAndUpdate _ _ _ _ (setRating_id _ _), if_pos rfl, hf, hv, hs]
  have h3 : roundDouble ((13 : ℚ) / ((3 : ℕ) : ℚ)) = 4878899596318037 / 2 ^ 50 := by
    have := roundDouble_thirteen_thirds
    norm_num at this ⊢
    exact this
  simp only [Option.map_some', List.length_cons, List.length_nil, Nat.reduceAdd,
    OfNat.ofNat_ne_zero, if_false]
  rw [h3]
  norm_num [Game.setRating]

/-- C4: running `recalculateGameRating` twice in a row gives the same store as running it
once. -/
theorem recalculateGameRating_idem (s : Store) (gameId : ObjectId) :
    recalculateGameRating (recalculateGameRating s gameId) gameId =
      recalculateGameRating s gameId := by
  rw [recalculateGameRating_eq (recalculateGameRating s gameId) gameId,
    recalculateGameRating_reviews, recalculateGameRating_eq s gameId]
  simp only
  rw [Game.findByIdAndUpdate_idem _ _ _ (setRating_id _ _) (fun _ => rfl)]

/-- C5: `updateReview` and `deleteReview` on an existing review, by a caller who is neither
its author nor an Admin, answer 403 and leave the store as it was; the review is still
there, unchanged. -/
theorem forbidden_leaves_review (s : Store) (user : User) (id : ObjectId)
    (body : UpdateReviewBody) (r : Review) (hr : Review.findById s.reviews id = some r)
    (hauthor : user._id ≠ r.userId) (hrole : user.userType ≠ "Admin") :
    updateReview s user id body = (s, { status := 403, error := some "Not allowed" }) ∧
      deleteReview s user id = (s, { status := 403, error := some "Not allowed" }) ∧
      Review.findById (updateReview s user id body).1.reviews id = some r ∧
      Review.findById (deleteReview s user id).1.reviews id = some r := by
  have hc : notAllowed r user = true := by
    simp only [notAllowed, bne_iff_ne, ne_eq, Bool.and_eq_true, decide_eq_true_eq]
    exact ⟨fun e => hauthor e.symm, hrole⟩
  have hu := updateReview_found s user id body r hr
  have hd := deleteReview_found s user id r hr
  rw [if_pos hc] at hu hd
  rw [hu, hd]
  exact ⟨rfl, rfl, hr, hr⟩

/-- C5 at `Sample.store`: `alice` may not touch `bob`'s review `11`. -/
theorem forbidden_leaves_review_witness :
    updateReview Sample.store Sample.alice 11 { text := .val "x", rating := .val 1 } =
        (Sample.store, { status := 403, error := some "Not allowed" }) ∧
      deleteReview Sample.store Sample.alice 11 =
        (Sample.store, { status := 403, error := some "Not allowed" }) ∧
      Review.findById
          (updateReview Sample.store Sample.alice 11
            { text := .val "x", rating := .val 1 }).1.reviews 11 = some Sample.r11 ∧
      Review.findById (deleteReview Sample.store Sample.alice 11).1.reviews 11 =
        some Sample.r11 :=
  forbidden_leaves_review Sample.store Sample.alice 11 { text := .val "x", rating := .val 1 }
    Sample.r11 (by simp [Review.findById, Sample.store, Sample.r10, Sample.r11])
    (by decide) (by decide)

theorem Scenario.s1_eq : Scenario.s1 = Store.mk [Scenario.g1 0 0] [] [] 2 := by
  decide

theorem Scenario.s2_eq :
    Scenario.s2 = Store.mk [Scenario.g1 4 1] [⟨2, 101, 1, .undefined, .val 4⟩] [] 3 := by
  rw [Scenario.s2, Scenario.s1_eq]
  norm_num [createReview, Review.create, Review.validate, recalculateGameRating,
    Review.findRated, Game.findByIdAndUpdate, JsField.falsyStr, JsField.isNullish,
    JsField.orElse, Sample.alice, Scenario.g1]

theorem Scenario.s3_eq :
    Scenario.s3 =
      Store.mk [Scenario.g1 3 2]
        [⟨2, 101, 1, .undefined, .val 4⟩, ⟨3, 102, 1, .undefined, .val 2⟩] [] 4 := by
  rw [Scenario.s3, Scenario.s2_eq]
  norm_num [createReview, Review.create, Review.validate, recalculateGameRating,
    Review.findRated, Game.findByIdAndUpdate, JsField.falsyStr, JsField.isNullish,
    JsField.orElse, Sample.bob, Scenario.g1]

theorem Scenario.s4_eq :
    Scenario.s4 = Store.mk [Scenario.g1 2 1] [⟨3, 102, 1, .undefined, .val 2⟩] [] 4 := by
  rw [Scenario.s4, Scenario.s3_eq]
  norm_num [deleteReview, Review.findById, notAllowed, Review.deleteOne,
    recalculateGameRating, Review.findRated, Game.findByIdAndUpdate, JsField.isNullish,
    JsField.orElse, Sample.alice, Scenario.g1]

theorem Scenario.s5_eq : Scenario.s5 = Store.mk [Scenario.g1 0 0] [] [] 4 := by
  rw [Scenario.s5, Scenario.s4_eq]
  norm_num [deleteReview, Review.findById, notAllowed, Review.deleteOne,
    recalculateGameRating, Review.findRated, Game.findByIdAndUpdate, JsField.isNullish,
    JsField.orElse, Sample.bob, Scenario.g1]

/-- C3: the scenario. Game `g1`, created with only a title, starts at `(0, 0)`; after the
review of `u1` with rating `4` it has `(4, 1)`; after the review of `u2` with rating `2` it
has `(3, 2)`; after the first review is deleted it has `(2, 1)`; after the remaining one is
deleted it has `(0, 0)`. Every step is accepted. -/
theorem scenario_nova :
    (createGame Scenario.s0 { title := .val "Nova" }).2.status = 201 ∧
      ratingOf Scenario.s1 1 = some (0, 0) ∧
      (createReview Scenario.s1 Sample.alice
        { gameId := .val 1, text := .undefined, rating := .val 4 }).2.status = 201 ∧
      ratingOf Scenario.s2 1 = some (4, 1) ∧
      (createReview Scenario.s2 Sample.bob
        { gameId := .val 1, text := .undefined, rating := .val 2 }).2.status = 201 ∧
      ratingOf Scenario.s3 1 = some (3, 2) ∧
      (deleteReview Scenario.s3 Sample.alice 2).2.status = 200 ∧
      ratingOf Scenario.s4 1 = some (2, 1) ∧
      (deleteReview Scenario.s4 Sample.bob 3).2.status = 200 ∧
      ratingOf Scenario.s5 1 = some (0, 0) := by
  refine ⟨by decide, ?_, ?_, ?_, ?_, ?_, ?_, ?_, ?_, ?_⟩
  · rw [Scenario.s1_eq]; simp [ratingOf, Game.findById, Scenario.g1]
  · rw [Scenario.s1_eq]
    norm_num [createReview, Review.create, Review.validate, JsField.falsyStr, JsField.isNullish]
  · rw [Scenario.s2_eq]; simp [ratingOf, Game.findById, Scenario.g1]
  · rw [Scenario.s2_eq]
    norm_num [createReview, Review.create, Review.validate, JsField.falsyStr, JsField.isNullish]
  · rw [Scenario.s3_eq]; simp [ratingOf, Game.findById, Scenario.g1]
  · rw [Scenario.s3_eq]
    simp [deleteReview, Review.findById, notAllowed, Sample.alice]
  · rw [Scenario.s4_eq]; simp [ratingOf, Game.findById, Scenario.g1]
  · rw [Scenario.s4_eq]
    simp [deleteReview, Review.findById, notAllowed, Sample.bob]
  · rw [Scenario.s5_eq]; simp [ratingOf, Game.findById, Scenario.g1]

/-- C6: for an existing review, the guard of `updateReview` and `deleteReview` lets the
caller through exactly when the caller is the review's author or has role `Admin`: neither
handler answers 403 in that case, both do otherwise. -/
theorem authorization_iff (s : Store) (user : User) (id : ObjectId) (body : UpdateReviewBody)
    (r : Review) (hr : Review.findById s.reviews id = some r) :
    (notAllowed r user = false ↔ (user._id = r.userId ∨ user.userType = "Admin")) ∧
      ((updateReview s user id body).2.status ≠ 403 ↔
        (user._id = r.userId ∨ user.userType = "Admin")) ∧
      ((deleteReview s user id).2.status ≠ 403 ↔
        (user._id = r.userId ∨ user.userType = "Admin")) := by
  have hiff : notAllowed r user = false ↔ (user._id = r.userId ∨ user.userType = "Admin") := by
    unfold notAllowed
    by_cases h1 : r.userId = user._id <;> by_cases h2 : user.userType = "Admin" <;>
      simp [h1, h2]
    exact fun e => h1 e.symm
  refine ⟨hiff, ?_, ?_⟩
  · rw [updateReview_found s user id body r hr, ← hiff]
    by_cases hc : notAllowed r user = true
    · simp [hc]
    · rw [if_neg hc]
      have hcf : notAllowed r user = false := by simpa using hc
      by_cases hv : (r.patched body).validate = true
      · simp [hv, hcf]
      · simp [hv, hcf]
  · rw [deleteReview_found s user id r hr, ← hiff]
    by_cases hc : notAllowed r user = true
    · simp [hc]
    · have hcf : notAllowed r user = false := by simpa using hc
      simp [hcf]

/-- C6 at `Sample.store`: the Admin `root` is let through on `bob`'s review `11`. -/
theorem authorization_iff_witness :
    (notAllowed Sample.r11 Sample.root = false ↔
        (Sample.root._id = Sample.r11.userId ∨ Sample.root.userType = "Admin")) ∧
      ((updateReview Sample.store Sample.root 11
          { text := .undefined, rating := .val 5 }).2.status ≠ 403 ↔
        (Sample.root._id = Sample.r11.userId ∨ Sample.root.userType = "Admin")) ∧
      ((deleteReview Sample.store Sample.root 11).2.status ≠ 403 ↔
        (Sample.root._id = Sample.r11.userId ∨ Sample.root.userType = "Admin")) :=
  authorization_iff Sample.store Sample.root 11 { text := .undefined, rating := .val 5 }
    Sample.r11 (by simp [Review.findById, Sample.store, Sample.r10, Sample.r11])

/-- C7: `createReview` answers 400 and leaves the store as it was whenever `gameId` is
missing (or `null`), and whenever `text` is missing, `null` or empty while `rating` is
missing or `null`. -/
theorem createReview_validation (s : Store) (user : User) (body : CreateReviewBody)
    (h : (body.gameId = .undefined ∨ body.gameId = .null) ∨
      ((body.text = .undefined ∨ body.text = .null ∨ body.text = .val "") ∧
        (body.rating = .undefined ∨ body.rating = .null))) :
    (createReview s user body).2.status = 400 ∧ (createReview s user body).1 = s := by
  cases hg : body.gameId with
  | undefined => rw [createReview_nullish s user body (by rw [hg]; rfl)]; exact ⟨rfl, rfl⟩
  | null => rw [createReview_nullish s user body (by rw [hg]; rfl)]; exact ⟨rfl, rfl⟩
  | val gameId =>
    rw [hg] at h
    rcases h with h | ⟨ht, hrt⟩
    · rcases h with h | h <;> cases h
    · have hc : (body.text.falsyStr && body.rating.isNullish) = true := by
        rcases ht with ht | ht | ht <;> rcases hrt with hrt | hrt <;>
          simp [ht, hrt, JsField.falsyStr, JsField.isNullish]
      rw [createReview_val s user body gameId hg, if_pos hc]
      exact ⟨rfl, rfl⟩

/-- C7 at `text = ""`, `rating = null`. -/
theorem createReview_validation_witness :
    (createReview Sample.store Sample.alice
        { gameId := .val 1, text := .val "", rating := .null }).2.status = 400 ∧
      (createReview Sample.store Sample.alice
        { gameId := .val 1, text := .val "", rating := .null }).1 = Sample.store :=
  createReview_validation Sample.store Sample.alice
    { gameId := .val 1, text := .val "", rating := .null }
    (Or.inr ⟨Or.inr (Or.inr rfl), Or.inr rfl⟩)

/-- The game found under `gameId` after a recomputation carries the mean and the count. -/
theorem recalculateGameRating_lookup (s : Store) (gameId : ObjectId) (g : Game)
    (hg : Game.findById (recalculateGameRating s gameId).games gameId = some g) :
    g.averageRating = mean (ratedValues (recalculateGameRating s gameId).reviews gameId) ∧
      g.totalRatings =
        ((ratedValues (recalculateGameRating s gameId).reviews gameId).length : ℚ) := by
  rw [recalculateGameRating_reviews]
  rw [recalculateGameRating_eq] at hg
  simp only at hg
  rw [Game.findById_findByIdAndUpdate _ _ _ _ (setRating_id _ _), if_pos rfl] at hg
  cases h0 : Game.findById s.games gameId with
  | none => rw [h0] at hg; cases hg
  | some g0 =>
    rw [h0] at hg
    simp only [Option.map_some'] at hg
    cases hg
    exact ⟨rfl, rfl⟩

/-- C8, as the code has it: for a `gameId` that references no existing game, `createReview`
never answers not-found and modifies no game; when the request passes the handler's own
checks (text or rating supplied, rating missing, `null` or within 1..5) it answers 201 and
persists the review. -/
theorem createReview_unknown_game (s : Store) (user : User) (body : CreateReviewBody)
    (gameId : ObjectId) (hg : body.gameId = .val gameId)
    (hnone : Game.findById s.games gameId = none) :
    (createReview s user body).2.status ≠ 404 ∧
      (createReview s user body).1.games = s.games ∧
      ((body.text.falsyStr && body.rating.isNullish) = false →
        (Review.fresh s user._id gameId body.text body.rating).validate = true →
        (createReview s user body).2.status = 201 ∧
          (createReview s user body).1.reviews =
            s.reviews ++ [Review.mk s.nextId user._id gameId body.text body.rating]) := by
  rw [createReview_val s user body gameId hg]
  by_cases hc : (body.text.falsyStr && body.rating.isNullish) = true
  · rw [if_pos hc]
    refine ⟨by simp, rfl, fun h => ?_⟩
    rw [hc] at h
    cases h
  · rw [if_neg hc]
    by_cases hv : (Review.fresh s user._id gameId body.text body.rating).validate = true
    · rw [if_pos hv]
      refine ⟨by simp, ?_, fun _ _ => ⟨rfl, ?_⟩⟩
      · by_cases hn : (!body.rating.isNullish) = true
        · rw [if_pos hn]
          show (recalculateGameRating _ gameId).games = s.games
          rw [recalculateGameRating_eq]
          exact Game.findByIdAndUpdate_of_not_found _ _ _ hnone
        · rw [if_neg hn]
          rfl
      · by_cases hn : (!body.rating.isNullish) = true
        · rw [if_pos hn]
          show (recalculateGameRating _ gameId).reviews = _
          rw [recalculateGameRating_reviews]
          rfl
        · rw [if_neg hn]
          rfl
    · rw [if_neg hv]
      exact ⟨by simp, rfl, fun _ h => absurd h hv⟩

/-- C8 (amended) at `Sample.store`, which has no game `7`. -/
theorem createReview_unknown_game_witness :
    Game.findById Sample.store.games 7 = none ∧
      (createReview Sample.store Sample.alice
        { gameId := .val 7, text := .val "great", rating := .val 5 }).2.status ≠ 404 ∧
      (createReview Sample.store Sample.alice
        { gameId := .val 7, text := .val "great", rating := .val 5 }).1.games =
        Sample.store.games ∧
      (createReview Sample.store Sample.alice
        { gameId := .val 7, text := .val "great", rating := .val 5 }).2.status = 201 ∧
      (createReview Sample.store Sample.alice
        { gameId := .val 7, text := .val "great", rating := .val 5 }).1.reviews =
        Sample.store.reviews ++
          [Review.mk Sample.store.nextId Sample.alice._id 7 (.val "great") (.val 5)] := by
  have hnone : Game.findById Sample.store.games 7 = none := by
    simp [Game.findById, Sample.store, Sample.nova, Sample.orbit]
  have h := createReview_unknown_game Sample.store Sample.alice
    { gameId := .val 7, text := .val "great", rating := .val 5 } 7 rfl hnone
  exact ⟨hnone, h.1, h.2.1,
    h.2.2 (by decide) (by norm_num [Review.fresh, Review.validate])⟩

/-- C8 fails as stated: `Sample.store` has no game `7`, yet `createReview` for game `7`
answers 201 and persists the review. -/
theorem createReview_unknown_game_counterexample :
    Game.findById Sample.store.games 7 = none ∧
      (createReview Sample.store Sample.alice
        { gameId := .val 7, text := .val "great", rating := .val 5 }).2.status = 201 ∧
      (createReview Sample.store Sample.alice
        { gameId := .val 7, text := .val "great", rating := .val 5 }).1.reviews =
        Sample.store.reviews ++ [Review.mk 13 101 7 (.val "great") (.val 5)] := by
  have hnone : Game.findById Sample.store.games 7 = none := by
    simp [Game.findById, Sample.store, Sample.nova, Sample.orbit]
  have hv : (Review.fresh Sample.store Sample.alice._id 7 (.val "great") (.val 5)).validate
      = true := by
    norm_num [Review.fresh, Review.validate]
  refine ⟨hnone, ?_, ?_⟩
  · rw [createReview_val Sample.store Sample.alice _ 7 rfl, if_neg (by decide), if_pos hv]
  · rw [createReview_val Sample.store Sample.alice _ 7 rfl, if_neg (by decide), if_pos hv,
      if_pos (by decide)]
    show (recalculateGameRating _ 7).reviews = _
    rw [recalculateGameRating_reviews]
    rfl

/-- C9: whenever `createReview` answers 201, exactly one review is appended to the store;
its author is the authenticated caller, whatever `userId` the body carries; its `gameId`,
`text` and `rating` are those of the body; it is the review sent back. The derived fields
are recomputed exactly when a rating was supplied: without one every game record is left
as it was. -/
theorem createReview_success (s : Store) (user : User) (body : CreateReviewBody)
    (h : (createReview s user body).2.status = 201) :
    ∃ gameId, body.gameId = .val gameId ∧
      (createReview s user body).2.review =
        some (Review.mk s.nextId user._id gameId body.text body.rating) ∧
      (createReview s user body).1.reviews =
        s.reviews ++ [Review.mk s.nextId user._id gameId body.text body.rating] ∧
      (body.rating.isNullish = true → (createReview s user body).1.games = s.games) ∧
      (body.rating.isNullish = false →
        (createReview s user body).1 =
          recalculateGameRating
            (s.insertReview (Review.mk s.nextId user._id gameId body.text body.rating))
            gameId) ∧
      (createReview s user body).1.favorites = s.favorites ∧
      (∀ x, createReview s user { body with userId := x } = createReview s user body) := by
  have hex : ∃ gameId, body.gameId = .val gameId := by
    cases hg : body.gameId with
    | undefined =>
      rw [createReview_nullish s user body (by rw [hg]; rfl)] at h
      simp at h
    | null =>
      rw [createReview_nullish s user body (by rw [hg]; rfl)] at h
      simp at h
    | val gameId => exact ⟨gameId, rfl⟩
  obtain ⟨gameId, hg⟩ := hex
  have main : (createReview s user body).2.review =
        some (Review.mk s.nextId user._id gameId body.text body.rating) ∧
      (createReview s user body).1.reviews =
        s.reviews ++ [Review.mk s.nextId user._id gameId body.text body.rating] ∧
      (body.rating.isNullish = true → (createReview s user body).1.games = s.games) ∧
      (body.rating.isNullish = false →
        (createReview s user body).1 =
          recalculateGameRating
            (s.insertReview (Review.mk s.nextId user._id gameId body.text body.rating))
            gameId) ∧
      (createReview s user body).1.favorites = s.favorites := by
    rw [createReview_val s user body gameId hg] at h ⊢
    by_cases hc : (body.text.falsyStr && body.rating.isNullish) = true
    · rw [if_pos hc] at h
      simp at h
    · rw [if_neg hc] at h ⊢
      by_cases hv : (Review.fresh s user._id gameId body.text body.rating).validate = true
      · rw [if_pos hv]
        by_cases hn : body.rating.isNullish = true
        · have hn2 : ¬ (!body.rating.isNullish) = true := by simp [hn]
          rw [if_neg hn2]
          refine ⟨rfl, rfl, fun _ => rfl, fun hf => ?_, rfl⟩
          rw [hn] at hf
          cases hf
        · have hn2 : (!body.rating.isNullish) = true := by simpa using hn
          rw [if_pos hn2]
          refine ⟨rfl, ?_, fun ht => absurd ht hn, fun _ => rfl, ?_⟩
          · show (recalculateGameRating _ gameId).reviews = _
            rw [recalculateGameRating_reviews]
            rfl
          · show (recalculateGameRating _ gameId).favorites = _
            rw [recalculateGameRating_eq]
            rfl
      · rw [if_neg hv] at h
        simp at h
  exact ⟨gameId, hg, main.1, main.2.1, main.2.2.1, main.2.2.2.1, main.2.2.2.2, fun _ => rfl⟩

/-- C9 at a text-only review whose body also carries a foreign `userId`. -/
theorem createReview_success_witness :
    (createReview Sample.store Sample.alice
        { gameId := .val 1, text := .val "nice", rating := .undefined,
          userId := .val 102 }).2.status = 201 ∧
      (createReview Sample.store Sample.alice
        { gameId := .val 1, text := .val "nice", rating := .undefined,
          userId := .val 102 }).1 =
        Store.mk Sample.store.games
          (Sample.store.reviews ++ [Review.mk 13 101 1 (.val "nice") .undefined]) [] 14 ∧
      ∃ gameId, JsField.val 1 = JsField.val gameId ∧
        (createReview Sample.store Sample.alice
          { gameId := .val 1, text := .val "nice", rating := .undefined,
            userId := .val 102 }).2.review =
          some (Review.mk 13 101 gameId (.val "nice") .undefined) := by
  have hs : (createReview Sample.store Sample.alice
      { gameId := .val 1, text := .val "nice", rating := .undefined,
        userId := .val 102 }).2.status = 201 := by decide
  obtain ⟨g, hg, hrev, -⟩ := createReview_success Sample.store Sample.alice
    { gameId := .val 1, text := .val "nice", rating := .undefined, userId := .val 102 } hs
  exact ⟨hs, by decide, g, hg, hrev⟩

/-- C10: on any store, stale or not, after an accepted `createReview` with a rating, an
accepted `updateReview` or an accepted `deleteReview`, the game of the review, when it
exists, carries the mean and the count of its currently rated reviews. -/
theorem derived_fields_rederived (s : Store) (user : User) :
    (∀ (body : CreateReviewBody) (gameId : ObjectId) (g : Game),
      body.gameId = .val gameId → body.rating.isNullish = false →
      (createReview s user body).2.status = 201 →
      Game.findById (createReview s user body).1.games gameId = some g →
      g.averageRating = mean (ratedValues (createReview s user body).1.reviews gameId) ∧
        g.totalRatings =
          ((ratedValues (createReview s user body).1.reviews gameId).length : ℚ)) ∧
    (∀ (id : ObjectId) (body : UpdateReviewBody) (r : Review) (g : Game),
      Review.findById s.reviews id = some r →
      (updateReview s user id body).2.status = 200 →
      Game.findById (updateReview s user id body).1.games r.gameId = some g →
      g.averageRating = mean (ratedValues (updateReview s user id body).1.reviews r.gameId) ∧
        g.totalRatings =
          ((ratedValues (updateReview s user id body).1.reviews r.gameId).length : ℚ)) ∧
    (∀ (id : ObjectId) (r : Review) (g : Game),
      Review.findById s.reviews id = some r →
      (deleteReview s user id).2.status = 200 →
      Game.findById (deleteReview s user id).1.games r.gameId = some g →
      g.averageRating = mean (ratedValues (deleteReview s user id).1.reviews r.gameId) ∧
        g.totalRatings =
          ((ratedValues (deleteReview s user id).1.reviews r.gameId).length : ℚ)) := by
  refine ⟨?_, ?_, ?_⟩
  · intro body gameId g hg hn hst
    rw [createReview_val s user body gameId hg] at hst ⊢
    by_cases hc : (body.text.falsyStr && body.rating.isNullish) = true
    · rw [if_pos hc] at hst
      simp at hst
    · rw [if_neg hc] at hst ⊢
      by_cases hv : (Review.fresh s user._id gameId body.text body.rating).validate = true
      · have hn2 : (!body.rating.isNullish) = true := by simp [hn]
        rw [if_pos hv, if_pos hn2]
        exact recalculateGameRating_lookup _ gameId g
      · rw [if_neg hv] at hst
        simp at hst
  · intro id body r g hr hst
    rw [updateReview_found s user id body r hr] at hst ⊢
    by_cases hc : notAllowed r user = true
    · rw [if_pos hc] at hst
      simp at hst
    · rw [if_neg hc] at hst ⊢
      by_cases hv : (r.patched body).validate = true
      · rw [if_pos hv]
        exact recalculateGameRating_lookup _ r.gameId g
      · rw [if_neg hv] at hst
        simp at hst
  · intro id r g hr hst
    rw [deleteReview_found s user id r hr] at hst ⊢
    by_cases hc : notAllowed r user = true
    · rw [if_pos hc] at hst
      simp at hst
    · rw [if_neg hc]
      exact recalculateGameRating_lookup _ r.gameId g

/-- C10 at `Sample.stale`, whose game `1` wrongly carries `(5, 9)`: once `alice` changes
her rating from `4` to `5`, the game carries `(7/2, 2)`, the mean and count of `5` and `2`. -/
theorem derived_fields_rederived_witness :
    ratingOf Sample.stale 1 = some (5, 9) ∧
      (updateReview Sample.stale Sample.alice 10
        { text := .undefined, rating := .val 5 }).2.status = 200 ∧
      Game.findById
          (updateReview Sample.stale Sample.alice 10
            { text := .undefined, rating := .val 5 }).1.games 1 =
        some (Game.setRating (7 / 2) 2 Sample.nova) ∧
      ratedValues
          (updateReview Sample.stale Sample.alice 10
            { text := .undefined, rating := .val 5 }).1.reviews 1 = [5, 2] ∧
      ((7 / 2 : ℚ) =
          mean (ratedValues
            (updateReview Sample.stale Sample.alice 10
              { text := .undefined, rating := .val 5 }).1.reviews 1) ∧
        (2 : ℚ) =
          ((ratedValues
            (updateReview Sample.stale Sample.alice 10
              { text := .undefined, rating := .val 5 }).1.reviews 1).length : ℚ)) := by
  have hfind : Review.findById Sample.stale.reviews 10 = some Sample.r10 := by
    simp [Review.findById, Sample.stale, Sample.r10]
  have hst : (updateReview Sample.stale Sample.alice 10
      { text := .undefined, rating := .val 5 }).2.status = 200 := by
    rw [updateReview_found _ _ _ _ _ hfind]
    norm_num [notAllowed, Sample.alice, Sample.r10, Review.patched, Review.validate,
      JsField.isDefined]
  have hrev : (updateReview Sample.stale Sample.alice 10
      { text := .undefined, rating := .val 5 }).1.reviews =
      [{ Sample.r10 with rating := .val 5 }, Sample.r11, Sample.r12] := by
    rw [updateReview_found _ _ _ _ _ hfind]
    norm_num [notAllowed, Sample.alice, Sample.r10, Review.patched, Review.validate,
      JsField.isDefined, recalculateGameRating_reviews, Sample.stale, Review.replaceOne]
  have hvals : ratedValues
      (updateReview Sample.stale Sample.alice 10
        { text := .undefined, rating := .val 5 }).1.reviews 1 = [5, 2] := by
    rw [hrev]
    simp [ratedValues, Sample.r10, Sample.r11, Sample.r12]
  have hgame : Game.findById
      (updateReview Sample.stale Sample.alice 10
        { text := .undefined, rating := .val 5 }).1.games 1 =
      some (Game.setRating (7 / 2) 2 Sample.nova) := by
    rw [updateReview_found _ _ _ _ _ hfind]
    simp [notAllowed, Sample.alice, Sample.r10, Sample.r11, Sample.r12, Review.patched,
      Review.validate, JsField.isDefined, Sample.stale, Review.replaceOne,
      recalculateGameRating_eq, Game.findByIdAndUpdate, Game.findById, ratedValues, mean,
      Game.setRating, Sample.nova]
    norm_num
  have h := (derived_fields_rederived Sample.stale Sample.alice).2.1 10
    { text := .undefined, rating := .val 5 } Sample.r10
    (Game.setRating (7 / 2) 2 Sample.nova) hfind hst hgame
  exact ⟨by simp [ratingOf, Game.findById, Sample.stale, Sample.nova], hst, hgame, hvals, h⟩

/-! ## Claims on the review handlers, continued -/

theorem Review.findById_replaceOne (rs : List Review) (id : ObjectId) (r doc : Review)
    (hr : Review.findById rs id = some r) (hid : doc._id = id) :
    Review.findById (Review.replaceOne rs doc) id = some doc := by
  induction rs with
  | nil => simp [Review.findById] at hr
  | cons x xs ih =>
    unfold Review.findById at hr ih ⊢
    by_cases h : x._id = id
    · simp [Review.replaceOne, h, hid, List.find?_cons]
    · have hb : (x._id == id) = false := by simpa using h
      have hb2 : (x._id == doc._id) = false := by rw [hid]; exact hb
      simp only [List.find?_cons, hb] at hr
      simp only [Review.replaceOne, hb2, Bool.false_eq_true, if_false, List.find?_cons, hb]
      exact ih hr

/-- C11, as the code has it: an authorized `updateReview` whose patched review passes the
schema's validators answers 200 and stores the review with `text` replaced exactly when
`text` is present in the body (an explicit `null` clears it) and `rating` replaced exactly
when `rating` is present, its id, author and game untouched; an authorized call whose
patched review fails validation answers 500 and changes nothing. -/
theorem updateReview_fields (s : Store) (user : User) (id : ObjectId)
    (body : UpdateReviewBody) (r : Review) (hr : Review.findById s.reviews id = some r)
    (hauth : notAllowed r user = false) :
    ((r.patched body).validate = true →
      (updateReview s user id body).2.status = 200 ∧
      ∃ r2, Review.findById (updateReview s user id body).1.reviews id = some r2 ∧
        (updateReview s user id body).2.review = some r2 ∧
        r2.text = (if body.text = .undefined then r.text else body.text) ∧
        r2.rating = (if body.rating = .undefined then r.rating else body.rating) ∧
        r2._id = r._id ∧ r2.userId = r.userId ∧ r2.gameId = r.gameId) ∧
    ((r.patched body).validate = false →
      updateReview s user id body = (s, { status := 500, error := some "Server error" })) := by
  have hna : ¬ notAllowed r user = true := by simp [hauth]
  rw [updateReview_found s user id body r hr, if_neg hna]
  constructor
  · intro hv
    rw [if_pos hv]
    refine ⟨rfl, r.patched body, ?_, rfl, ?_, ?_, rfl, rfl, rfl⟩
    · show Review.findById (recalculateGameRating _ _).reviews id = _
      rw [recalculateGameRating_reviews]
      exact Review.findById_replaceOne s.reviews id r _ hr
        ((patched_id r body).trans (Review.findById_id hr))
    · cases hb : body.text <;> simp [Review.patched, JsField.isDefined, hb]
    · cases hb : body.rating <;> simp [Review.patched, JsField.isDefined, hb]
  · intro hv
    have hv2 : ¬ (r.patched body).validate = true := by simp [hv]
    rw [if_neg hv2]

/-- C11 (amended) at `Sample.store`: `bob` clears the text of his review `11` and leaves
its rating out of the body. -/
theorem updateReview_fields_witness :
    (updateReview Sample.store Sample.bob 11 { text := .null, rating := .undefined }).2.status
        = 200 ∧
      ∃ r2, Review.findById
          (updateReview Sample.store Sample.bob 11
            { text := .null, rating := .undefined }).1.reviews 11 = some r2 ∧
        (updateReview Sample.store Sample.bob 11
          { text := .null, rating := .undefined }).2.review = some r2 ∧
        r2.text = .null ∧ r2.rating = .val 2 ∧ r2._id = 11 ∧ r2.userId = 102 ∧
        r2.gameId = 1 := by
  have hr : Review.findById Sample.store.reviews 11 = some Sample.r11 := by
    simp [Review.findById, Sample.store, Sample.r10, Sample.r11]
  have hv : (Sample.r11.patched { text := .null, rating := .undefined }).validate = true := by
    norm_num [Review.patched, Review.validate, JsField.isDefined, Sample.r11]
  have h := (updateReview_fields Sample.store Sample.bob 11
    { text := .null, rating := .undefined } Sample.r11 hr (by decide)).1 hv
  obtain ⟨hst, r2, h1, h2, h3, h4, h5, h6, h7⟩ := h
  exact ⟨hst, r2, h1, h2, h3, h4, h5, h6, h7⟩

/-- C11 fails as stated: `bob` is the author of review `11`, whose text is `"ok"`; his
update with `text: null` and `rating: 9` is answered 500 and the text is not cleared. -/
theorem updateReview_fields_counterexample :
    Review.findById Sample.store.reviews 11 = some Sample.r11 ∧
      notAllowed Sample.r11 Sample.bob = false ∧
      updateReview Sample.store Sample.bob 11 { text := .null, rating := .val 9 } =
        (Sample.store, { status := 500, error := some "Server error" }) ∧
      (Review.findById
          (updateReview Sample.store Sample.bob 11
            { text := .null, rating := .val 9 }).1.reviews 11).map (fun r => r.text) =
        some (.val "ok") := by
  have hr : Review.findById Sample.store.reviews 11 = some Sample.r11 := by
    simp [Review.findById, Sample.store, Sample.r10, Sample.r11]
  have hna : ¬ notAllowed Sample.r11 Sample.bob = true := by decide
  have hv : ¬ (Sample.r11.patched { text := .null, rating := .val 9 }).validate = true := by
    norm_num [Review.patched, Review.validate, JsField.isDefined, Sample.r11]
  have he : updateReview Sample.store Sample.bob 11 { text := .null, rating := .val 9 } =
      (Sample.store, { status := 500, error := some "Server error" }) := by
    rw [updateReview_found _ _ _ _ _ hr, if_neg hna, if_neg hv]
  refine ⟨hr, by decide, he, ?_⟩
  rw [he]
  simp [hr, Sample.r11]

/-- C12: `updateReview` and `deleteReview` on an id that matches no review answer 404 for
every caller and give back the store as it was: no review or game changes and nothing is
recomputed. -/
theorem review_not_found (s : Store) (user : User) (id : ObjectId) (body : UpdateReviewBody)
    (h : Review.findById s.reviews id = none) :
    updateReview s user id body = (s, { status := 404, error := some "Review not found" }) ∧
      deleteReview s user id = (s, { status := 404, error := some "Review not found" }) :=
  ⟨updateReview_not_found s user id body h, deleteReview_not_found s user id h⟩

/-- C12 at `Sample.store`, which has no review `99`, for the Admin `root`. -/
theorem review_not_found_witness :
    updateReview Sample.store Sample.root 99 { text := .val "x", rating := .val 3 } =
        (Sample.store, { status := 404, error := some "Review not found" }) ∧
      deleteReview Sample.store Sample.root 99 =
        (Sample.store, { status := 404, error := some "Review not found" }) :=
  review_not_found Sample.store Sample.root 99 { text := .val "x", rating := .val 3 }
    (by simp [Review.findById, Sample.store, Sample.r10, Sample.r11, Sample.r12])

/-- C13: for a `gameId` that references no existing game, `recalculateGameRating` returns
the store it was given: no game is created or modified, and nothing else changes. -/
theorem recalculateGameRating_missing_game (s : Store) (gameId : ObjectId)
    (h : Game.findById s.games gameId = none) : recalculateGameRating s gameId = s := by
  rw [recalculateGameRating_eq, Game.findByIdAndUpdate_of_not_found _ _ _ h]

/-- C13 at `Sample.store`, which has no game `7`. -/
theorem recalculateGameRating_missing_game_witness :
    recalculateGameRating Sample.store 7 = Sample.store :=
  recalculateGameRating_missing_game Sample.store 7
    (by simp [Game.findById, Sample.store, Sample.nova, Sample.orbit])

/-! ## Favorites -/

theorem Favorite.findOne_eq_head (favs : List Favorite) (userId gameId : ObjectId) :
    Favorite.findOne favs userId gameId = (favoritesOf favs userId gameId).head? := by
  induction favs with
  | nil => rfl
  | cons f fs ih =>
    unfold Favorite.findOne favoritesOf at ih ⊢
    by_cases h : (f.userId == userId && f.gameId == gameId) = true
    · simp [List.find?_cons, List.filter_cons, h]
    · have hb : (f.userId == userId && f.gameId == gameId) = false := by simpa using h
      simp only [List.find?_cons, List.filter_cons, hb, Bool.false_eq_true, if_false]
      exact ih

theorem Favorite.findOne_eq_none (favs : List Favorite) (userId gameId : ObjectId) :
    Favorite.findOne favs userId gameId = none ↔ favoritesOf favs userId gameId = [] := by
  rw [Favorite.findOne_eq_head]
  cases favoritesOf favs userId gameId <;> simp

theorem favoritesOf_append (xs ys : List Favorite) (userId gameId : ObjectId) :
    favoritesOf (xs ++ ys) userId gameId =
      favoritesOf xs userId gameId ++ favoritesOf ys userId gameId := by
  simp [favoritesOf, List.filter_append]

/-- With no favorite for the pair yet, `addFavorite` creates one. -/
theorem addFavorite_new (s : Store) (user : User) (gameId : ObjectId)
    (h : favoritesOf s.favorites user._id gameId = []) :
    addFavorite s user { gameId := .val gameId } =
      (Store.mk s.games s.reviews (s.favorites ++ [Favorite.mk s.nextId user._id gameId])
          (s.nextId + 1),
        { status := 201, message := some "Added to favorites",
          favorite := some (Favorite.mk s.nextId user._id gameId) }) := by
  unfold addFavorite
  simp only
  rw [(Favorite.findOne_eq_none _ _ _).2 h]
  rfl

/-- With a favorite for the pair present, `addFavorite` refuses and changes nothing. -/
theorem addFavorite_dup (s : Store) (user : User) (gameId : ObjectId)
    (h : favoritesOf s.favorites user._id gameId ≠ []) :
    addFavorite s user { gameId := .val gameId } =
      (s, { status := 400, error := some "Game already in favorites" }) := by
  unfold addFavorite
  simp only
  cases hf : Favorite.findOne s.favorites user._id gameId with
  | none => exact absurd ((Favorite.findOne_eq_none _ _ _).1 hf) h
  | some f => rfl

/-- The two halves of `addFavorite`, run back to back, are the handler. -/
theorem addFavorite_eq_resume (s : Store) (user : User) (gameId : ObjectId) :
    addFavorite s user { gameId := .val gameId } =
      addFavoriteResume s user gameId (addFavoriteCheck s user gameId) := by
  unfold addFavorite addFavoriteResume addFavoriteCheck
  simp only
  cases Favorite.findOne s.favorites user._id gameId <;> rfl

/-- A pair that has exactly the favorite `d` keeps exactly `d` through any `addFavorite`. -/
theorem addFavorite_keeps_single (s : Store) (userId gameId : ObjectId) (d : Favorite)
    (h : favoritesOf s.favorites userId gameId = [d]) (user : User) (body : AddFavoriteBody) :
    favoritesOf (addFavorite s user body).1.favorites userId gameId = [d] := by
  obtain ⟨bg⟩ := body
  cases bg with
  | undefined => exact h
  | null => exact h
  | val g2 =>
    by_cases h2 : favoritesOf s.favorites user._id g2 = []
    · rw [addFavorite_new s user g2 h2]
      show favoritesOf (s.favorites ++ [Favorite.mk s.nextId user._id g2]) userId gameId = [d]
      rw [favoritesOf_append, h]
      have hno : favoritesOf [Favorite.mk s.nextId user._id g2] userId gameId = [] := by
        by_cases hm : user._id = userId ∧ g2 = gameId
        · obtain ⟨hu, hg⟩ := hm
          rw [hu, hg, h] at h2
          cases h2
        · have hb : (user._id == userId && g2 == gameId) = false := by
            simpa using hm
          simp [favoritesOf, List.filter_cons, hb]
      rw [hno]
      rfl
    · rw [addFavorite_dup s user g2 h2]
      exact h

theorem runAdds_keeps_single (calls : List (User × AddFavoriteBody)) (s : Store)
    (userId gameId : ObjectId) (d : Favorite)
    (h : favoritesOf s.favorites userId gameId = [d]) :
    favoritesOf (runAdds s calls).favorites userId gameId = [d] := by
  unfold runAdds
  induction calls generalizing s with
  | nil => exact h
  | cons c cs ih =>
    rw [List.foldl_cons]
    exact ih _ (addFavorite_keeps_single s userId gameId d h c.1 c.2)

/-- C14: when no favorite exists yet for the pair `(user, gameId)`, the first `addFavorite`
answers 201 and appends one favorite for it; after any further sequence of `addFavorite`
calls run one after another, for this or any other pair, one more `addFavorite` for the
pair is refused with "Game already in favorites" and changes nothing, and the favorite
created first is still the only one for the pair. -/
theorem addFavorite_once (s : Store) (user : User) (gameId : ObjectId)
    (calls : List (User × AddFavoriteBody))
    (h : favoritesOf s.favorites user._id gameId = []) :
    (addFavorite s user { gameId := .val gameId }).2.status = 201 ∧
      (addFavorite s user { gameId := .val gameId }).1.favorites =
        s.favorites ++ [Favorite.mk s.nextId user._id gameId] ∧
      addFavorite (runAdds (addFavorite s user { gameId := .val gameId }).1 calls) user
          { gameId := .val gameId } =
        (runAdds (addFavorite s user { gameId := .val gameId }).1 calls,
          { status := 400, error := some "Game already in favorites" }) ∧
      favoritesOf (runAdds (addFavorite s user { gameId := .val gameId }).1 calls).favorites
          user._id gameId = [Favorite.mk s.nextId user._id gameId] := by
  have h1 : favoritesOf (addFavorite s user { gameId := .val gameId }).1.favorites
      user._id gameId = [Favorite.mk s.nextId user._id gameId] := by
    rw [addFavorite_new s user gameId h]
    show favoritesOf (s.favorites ++ [Favorite.mk s.nextId user._id gameId]) user._id gameId
      = _
    rw [favoritesOf_append, h]
    simp [favoritesOf]
  have h2 := runAdds_keeps_single calls _ user._id gameId _ h1
  refine ⟨?_, ?_, ?_, h2⟩
  · rw [addFavorite_new s user gameId h]
  · rw [addFavorite_new s user gameId h]
  · exact addFavorite_dup _ user gameId (by rw [h2]; simp)

/-- C14 at `Sample.shelf`: `bob` adds `orbit`, then `alice` and `bob` send four more adds. -/
theorem addFavorite_once_witness :
    (addFavorite Sample.shelf Sample.bob { gameId := .val 2 }).2.status = 201 ∧
      (addFavorite Sample.shelf Sample.bob { gameId := .val 2 }).1.favorites =
        Sample.shelf.favorites ++ [Favorite.mk 23 102 2] ∧
      addFavorite
          (runAdds (addFavorite Sample.shelf Sample.bob { gameId := .val 2 }).1
            [(Sample.bob, { gameId := .val 2 }), (Sample.alice, { gameId := .val 7 }),
              (Sample.bob, { gameId := .undefined }), (Sample.bob, { gameId := .val 2 })])
          Sample.bob { gameId := .val 2 } =
        (runAdds (addFavorite Sample.shelf Sample.bob { gameId := .val 2 }).1
            [(Sample.bob, { gameId := .val 2 }), (Sample.alice, { gameId := .val 7 }),
              (Sample.bob, { gameId := .undefined }), (Sample.bob, { gameId := .val 2 })],
          { status := 400, error := some "Game already in favorites" }) ∧
      favoritesOf
          (runAdds (addFavorite Sample.shelf Sample.bob { gameId := .val 2 }).1
            [(Sample.bob, { gameId := .val 2 }), (Sample.alice, { gameId := .val 7 }),
              (Sample.bob, { gameId := .undefined }),
              (Sample.bob, { gameId := .val 2 })]).favorites 102 2 =
        [Favorite.mk 23 102 2] :=
  addFavorite_once Sample.shelf Sample.bob 2 _ (by decide)

theorem filter_not_pair_of_none (favs : List Favorite) (userId gameId : ObjectId)
    (h : favoritesOf favs userId gameId = []) :
    favs.filter (fun f => !(f.userId == userId && f.gameId == gameId)) = favs := by
  rw [List.filter_eq_self]
  intro f hf
  unfold favoritesOf at h
  rw [List.filter_eq_nil_iff] at h
  have hb : (f.userId == userId && f.gameId == gameId) = false := by
    simpa using h f hf
  rw [hb]
  rfl

/-- When at most one favorite matches, removing the first match removes every match. -/
theorem Favorite.findOneAndDelete_eq_filter (favs : List Favorite) (userId gameId : ObjectId)
    (h : (favoritesOf favs userId gameId).length ≤ 1) :
    Favorite.findOneAndDelete favs userId gameId =
      favs.filter (fun f => !(f.userId == userId && f.gameId == gameId)) := by
  induction favs with
  | nil => rfl
  | cons f fs ih =>
    by_cases hm : (f.userId == userId && f.gameId == gameId) = true
    · have hfs : favoritesOf fs userId gameId = [] := by
        have hc : favoritesOf (f :: fs) userId gameId = f :: favoritesOf fs userId gameId := by
          simp only [favoritesOf, List.filter_cons, hm, if_true]
        rw [hc, List.length_cons] at h
        exact List.length_eq_zero.1 (by omega)
      simp only [Favorite.findOneAndDelete, hm, if_true, List.filter_cons, Bool.not_true,
        Bool.false_eq_true, if_false]
      exact (filter_not_pair_of_none fs userId gameId hfs).symm
    · have hb : (f.userId == userId && f.gameId == gameId) = false := by simpa using hm
      have hc : favoritesOf (f :: fs) userId gameId = favoritesOf fs userId gameId := by
        simp only [favoritesOf, List.filter_cons, hb, Bool.false_eq_true, if_false]
      rw [hc] at h
      simp only [Favorite.findOneAndDelete, hb, Bool.false_eq_true, if_false, List.filter_cons,
        Bool.not_false, if_true]
      rw [ih h]

/-- Removing the first favorite of one pair leaves the favorites of every other pair. -/
theorem favoritesOf_findOneAndDelete_other (favs : List Favorite)
    (userId gameId u g : ObjectId) (hne : ¬ (u = userId ∧ g = gameId)) :
    favoritesOf (Favorite.findOneAndDelete favs userId gameId) u g = favoritesOf favs u g := by
  induction favs with
  | nil => rfl
  | cons f fs ih =>
    by_cases hm : (f.userId == userId && f.gameId == gameId) = true
    · have hm2 : f.userId = userId ∧ f.gameId = gameId := by simpa using hm
      have hb : (f.userId == u && f.gameId == g) = false := by
        have : ¬ (f.userId = u ∧ f.gameId = g) := by
          rintro ⟨e1, e2⟩
          exact hne ⟨e1.symm.trans hm2.1, e2.symm.trans hm2.2⟩
        simpa using this
      simp only [Favorite.findOneAndDelete, hm, if_true]
      simp only [favoritesOf, List.filter_cons, hb, Bool.false_eq_true, if_false]
    · have hb : (f.userId == userId && f.gameId == gameId) = false := by simpa using hm
      simp only [Favorite.findOneAndDelete, hb, Bool.false_eq_true, if_false]
      unfold favoritesOf at ih ⊢
      simp only [List.filter_cons, ih]

/-- Removing the first favorite of a pair never lengthens the list of any pair. -/
theorem favoritesOf_findOneAndDelete_le (favs : List Favorite) (userId gameId u g : ObjectId) :
    (favoritesOf (Favorite.findOneAndDelete favs userId gameId) u g).length ≤
      (favoritesOf favs u g).length := by
  induction favs with
  | nil => exact Nat.le_refl _
  | cons f fs ih =>
    by_cases hm : (f.userId == userId && f.gameId == gameId) = true
    · simp only [Favorite.findOneAndDelete, hm, if_true]
      unfold favoritesOf
      by_cases hb : (f.userId == u && f.gameId == g) = true
      · simp only [List.filter_cons, hb, if_true, List.length_cons]
        omega
      · have hb2 : (f.userId == u && f.gameId == g) = false := by simpa using hb
        simp only [List.filter_cons, hb2, Bool.false_eq_true, if_false]
        exact Nat.le_refl _
    · have hb : (f.userId == userId && f.gameId == gameId) = false := by simpa using hm
      simp only [Favorite.findOneAndDelete, hb, Bool.false_eq_true, if_false]
      unfold favoritesOf at ih ⊢
      by_cases hb3 : (f.userId == u && f.gameId == g) = true
      · simp only [List.filter_cons, hb3, if_true, List.length_cons]
        omega
      · have hb4 : (f.userId == u && f.gameId == g) = false := by simpa using hb3
        simp only [List.filter_cons, hb4, Bool.false_eq_true, if_false]
        exact ih

/-- Calls run one after another keep "at most one favorite per pair": `addFavorite`. -/
theorem addFavorite_keeps_unique (s : Store) (user : User) (body : AddFavoriteBody)
    (h : ∀ u g, (favoritesOf s.favorites u g).length ≤ 1) (u g : ObjectId) :
    (favoritesOf (addFavorite s user body).1.favorites u g).length ≤ 1 := by
  obtain ⟨bg⟩ := body
  cases bg with
  | undefined => exact h u g
  | null => exact h u g
  | val g2 =>
    by_cases h2 : favoritesOf s.favorites user._id g2 = []
    · rw [addFavorite_new s user g2 h2]
      show (favoritesOf (s.favorites ++ [Favorite.mk s.nextId user._id g2]) u g).length ≤ 1
      rw [favoritesOf_append, List.length_append]
      by_cases hm : user._id = u ∧ g2 = g
      · obtain ⟨hu, hg⟩ := hm
        rw [hu, hg] at h2
        rw [h2]
        simp only [favoritesOf, List.length_nil, Nat.zero_add]
        exact (List.length_filter_le _ _).trans (Nat.le_refl 1)
      · have hb : (user._id == u && g2 == g) = false := by simpa using hm
        have hno : favoritesOf [Favorite.mk s.nextId user._id g2] u g = [] := by
          simp [favoritesOf, List.filter_cons, hb]
        rw [hno]
        exact h u g
    · rw [addFavorite_dup s user g2 h2]
      exact h u g

/-- Calls run one after another keep "at most one favorite per pair": `removeFavorite`. -/
theorem removeFavorite_keeps_unique (s : Store) (user : User) (gameId : ObjectId)
    (h : ∀ u g, (favoritesOf s.favorites u g).length ≤ 1) (u g : ObjectId) :
    (favoritesOf (removeFavorite s user gameId).1.favorites u g).length ≤ 1 :=
  (favoritesOf_findOneAndDelete_le s.favorites user._id gameId u g).trans (h u g)

/-- C15: `removeFavorite` always answers 200 and touches neither games nor reviews; the
favorites of every other pair are the same as before; when the pair `(user, gameId)` had
no favorite the store is returned as it was; and when it had at most one, as in every
store built by calls run one after another, it has none afterwards and the favorites left
are exactly those of the other pairs, in their order. -/
theorem removeFavorite_spec (s : Store) (user : User) (gameId : ObjectId) :
    (removeFavorite s user gameId).2 =
        { status := 200, message := some "Removed from favorites" } ∧
      (removeFavorite s user gameId).1.games = s.games ∧
      (removeFavorite s user gameId).1.reviews = s.reviews ∧
      (∀ u g, ¬ (u = user._id ∧ g = gameId) →
        favoritesOf (removeFavorite s user gameId).1.favorites u g =
          favoritesOf s.favorites u g) ∧
      (favoritesOf s.favorites user._id gameId = [] → (removeFavorite s user gameId).1 = s) ∧
      ((favoritesOf s.favorites user._id gameId).length ≤ 1 →
        favoritesOf (removeFavorite s user gameId).1.favorites user._id gameId = [] ∧
          (removeFavorite s user gameId).1.favorites =
            s.favorites.filter (fun f => !(f.userId == user._id && f.gameId == gameId))) := by
  refine ⟨rfl, rfl, rfl, ?_, ?_, ?_⟩
  · intro u g hne
    exact favoritesOf_findOneAndDelete_other s.favorites user._id gameId u g hne
  · intro h0
    show Store.mk s.games s.reviews (Favorite.findOneAndDelete s.favorites user._id gameId)
      s.nextId = s
    rw [Favorite.findOneAndDelete_eq_filter s.favorites user._id gameId (by rw [h0]; simp),
      filter_not_pair_of_none _ _ _ h0]
  · intro h
    have hf : (removeFavorite s user gameId).1.favorites =
        s.favorites.filter (fun f => !(f.userId == user._id && f.gameId == gameId)) :=
      Favorite.findOneAndDelete_eq_filter s.favorites user._id gameId h
    refine ⟨?_, hf⟩
    rw [hf]
    unfold favoritesOf
    rw [List.filter_filter, List.filter_eq_nil_iff]
    intro f _
    cases (f.userId == user._id && f.gameId == gameId) <;> simp

/-- C15 at `Sample.shelf`: `alice` removes `nova` from her favorites. -/
theorem removeFavorite_spec_witness :
    (favoritesOf Sample.shelf.favorites 101 1).length ≤ 1 ∧
      (removeFavorite Sample.shelf Sample.alice 1).2 =
        { status := 200, message := some "Removed from favorites" } ∧
      favoritesOf (removeFavorite Sample.shelf Sample.alice 1).1.favorites 101 1 = [] ∧
      (removeFavorite Sample.shelf Sample.alice 1).1.favorites = [Sample.f21, Sample.f22] := by
  have hw : (favoritesOf Sample.shelf.favorites Sample.alice._id 1).length ≤ 1 := by decide
  have h := removeFavorite_spec Sample.shelf Sample.alice 1
  refine ⟨hw, h.1, (h.2.2.2.2.2 hw).1, ?_⟩
  rw [(h.2.2.2.2.2 hw).2]
  decide

/-- C16 at two interleaved requests: on the empty store, two `addFavorite` calls of the
same user for the same game, both checked before either creates, leave two favorites for
the pair; run one after another they leave one. -/
theorem addFavorite_interleaved_duplicate :
    favoritesOf Scenario.s0.favorites 101 1 = [] ∧
      (addFavoriteInterleaved Scenario.s0 Sample.alice 1 Sample.alice 1).favorites =
        [Favorite.mk 1 101 1, Favorite.mk 2 101 1] ∧
      (favoritesOf (addFavoriteInterleaved Scenario.s0 Sample.alice 1 Sample.alice 1).favorites
        101 1).length = 2 ∧
      (runAdds Scenario.s0
        [(Sample.alice, { gameId := .val 1 }), (Sample.alice, { gameId := .val 1 })]).favorites =
        [Favorite.mk 1 101 1] := by
  decide

/-! ## Claims on the game handlers -/

/-- C17 at a patch that carries both derived fields: game `1` of `Sample.store` has
`(3, 2)`; `updateGame` with `averageRating: 5, totalRatings: 99` answers 200 and the game
then has `(5, 99)`. -/
theorem updateGame_overwrites_derived_fields :
    ratingOf Sample.store 1 = some (3, 2) ∧
      (updateGame Sample.store 1
        { averageRating := some 5, totalRatings := some 99 }).2.status = 200 ∧
      ratingOf (updateGame Sample.store 1
        { averageRating := some 5, totalRatings := some 99 }).1 1 = some (5, 99) := by
  refine ⟨?_, ?_, ?_⟩
  · simp [ratingOf, Game.findById, Sample.store, Sample.nova]
  · simp [updateGame, Game.findById, Sample.store, Sample.nova]
  · simp [ratingOf, updateGame, Game.findById, Game.findByIdAndUpdate,
      UpdateGameBody.toUpdate, Sample.store, Sample.nova]

/-- The three outcomes of `createGame` once the body has a string title. -/
theorem createGame_val (s : Store) (body : CreateGameBody) (title : String)
    (ht : body.title = .val title) :
    createGame s body =
      if (title == "") = true then (s, { status := 400, error := some "Title is required" })
      else if (Game.fresh s title body).validate = true then
        (Store.mk (s.games ++ [Game.fresh s title body]) s.reviews s.favorites (s.nextId + 1),
          { status := 201, message := some "Game created",
            game := some (Game.fresh s title body) })
      else (s, { status := 500, error := some "Server error" }) := by
  unfold createGame Game.create
  rw [ht]
  simp only
  by_cases hc : (title == "") = true
  · rw [if_pos hc, if_pos hc]
  · rw [if_neg hc, if_neg hc]
    by_cases hv : (Game.fresh s title body).validate = true
    · have hv2 := hv
      unfold Game.fresh at hv2
      rw [if_pos hv, if_pos hv2]
      rfl
    · have hv2 := hv
      unfold Game.fresh at hv2
      rw [if_neg hv, if_neg hv2]

theorem createGame_no_title (s : Store) (body : CreateGameBody)
    (ht : body.title.isNullish = true) :
    createGame s body = (s, { status := 400, error := some "Title is required" }) := by
  unfold createGame
  cases h : body.title with
  | undefined => rfl
  | null => rfl
  | val t => simp [h, JsField.isNullish] at ht

/-- C18: whenever `createGame` stores a game (answer 201; any other answer leaves the
store as it was) that game is appended with `averageRating = 0` and `totalRatings = 0`,
and the whole outcome is the same whatever `averageRating` and `totalRatings` the body
carries. A body whose title is not blank and whose status is missing, `null` or one of the
two allowed values is answered 201. -/
theorem createGame_derived_zero (s : Store) (body : CreateGameBody) :
    ((createGame s body).2.status = 201 →
      ∃ g, (createGame s body).2.game = some g ∧
        (createGame s body).1.games = s.games ++ [g] ∧
        g.averageRating = 0 ∧ g.totalRatings = 0) ∧
    ((createGame s body).2.status ≠ 201 → (createGame s body).1 = s) ∧
    (∀ a t, createGame s { body with averageRating := a, totalRatings := t } =
      createGame s body) ∧
    (∀ title, body.title = .val title → jsTrim title ≠ "" →
      (body.status = .undefined ∨ body.status = .null ∨ body.status = .val "Upcoming" ∨
        body.status = .val "Released") →
      (createGame s body).2.status = 201) := by
  have hmain : ((createGame s body).2.status = 201 →
      ∃ g, (createGame s body).2.game = some g ∧
        (createGame s body).1.games = s.games ++ [g] ∧
        g.averageRating = 0 ∧ g.totalRatings = 0) ∧
      ((createGame s body).2.status ≠ 201 → (createGame s body).1 = s) := by
    cases hb : body.title with
    | undefined =>
      rw [createGame_no_title s body (by rw [hb]; rfl)]
      exact ⟨fun h => by simp at h, fun _ => rfl⟩
    | null =>
      rw [createGame_no_title s body (by rw [hb]; rfl)]
      exact ⟨fun h => by simp at h, fun _ => rfl⟩
    | val title =>
      rw [createGame_val s body title hb]
      by_cases hc : (title == "") = true
      · rw [if_pos hc]
        exact ⟨fun h => by simp at h, fun _ => rfl⟩
      · rw [if_neg hc]
        by_cases hv : (Game.fresh s title body).validate = true
        · rw [if_pos hv]
          exact ⟨fun _ => ⟨_, rfl, rfl, rfl, rfl⟩, fun h => absurd rfl h⟩
        · rw [if_neg hv]
          exact ⟨fun h => by simp at h, fun _ => rfl⟩
  refine ⟨hmain.1, hmain.2, fun _ _ => rfl, ?_⟩
  intro title ht hne hs
  have hne2 : ¬ (title == "") = true := by
    intro e
    have e2 : title = "" := by simpa using e
    rw [e2] at hne
    exact hne (by decide)
  have hv : (Game.fresh s title body).validate = true := by
    unfold Game.validate Game.fresh
    rcases hs with hs | hs | hs | hs <;> simp [hs, hne]
  rw [createGame_val s body title ht, if_neg hne2, if_pos hv]

/-- C18 at a body that carries `averageRating: 5` and `totalRatings: 7`. -/
theorem createGame_derived_zero_witness :
    (createGame Sample.store
        { title := .val "Zed", averageRating := .val 5, totalRatings := .val 7 }).2.status
        = 201 ∧
      ∃ g, (createGame Sample.store
          { title := .val "Zed", averageRating := .val 5, totalRatings := .val 7 }).2.game
          = some g ∧
        (createGame Sample.store
          { title := .val "Zed", averageRating := .val 5, totalRatings := .val 7 }).1.games
          = Sample.store.games ++ [g] ∧
        g.averageRating = 0 ∧ g.totalRatings = 0 := by
  have h := createGame_derived_zero Sample.store
    { title := .val "Zed", averageRating := .val 5, totalRatings := .val 7 }
  have hst := h.2.2.2 "Zed" rfl (by decide) (Or.inl rfl)
  exact ⟨hst, h.1 hst⟩

theorem Game.findById_sameId {gs : List Game} {id : ObjectId} {g : Game}
    (h : Game.findById gs id = some g) : g._id = id := by
  have := List.find?_some h
  simpa using this

/-- With distinct ids, removing the first game under `id` removes every game under `id`. -/
theorem Game.findByIdAndDelete_eq_filter (gs : List Game) (id : ObjectId)
    (hnd : (gs.map (fun g => g._id)).Nodup) :
    Game.findByIdAndDelete gs id = gs.filter (fun g => !(g._id == id)) := by
  induction gs with
  | nil => rfl
  | cons g gs ih =>
    simp only [List.map_cons, List.nodup_cons, List.mem_map, not_exists, not_and] at hnd
    by_cases h : g._id = id
    · have hrest : gs.filter (fun x => !(x._id == id)) = gs := by
        rw [List.filter_eq_self]
        intro x hx
        have hne : ¬ x._id = id := fun e => hnd.1 x hx (e.trans h.symm)
        simpa using hne
      simp [Game.findByIdAndDelete, h, List.filter_cons, hrest]
    · have hb : (g._id == id) = false := by simpa using h
      simp only [Game.findByIdAndDelete, hb, Bool.false_eq_true, if_false, List.filter_cons,
        Bool.not_false, if_true]
      rw [ih hnd.2]

/-- The outcome of `deleteGame` once the game is found. -/
theorem deleteGame_found (s : Store) (id : ObjectId) (g : Game)
    (hg : Game.findById s.games id = some g) :
    deleteGame s id =
      (Store.mk (Game.findByIdAndDelete s.games id) (Review.deleteMany s.reviews id)
          s.favorites s.nextId,
        { status := 200, message := some "Game deleted" }) := by
  unfold deleteGame
  rw [hg]
  simp only
  rw [Game.findById_sameId hg]

theorem deleteGame_not_found (s : Store) (id : ObjectId)
    (hg : Game.findById s.games id = none) :
    deleteGame s id = (s, { status := 404, error := some "Game not found" }) := by
  unfold deleteGame
  rw [hg]

/-- C19: on a store whose games carry distinct ids, after a `deleteGame` answered 200 no
game is found under that id, the games left are the other games, the reviews left are
exactly the reviews of other games, in their order, so none references the deleted game,
and the favorites are the same list as before. -/
theorem deleteGame_cascade (s : Store) (id : ObjectId)
    (hnd : (s.games.map (fun g => g._id)).Nodup)
    (hok : (deleteGame s id).2.status = 200) :
    Game.findById (deleteGame s id).1.games id = none ∧
      (deleteGame s id).1.games = s.games.filter (fun g => !(g._id == id)) ∧
      (deleteGame s id).1.reviews = s.reviews.filter (fun r => !(r.gameId == id)) ∧
      (∀ r ∈ (deleteGame s id).1.reviews, r.gameId ≠ id) ∧
      (deleteGame s id).1.favorites = s.favorites := by
  cases hg : Game.findById s.games id with
  | none =>
    rw [deleteGame_not_found s id hg] at hok
    simp at hok
  | some g =>
    rw [deleteGame_found s id g hg]
    have hgames : Game.findByIdAndDelete s.games id = s.games.filter (fun g => !(g._id == id)) :=
      Game.findByIdAndDelete_eq_filter s.games id hnd
    refine ⟨?_, hgames, rfl, ?_, rfl⟩
    · show Game.findById (Game.findByIdAndDelete s.games id) id = none
      rw [hgames]
      unfold Game.findById
      rw [List.find?_eq_none]
      intro x hx
      have := (List.mem_filter.1 hx).2
      simpa using this
    · intro r hr
      have hr2 : r ∈ Review.deleteMany s.reviews id := hr
      unfold Review.deleteMany at hr2
      have := (List.mem_filter.1 hr2).2
      simpa using this

/-- C19 at `Sample.shelf`: deleting `nova`, which has two reviews and two favorites. -/
theorem deleteGame_cascade_witness :
    (deleteGame Sample.shelf 1).2.status = 200 ∧
      Game.findById (deleteGame Sample.shelf 1).1.games 1 = none ∧
      (deleteGame Sample.shelf 1).1.games = [Sample.orbit] ∧
      (deleteGame Sample.shelf 1).1.reviews = [Sample.r12] ∧
      (deleteGame Sample.shelf 1).1.favorites = [Sample.f20, Sample.f21, Sample.f22] := by
  have hnd : (Sample.shelf.games.map (fun g => g._id)).Nodup := by
    simp [Sample.shelf, Sample.nova, Sample.orbit]
  have hok : (deleteGame Sample.shelf 1).2.status = 200 := by
    simp [deleteGame, Game.findById, Sample.shelf, Sample.nova]
  have h := deleteGame_cascade Sample.shelf 1 hnd hok
  refine ⟨hok, h.1, ?_, ?_, h.2.2.2.2⟩
  · rw [h.2.1]
    simp [Sample.shelf, Sample.nova, Sample.orbit, List.filter_cons]
  · rw [h.2.2.1]
    simp [Sample.shelf, Sample.r10, Sample.r11, Sample.r12, List.filter_cons]

/-! ## The range of a stored rating -/

theorem Review.validate_iff (r : Review) :
    r.validate = true ↔
      (r.rating = .undefined ∨ r.rating = .null ∨ ∃ x, r.rating = .val x ∧ 1 ≤ x ∧ x ≤ 5) := by
  unfold Review.validate
  cases h : r.rating with
  | undefined => simp
  | null => simp
  | val x => simp

theorem Review.validate_out_of_range (r : Review) (x : ℚ) (hr : r.rating = .val x)
    (hx : x < 1 ∨ 5 < x) : ¬ r.validate = true := by
  rw [Review.validate_iff, hr]
  rintro (h | h | ⟨y, hy, h1, h5⟩)
  · cases h
  · cases h
  · cases hy
    rcases hx with hx | hx
    · exact absurd h1 (not_le.2 hx)
    · exact absurd h5 (not_le.2 hx)

/-- C20, as the code has it: a review persisted by `createReview` (answer 201) or by
`updateReview` (answer 200) has a rating that is missing, `null` or a number between 1 and
5; a request whose rating is below 1 or above 5 is not accepted by either handler and
changes nothing; every rating between 1 and 5, whole or not, is accepted by
`createReview`. -/
theorem persisted_rating_in_range (s : Store) (user : User) :
    (∀ body, (createReview s user body).2.status = 201 →
      ∃ r, (createReview s user body).2.review = some r ∧
        (createReview s user body).1.reviews = s.reviews ++ [r] ∧
        r.rating = body.rating ∧
        (r.rating = .undefined ∨ r.rating = .null ∨
          ∃ x, r.rating = .val x ∧ 1 ≤ x ∧ x ≤ 5)) ∧
    (∀ id body, (updateReview s user id body).2.status = 200 →
      ∃ r, (updateReview s user id body).2.review = some r ∧
        (updateReview s user id body).1.reviews = Review.replaceOne s.reviews r ∧
        (r.rating = .undefined ∨ r.rating = .null ∨
          ∃ x, r.rating = .val x ∧ 1 ≤ x ∧ x ≤ 5)) ∧
    (∀ body x, body.rating = .val x → (x < 1 ∨ 5 < x) →
      (createReview s user body).1 = s ∧ (createReview s user body).2.status ≠ 201) ∧
    (∀ id body x, body.rating = .val x → (x < 1 ∨ 5 < x) →
      (updateReview s user id body).1 = s ∧ (updateReview s user id body).2.status ≠ 200) ∧
    (∀ body gameId x, body.gameId = .val gameId → body.rating = .val x → 1 ≤ x → x ≤ 5 →
      (createReview s user body).2.status = 201 ∧
        (createReview s user body).2.review =
          some (Review.mk s.nextId user._id gameId body.text (.val x))) := by
  refine ⟨?_, ?_, ?_, ?_, ?_⟩
  · intro body h
    cases hg : body.gameId with
    | undefined =>
      rw [createReview_nullish s user body (by rw [hg]; rfl)] at h
      simp at h
    | null =>
      rw [createReview_nullish s user body (by rw [hg]; rfl)] at h
      simp at h
    | val gameId =>
      rw [createReview_val s user body gameId hg] at h ⊢
      by_cases hc : (body.text.falsyStr && body.rating.isNullish) = true
      · rw [if_pos hc] at h
        simp at h
      · rw [if_neg hc]
        by_cases hv : (Review.fresh s user._id gameId body.text body.rating).validate = true
        · rw [if_pos hv]
          refine ⟨Review.fresh s user._id gameId body.text body.rating, rfl, ?_, rfl,
            (Review.validate_iff _).1 hv⟩
          by_cases hn : (!body.rating.isNullish) = true
          · rw [if_pos hn]
            show (recalculateGameRating _ gameId).reviews = _
            rw [recalculateGameRating_reviews]
            rfl
          · rw [if_neg hn]
            rfl
        · rw [if_neg hc, if_neg hv] at h
          simp at h
  · intro id body h
    cases hr : Review.findById s.reviews id with
    | none =>
      rw [updateReview_not_found s user id body hr] at h
      simp at h
    | some r0 =>
      rw [updateReview_found s user id body r0 hr] at h ⊢
      by_cases hc : notAllowed r0 user = true
      · rw [if_pos hc] at h
        simp at h
      · rw [if_neg hc]
        by_cases hv : (r0.patched body).validate = true
        · rw [if_pos hv]
          refine ⟨r0.patched body, rfl, ?_, (Review.validate_iff _).1 hv⟩
          show (recalculateGameRating _ _).reviews = _
          rw [recalculateGameRating_reviews]
        · rw [if_neg hc, if_neg hv] at h
          simp at h
  · intro body x hx hout
    cases hg : body.gameId with
    | undefined =>
      rw [createReview_nullish s user body (by rw [hg]; rfl)]
      exact ⟨rfl, by simp⟩
    | null =>
      rw [createReview_nullish s user body (by rw [hg]; rfl)]
      exact ⟨rfl, by simp⟩
    | val gameId =>
      have hc : ¬ (body.text.falsyStr && body.rating.isNullish) = true := by
        simp [hx, JsField.isNullish]
      have hv : ¬ (Review.fresh s user._id gameId body.text body.rating).validate = true :=
        Review.validate_out_of_range _ x hx hout
      rw [createReview_val s user body gameId hg, if_neg hc, if_neg hv]
      exact ⟨rfl, by simp⟩
  · intro id body x hx hout
    cases hr : Review.findById s.reviews id with
    | none =>
      rw [updateReview_not_found s user id body hr]
      exact ⟨rfl, by simp⟩
    | some r0 =>
      rw [updateReview_found s user id body r0 hr]
      by_cases hc : notAllowed r0 user = true
      · rw [if_pos hc]
        exact ⟨rfl, by simp⟩
      · have hp : (r0.patched body).rating = .val x := by
          simp [Review.patched, hx, JsField.isDefined]
        have hv : ¬ (r0.patched body).validate = true :=
          Review.validate_out_of_range _ x hp hout
        rw [if_neg hc, if_neg hv]
        exact ⟨rfl, by simp⟩
  · intro body gameId x hg hx h1 h5
    have hc : ¬ (body.text.falsyStr && body.rating.isNullish) = true := by
      simp [hx, JsField.isNullish]
    have hv : (Review.fresh s user._id gameId body.text body.rating).validate = true := by
      rw [Review.validate_iff]
      exact Or.inr (Or.inr ⟨x, hx, h1, h5⟩)
    rw [createReview_val s user body gameId hg, if_neg hc, if_pos hv, hx]
    exact ⟨rfl, rfl⟩

/-- C20 (amended) at `Sample.store`: a rating of `9` is refused by both handlers and a
rating of `7/2` is stored. -/
theorem persisted_rating_in_range_witness :
    ((createReview Sample.store Sample.alice
        { gameId := .val 2, text := .val "wow", rating := .val 9 }).1 = Sample.store ∧
      (createReview Sample.store Sample.alice
        { gameId := .val 2, text := .val "wow", rating := .val 9 }).2.status ≠ 201) ∧
    ((updateReview Sample.store Sample.alice 10 { text := .undefined, rating := .val 9 }).1 =
        Sample.store ∧
      (updateReview Sample.store Sample.alice 10
        { text := .undefined, rating := .val 9 }).2.status ≠ 200) ∧
    ((createReview Sample.store Sample.alice
        { gameId := .val 2, text := .undefined, rating := .val (7 / 2) }).2.status = 201 ∧
      (createReview Sample.store Sample.alice
        { gameId := .val 2, text := .undefined, rating := .val (7 / 2) }).2.review =
        some (Review.mk Sample.store.nextId Sample.alice._id 2 .undefined (.val (7 / 2)))) := by
  have h := persisted_rating_in_range Sample.store Sample.alice
  exact ⟨h.2.2.1 _ 9 rfl (Or.inr (by norm_num)),
    h.2.2.2.1 10 _ 9 rfl (Or.inr (by norm_num)),
    h.2.2.2.2 _ 2 (7 / 2) rfl rfl (by norm_num) (by norm_num)⟩

/-- C20 fails as stated: `7/2` is not a whole number, yet `createReview` with rating `7/2`
answers 201 and the review is stored with that rating. -/
theorem persisted_rating_counterexample :
    (¬ ∃ n : ℤ, (n : ℚ) = 7 / 2) ∧
      (createReview Sample.store Sample.alice
        { gameId := .val 2, text := .undefined, rating := .val (7 / 2) }).2.status = 201 ∧
      (createReview Sample.store Sample.alice
        { gameId := .val 2, text := .undefined, rating := .val (7 / 2) }).1.reviews =
        Sample.store.reviews ++ [Review.mk 13 101 2 .undefined (.val (7 / 2))] := by
  have hc : ¬ (JsField.falsyStr .undefined && JsField.isNullish (.val (7 / 2 : ℚ))) = true := by
    decide
  have hv : (Review.fresh Sample.store Sample.alice._id 2 .undefined
      (.val (7 / 2))).validate = true := by
    norm_num [Review.fresh, Review.validate]
  refine ⟨?_, ?_, ?_⟩
  · rintro ⟨n, hn⟩
    have h2 : ((2 * n : ℤ) : ℚ) = ((7 : ℤ) : ℚ) := by
      push_cast
      rw [hn]
      norm_num
    have h3 : 2 * n = 7 := by exact_mod_cast h2
    omega
  · rw [createReview_val Sample.store Sample.alice _ 2 rfl, if_neg hc, if_pos hv]
  · rw [createReview_val Sample.store Sample.alice _ 2 rfl, if_neg hc, if_pos hv,
      if_pos (by decide)]
    show (recalculateGameRating _ 2).reviews = _
    rw [recalculateGameRating_reviews]
    rfl

/-! ## Claims on the game handlers, continued -/

/-- C21: `createGame` answers 400 "Title is required" and returns the store as it was,
so that no game is persisted, for every body whose title is missing, `null` or the empty
string. -/
theorem createGame_title_required (s : Store) (body : CreateGameBody)
    (h : body.title = .undefined ∨ body.title = .null ∨ body.title = .val "") :
    createGame s body = (s, { status := 400, error := some "Title is required" }) := by
  rcases h with h | h | h
  · exact createGame_no_title s body (by rw [h]; rfl)
  · exact createGame_no_title s body (by rw [h]; rfl)
  · rw [createGame_val s body "" h, if_pos (by decide)]

/-- C21 at a body with an empty title and otherwise valid fields. -/
theorem createGame_title_required_witness :
    createGame Sample.store { title := .val "", status := .val "Released" } =
      (Sample.store, { status := 400, error := some "Title is required" }) :=
  createGame_title_required Sample.store { title := .val "", status := .val "Released" }
    (Or.inr (Or.inr rfl))

/-- C25: `updateGame` and `deleteGame` on an id that matches no game answer 404 and give
back the store as it was: games, reviews and favorites are unchanged, and `deleteGame`
deletes no review. -/
theorem game_not_found (s : Store) (id : ObjectId) (body : UpdateGameBody)
    (h : Game.findById s.games id = none) :
    updateGame s id body = (s, { status := 404, error := some "Game not found" }) ∧
      deleteGame s id = (s, { status := 404, error := some "Game not found" }) := by
  refine ⟨?_, deleteGame_not_found s id h⟩
  unfold updateGame
  simp only
  rw [h, Game.findByIdAndUpdate_of_not_found _ _ _ h]
  rfl

/-- C25 at `Sample.shelf`, which has no game `7` but could lose reviews and favorites. -/
theorem game_not_found_witness :
    updateGame Sample.shelf 7 { title := some "X", averageRating := some 1 } =
        (Sample.shelf, { status := 404, error := some "Game not found" }) ∧
      deleteGame Sample.shelf 7 =
        (Sample.shelf, { status := 404, error := some "Game not found" }) :=
  game_not_found Sample.shelf 7 { title := some "X", averageRating := some 1 }
    (by simp [Game.findById, Sample.shelf, Sample.nova, Sample.orbit])

/-- C26: `adminOnly` hands the request to the rest of the route exactly when a user is
attached and that user's role is `Admin`; otherwise it answers 403 whatever the rest of
the route is, so the guarded handler is not run and the store is unchanged. The same holds
for the three guarded game routes. -/
theorem adminOnly_gate (user : Option User) (s : Store) :
    ((∃ u, user = some u ∧ u.userType = "Admin") →
      (∀ next, adminOnly user next s = next s) ∧
        (∀ body, Route.postGame user s body = createGame s body) ∧
        (∀ id body, Route.putGame user s id body = updateGame s id body) ∧
        (∀ id, Route.deleteGame user s id = deleteGame s id)) ∧
    ((¬ ∃ u, user = some u ∧ u.userType = "Admin") →
      (∀ next, adminOnly user next s =
          (s, { status := 403, error := some "Admin access required" })) ∧
        (∀ body, Route.postGame user s body =
          (s, { status := 403, error := some "Admin access required" })) ∧
        (∀ id body, Route.putGame user s id body =
          (s, { status := 403, error := some "Admin access required" })) ∧
        (∀ id, Route.deleteGame user s id =
          (s, { status := 403, error := some "Admin access required" }))) := by
  constructor
  · rintro ⟨u, rfl, hu⟩
    have h : ∀ next, adminOnly (some u) next s = next s := by
      intro next
      simp [adminOnly, hu]
    exact ⟨h, fun _ => h _, fun _ _ => h _, fun _ => h _⟩
  · intro hno
    have h : ∀ next, adminOnly user next s =
        (s, { status := 403, error := some "Admin access required" }) := by
      intro next
      cases user with
      | none => rfl
      | some u =>
        have hu : u.userType ≠ "Admin" := fun e => hno ⟨u, rfl, e⟩
        simp [adminOnly, hu]
    exact ⟨h, fun _ => h _, fun _ _ => h _, fun _ => h _⟩

/-- C26 at `Sample.store`: the Admin `root` reaches `deleteGame`, the registered user
`alice` and a request without a user get 403 and nothing is deleted. -/
theorem adminOnly_gate_witness :
    Route.deleteGame (some Sample.root) Sample.store 1 = deleteGame Sample.store 1 ∧
      (deleteGame Sample.store 1).2.status = 200 ∧
      Route.deleteGame (some Sample.alice) Sample.store 1 =
        (Sample.store, { status := 403, error := some "Admin access required" }) ∧
      Route.deleteGame none Sample.store 1 =
        (Sample.store, { status := 403, error := some "Admin access required" }) :=
  ⟨((adminOnly_gate (some Sample.root) Sample.store).1 ⟨Sample.root, rfl, rfl⟩).2.2.2 1,
    by simp [deleteGame, Game.findById, Sample.store, Sample.nova],
    ((adminOnly_gate (some Sample.alice) Sample.store).2
      (by rintro ⟨u, hu, ha⟩; cases hu; revert ha; decide)).2.2.2 1,
    ((adminOnly_gate none Sample.store).2 (by rintro ⟨u, hu, _⟩; cases hu)).2.2.2 1⟩

/-- Games before and after `Game.findByIdAndUpdate` with `Game.setRating`: position by
position the game is the same, or it has the given id and only its derived fields moved. -/
theorem Game.findByIdAndUpdate_setRating_frame (gs : List Game) (id : ObjectId) (a t : ℚ) :
    List.Forall₂
      (fun g g2 => g2 = g ∨
        (g._id = id ∧ ∃ a2 t2, g2 = { g with averageRating := a2, totalRatings := t2 }))
      gs (Game.findByIdAndUpdate gs id (Game.setRating a t)) := by
  have hrefl : ∀ l : List Game, List.Forall₂
      (fun g g2 => g2 = g ∨
        (g._id = id ∧ ∃ a2 t2, g2 = { g with averageRating := a2, totalRatings := t2 }))
      l l := by
    intro l
    induction l with
    | nil => exact List.Forall₂.nil
    | cons x xs ih => exact List.Forall₂.cons (Or.inl rfl) ih
  induction gs with
  | nil => exact List.Forall₂.nil
  | cons g gs ih =>
    by_cases h : g._id = id
    · simp only [Game.findByIdAndUpdate, h, beq_self_eq_true, if_true]
      exact List.Forall₂.cons (Or.inr ⟨h, a, t, rfl⟩) (hrefl gs)
    · have hb : (g._id == id) = false := by simpa using h
      simp only [Game.findByIdAndUpdate, hb, Bool.false_eq_true, if_false]
      exact List.Forall₂.cons (Or.inl rfl) ih

/-- C27: `recalculateGameRating` leaves reviews, favorites and the id counter as they
were, and the list of games keeps its length and order: each game is unchanged, or it has
id `gameId` and differs from the old record in `averageRating` and `totalRatings` only. -/
theorem recalculateGameRating_frame (s : Store) (gameId : ObjectId) :
    (recalculateGameRating s gameId).reviews = s.reviews ∧
      (recalculateGameRating s gameId).favorites = s.favorites ∧
      (recalculateGameRating s gameId).nextId = s.nextId ∧
      List.Forall₂
        (fun g g2 => g2 = g ∨
          (g._id = gameId ∧
            ∃ a2 t2, g2 = { g with averageRating := a2, totalRatings := t2 }))
        s.games (recalculateGameRating s gameId).games := by
  rw [recalculateGameRating_eq]
  exact ⟨rfl, rfl, rfl, Game.findByIdAndUpdate_setRating_frame s.games gameId _ _⟩

/-! ## Tags from a comma-separated string -/


theorem splitComma_ne_nil (cs : List Char) : splitComma cs ≠ [] := by
  cases cs with
  | nil => simp [splitComma]
  | cons c cs =>
    unfold splitComma
    cases splitComma cs with
    | nil => simp
    | cons w ws => by_cases h : (c == ',') = true <;> simp [h]

theorem splitComma_join (cs : List Char) :
    List.intercalate [','] (splitComma cs) = cs := by
  induction cs with
  | nil => simp [splitComma, List.intercalate]
  | cons c cs ih =>
    unfold splitComma
    cases hs : splitComma cs with
    | nil => exact absurd hs (splitComma_ne_nil cs)
    | cons w ws =>
      rw [hs] at ih
      by_cases h : (c == ',') = true
      · have hc : c = ',' := by simpa using h
        simp only [h, if_true]
        rw [← ih, hc]
        simp [List.intercalate, List.intersperse]
      · simp only [h, Bool.false_eq_true, if_false]
        rw [← ih]
        cases ws <;> simp [List.intercalate, List.intersperse]

theorem splitComma_no_comma (cs : List Char) : ∀ w ∈ splitComma cs, ',' ∉ w := by
  induction cs with
  | nil => simp [splitComma]
  | cons c cs ih =>
    unfold splitComma
    cases hs : splitComma cs with
    | nil => simp
    | cons w ws =>
      rw [hs] at ih
      by_cases h : (c == ',') = true
      · simp only [h, if_true]
        intro x hx
        rcases List.mem_cons.1 hx with rfl | hx
        · simp
        · exact ih x hx
      · simp only [h, Bool.false_eq_true, if_false]
        intro x hx
        rcases List.mem_cons.1 hx with rfl | hx
        · have hw := ih w (List.mem_cons_self _ _)
          have hc : ¬ c = ',' := by simpa using h
          simp only [List.mem_cons, not_or]
          exact ⟨fun e => hc e.symm, hw⟩
        · exact ih x (List.mem_cons_of_mem _ hx)

theorem trim_chars_spec (p : Char → Bool) (xs : List Char) :
    ∃ l r : List Char,
      xs = l ++ ((xs.dropWhile p).reverse.dropWhile p).reverse ++ r ∧
      (∀ c ∈ l, p c = true) ∧ (∀ c ∈ r, p c = true) ∧
      (∀ c, ((xs.dropWhile p).reverse.dropWhile p).reverse.head? = some c → p c = false) ∧
      (∀ c, ((xs.dropWhile p).reverse.dropWhile p).reverse.getLast? = some c →
        p c = false) := by
  have hy : (xs.dropWhile p) =
      ((xs.dropWhile p).reverse.dropWhile p).reverse ++
        ((xs.dropWhile p).reverse.takeWhile p).reverse := by
    rw [← List.reverse_append, List.takeWhile_append_dropWhile, List.reverse_reverse]
  refine ⟨xs.takeWhile p, ((xs.dropWhile p).reverse.takeWhile p).reverse, ?_, ?_, ?_, ?_, ?_⟩
  · rw [List.append_assoc, ← hy, List.takeWhile_append_dropWhile]
  · intro c hc
    exact List.mem_takeWhile_imp hc
  · intro c hc
    exact List.mem_takeWhile_imp (List.mem_reverse.1 hc)
  · intro c hc
    have hne : ((xs.dropWhile p).reverse.dropWhile p).reverse ≠ [] := by
      intro e
      rw [e] at hc
      cases hc
    have h1 : (xs.dropWhile p).head? = some c := by
      rw [hy, List.head?_append_of_ne_nil _ hne]
      exact hc
    have h2 := List.head?_dropWhile_not p xs
    rw [h1] at h2
    exact h2
  · intro c hc
    rw [List.getLast?_reverse] at hc
    have h2 := List.head?_dropWhile_not p (xs.dropWhile p).reverse
    rw [hc] at h2
    exact h2

theorem jsTrim_spec (x : String) :
    ∃ l r : List Char, x.data = l ++ (jsTrim x).data ++ r ∧
      (∀ c ∈ l, isJsWhitespace c = true) ∧ (∀ c ∈ r, isJsWhitespace c = true) ∧
      (∀ c, (jsTrim x).data.head? = some c → isJsWhitespace c = false) ∧
      (∀ c, (jsTrim x).data.getLast? = some c → isJsWhitespace c = false) :=
  trim_chars_spec isJsWhitespace x.data


/-- C22, as the code has it: when `platform` or `genre` arrives as one string, the game
stored by `createGame`, and the game rewritten by `updateGame`, carries the list
`splitTags` of that string: its pieces between commas, in order, each with leading and
trailing whitespace removed. Nothing removes repeated or empty items. -/
theorem tags_from_string (s : Store) (p : String) :
    (∀ body, (body.platform = .str p ∨ body.genre = .str p) →
      (createGame s body).2.status = 201 →
      ∃ g, (createGame s body).2.game = some g ∧
        (createGame s body).1.games = s.games ++ [g] ∧
        (body.platform = .str p → g.platform = splitTags p) ∧
        (body.genre = .str p → g.genre = splitTags p)) ∧
    (∀ id body g, Game.findById s.games id = some g →
      (body.platform = .str p ∨ body.genre = .str p) →
      ∃ g2, (updateGame s id body).2.game = some g2 ∧
        Game.findById (updateGame s id body).1.games id = some g2 ∧
        (body.platform = .str p → g2.platform = splitTags p) ∧
        (body.genre = .str p → g2.genre = splitTags p)) ∧
    splitTags p = (splitComma p.data).map (fun w => jsTrim (String.mk w)) ∧
    List.intercalate [','] (splitComma p.data) = p.data ∧
    (∀ w ∈ splitComma p.data, ',' ∉ w) ∧
    (∀ w : String, ∃ l r : List Char, w.data = l ++ (jsTrim w).data ++ r ∧
      (∀ c ∈ l, isJsWhitespace c = true) ∧ (∀ c ∈ r, isJsWhitespace c = true) ∧
      (∀ c, (jsTrim w).data.head? = some c → isJsWhitespace c = false) ∧
      (∀ c, (jsTrim w).data.getLast? = some c → isJsWhitespace c = false)) := by
  refine ⟨?_, ?_, rfl, splitComma_join p.data, splitComma_no_comma p.data, jsTrim_spec⟩
  · intro body _ hst
    cases hb : body.title with
    | undefined =>
      rw [createGame_no_title s body (by rw [hb]; rfl)] at hst
      simp at hst
    | null =>
      rw [createGame_no_title s body (by rw [hb]; rfl)] at hst
      simp at hst
    | val title =>
      rw [createGame_val s body title hb] at hst ⊢
      by_cases hc : (title == "") = true
      · rw [if_pos hc] at hst
        simp at hst
      · rw [if_neg hc] at hst ⊢
        by_cases hv : (Game.fresh s title body).validate = true
        · rw [if_pos hv]
          refine ⟨Game.fresh s title body, rfl, rfl, ?_, ?_⟩
          · intro hp
            simp [Game.fresh, hp, TagInput.normalize]
          · intro hp
            simp [Game.fresh, hp, TagInput.normalize]
        · rw [if_neg hv] at hst
          simp at hst
  · intro id body g hg _
    refine ⟨body.toUpdate g, ?_, ?_, ?_, ?_⟩
    · unfold updateGame
      simp only [hg, Option.map_some']
    · have hf := Game.findById_findByIdAndUpdate s.games id id body.toUpdate (fun _ => rfl)
      rw [if_pos rfl, hg] at hf
      unfold updateGame
      simp only [hg, Option.map_some']
      exact hf
    · intro hp
      simp [UpdateGameBody.toUpdate, hp, TagInput.normalize]
    · intro hp
      simp [UpdateGameBody.toUpdate, hp, TagInput.normalize]

/-- C22 (amended) at the platform string `"PC, PS5 ,,PC"`. -/
theorem tags_from_string_witness :
    (createGame Scenario.s0 { title := .val "Nova", platform := .str "PC, PS5 ,,PC" }).2.status
        = 201 ∧
      ∃ g, (createGame Scenario.s0
          { title := .val "Nova", platform := .str "PC, PS5 ,,PC" }).2.game = some g ∧
        g.platform = ["PC", "PS5", "", "PC"] := by
  have hst : (createGame Scenario.s0
      { title := .val "Nova", platform := .str "PC, PS5 ,,PC" }).2.status = 201 := by decide
  obtain ⟨g, hg, -, hp, -⟩ := (tags_from_string Scenario.s0 "PC, PS5 ,,PC").1
    { title := .val "Nova", platform := .str "PC, PS5 ,,PC" } (Or.inl rfl) hst
  refine ⟨hst, g, hg, ?_⟩
  rw [hp rfl]
  decide

/-- C22 fails as stated: from the platform string `"PC, PC"` `createGame` stores the tag
`"PC"` twice. -/
theorem tags_from_string_counterexample :
    (createGame Scenario.s0 { title := .val "Nova", platform := .str "PC, PC" }).2.status
        = 201 ∧
      (createGame Scenario.s0 { title := .val "Nova", platform := .str "PC, PC" }).1.games.map
        (fun g => g.platform) = [["PC", "PC"]] ∧
      ¬ (["PC", "PC"] : List String).Nodup := by
  refine ⟨by decide, by decide, by decide⟩

/-! ## Listing games -/

theorem gamesFilter_iff (rx : String → String → Bool) (q : GamesQuery) (g : Game) :
    gamesFilter rx q g = true ↔ meetsCriteria rx q g := by
  obtain ⟨qs, qp, qg, qst⟩ := q
  unfold gamesFilter meetsCriteria
  simp only [Bool.and_eq_true]
  have key : ∀ (o : Option String) (P : String → Prop) [∀ v, Decidable (P v)] (b : String → Bool),
      (∀ v, b v = true ↔ P v) →
      ((if queryGiven o = true then b (o.getD "") else true) = true ↔
        ∀ v, o = some v → v ≠ "" → P v) := by
    intro o P _ b hb
    cases o with
    | none => simp [queryGiven]
    | some w =>
      by_cases hw : w = ""
      · simp [queryGiven, hw]
      · simp [queryGiven, hw, hb]
  rw [key qs (fun v => rx v g.title = true) (fun v => rx v g.title) (fun _ => Iff.rfl),
    key qp (fun v => v ∈ g.platform) (fun v => decide (v ∈ g.platform)) (fun _ => by simp),
    key qg (fun v => v ∈ g.genre) (fun v => decide (v ∈ g.genre)) (fun _ => by simp),
    key qst (fun v => g.status = .val v) (fun v => decide (g.status = .val v))
      (fun _ => by simp)]
  constructor
  · rintro ⟨⟨⟨h1, h2⟩, h3⟩, h4⟩
    exact ⟨h1, h2, h3, h4⟩
  · rintro ⟨h1, h2, h3, h4⟩
    exact ⟨⟨⟨h1, h2⟩, h3⟩, h4⟩

theorem getGames_mem (rx : String → String → Bool) (s : Store) (q : GamesQuery) (g : Game) :
    g ∈ getGames rx s q ↔ g ∈ s.games ∧ gamesFilter rx q g = true := by
  have hperm : (getGames rx s q).Perm (s.games.filter (gamesFilter rx q)) :=
    List.perm_insertionSort _ _
  rw [hperm.mem_iff, List.mem_filter]

/-- C23: for every query, `getGames` sends back, up to order, exactly the stored games that
meet every provided criterion, each as often as it is stored, sorted by release date from
latest to earliest with undated games last; the empty query sends back all games. The
search criterion is whatever the database's case-insensitive regular-expression test
`rx` says of the title. -/
theorem getGames_spec (rx : String → String → Bool) (s : Store) (q : GamesQuery) :
    (∀ g, gamesFilter rx q g = true ↔ meetsCriteria rx q g) ∧
      (getGames rx s q).Perm (s.games.filter (gamesFilter rx q)) ∧
      (∀ g, g ∈ getGames rx s q ↔ g ∈ s.games ∧ meetsCriteria rx q g) ∧
      (getGames rx s q).Sorted (fun a b => releaseKey b ≤ releaseKey a) ∧
      (getGames rx s {}).Perm s.games := by
  have hperm : (getGames rx s q).Perm (s.games.filter (gamesFilter rx q)) :=
    List.perm_insertionSort _ _
  refine ⟨gamesFilter_iff rx q, hperm, ?_, ?_, ?_⟩
  · intro g
    rw [hperm.mem_iff, List.mem_filter, gamesFilter_iff]
  · exact @List.sorted_insertionSort Game (fun a b => releaseKey b ≤ releaseKey a) _
      ⟨fun a b => le_total (releaseKey b) (releaseKey a)⟩
      ⟨fun _ _ _ h1 h2 => le_trans h2 h1⟩ _
  · have hall : s.games.filter (gamesFilter rx {}) = s.games := by
      rw [List.filter_eq_self]
      intro g _
      rfl
    have h : (getGames rx s {}).Perm (s.games.filter (gamesFilter rx {})) :=
      List.perm_insertionSort _ _
    rw [hall] at h
    exact h

/-! ## The regular-expression fragment: the test computes the match relation -/

theorem rxStar_iff (a : RxAtom) (k : List Char → Bool) (cs : List Char) :
    rxStar a k cs = true ↔
      ∃ w rest, cs = w ++ rest ∧ (∀ c ∈ w, rxAtomMatches a c = true) ∧ k rest = true := by
  induction cs with
  | nil =>
    simp only [rxStar]
    constructor
    · intro h
      exact ⟨[], [], rfl, by simp, h⟩
    · rintro ⟨w, rest, hw, _, hk⟩
      have hr : rest = [] := (List.append_eq_nil.1 hw.symm).2
      rw [hr] at hk
      exact hk
  | cons c cs ih =>
    simp only [rxStar, Bool.or_eq_true, Bool.and_eq_true]
    constructor
    · rintro (h | ⟨hc, h⟩)
      · exact ⟨[], c :: cs, rfl, by simp, h⟩
      · obtain ⟨w, rest, hw, hall, hk⟩ := ih.1 h
        refine ⟨c :: w, rest, by rw [hw]; rfl, ?_, hk⟩
        intro x hx
        rcases List.mem_cons.1 hx with rfl | hx
        · exact hc
        · exact hall x hx
    · rintro ⟨w, rest, hw, hall, hk⟩
      cases w with
      | nil =>
        left
        rw [List.nil_append] at hw
        rw [hw]
        exact hk
      | cons x w =>
        right
        rw [List.cons_append, List.cons.injEq] at hw
        obtain ⟨rfl, hw⟩ := hw
        exact ⟨hall c (List.mem_cons_self _ _),
          ih.2 ⟨w, rest, hw, fun y hy => hall y (List.mem_cons_of_mem _ hy), hk⟩⟩

theorem rxOne_iff (a : RxAtom) (k : List Char → Bool) (cs : List Char) :
    (match cs with
      | [] => false
      | c :: cs' => rxAtomMatches a c && k cs') = true ↔
      ∃ c rest, cs = c :: rest ∧ rxAtomMatches a c = true ∧ k rest = true := by
  cases cs with
  | nil => simp
  | cons c cs =>
    simp only [Bool.and_eq_true]
    constructor
    · rintro ⟨hc, hk⟩
      exact ⟨c, cs, rfl, hc, hk⟩
    · rintro ⟨c1, rest, h, hc, hk⟩
      rw [List.cons.injEq] at h
      obtain ⟨rfl, rfl⟩ := h
      exact ⟨hc, hk⟩

theorem rxMatchesAt_iff (e : Bool) (is : List RxItem) (cs : List Char) :
    rxMatchesAt e is cs = true ↔
      ∃ w post, cs = w ++ post ∧ ItemsAccept is w ∧ (e = true → post = []) := by
  induction is generalizing cs with
  | nil =>
    simp only [rxMatchesAt, ItemsAccept]
    constructor
    · intro h
      refine ⟨[], cs, rfl, rfl, fun he => ?_⟩
      simpa [he] using h
    · rintro ⟨w, post, hw, rfl, hp⟩
      cases e with
      | false => rfl
      | true =>
        rw [hw, hp rfl]
        rfl
  | cons i is ih =>
    obtain ⟨a, q⟩ := i
    have tail : ∀ rest, rxMatchesAt e is rest = true ↔
        ∃ w post, rest = w ++ post ∧ ItemsAccept is w ∧ (e = true → post = []) := ih
    cases q with
    | one =>
      simp only [rxMatchesAt]
      rw [rxOne_iff a (rxMatchesAt e is) cs]
      constructor
      · rintro ⟨c, rest, rfl, hc, hk⟩
        obtain ⟨w, post, rfl, hacc, hp⟩ := (tail rest).1 hk
        refine ⟨c :: w, post, rfl, ⟨[c], w, rfl, ⟨?_, rfl⟩, hacc⟩, hp⟩
        intro x hx
        rw [List.mem_singleton.1 hx]
        exact hc
      · rintro ⟨w, post, rfl, ⟨w1, w2, rfl, ⟨hall, hlen⟩, hacc⟩, hp⟩
        obtain ⟨c, rfl⟩ := List.length_eq_one.1 hlen
        exact ⟨c, w2 ++ post, rfl, hall c (List.mem_singleton_self c),
          (tail _).2 ⟨w2, post, rfl, hacc, hp⟩⟩
    | opt =>
      simp only [rxMatchesAt, Bool.or_eq_true]
      rw [rxOne_iff a (rxMatchesAt e is) cs]
      constructor
      · rintro (hk | ⟨c, rest, rfl, hc, hk⟩)
        · obtain ⟨w, post, rfl, hacc, hp⟩ := (tail cs).1 hk
          exact ⟨w, post, rfl, ⟨[], w, rfl, ⟨by simp, Nat.zero_le 1⟩, hacc⟩, hp⟩
        · obtain ⟨w, post, rfl, hacc, hp⟩ := (tail rest).1 hk
          refine ⟨c :: w, post, rfl, ⟨[c], w, rfl, ⟨?_, le_refl 1⟩, hacc⟩, hp⟩
          intro x hx
          rw [List.mem_singleton.1 hx]
          exact hc
      · rintro ⟨w, post, rfl, ⟨w1, w2, rfl, ⟨hall, hlen⟩, hacc⟩, hp⟩
        cases w1 with
        | nil =>
          left
          exact (tail _).2 ⟨w2, post, rfl, hacc, hp⟩
        | cons c w1 =>
          right
          have hw1 : w1 = [] := by
            have hl : (c :: w1).length ≤ 1 := hlen
            simp only [List.length_cons] at hl
            exact List.length_eq_zero.1 (by omega)
          subst hw1
          exact ⟨c, w2 ++ post, rfl, hall c (List.mem_singleton_self c),
            (tail _).2 ⟨w2, post, rfl, hacc, hp⟩⟩
    | star =>
      simp only [rxMatchesAt]
      rw [rxStar_iff]
      constructor
      · rintro ⟨w1, rest, rfl, hall, hk⟩
        obtain ⟨w, post, rfl, hacc, hp⟩ := (tail rest).1 hk
        exact ⟨w1 ++ w, post, (List.append_assoc _ _ _).symm,
          ⟨w1, w, rfl, ⟨hall, trivial⟩, hacc⟩, hp⟩
      · rintro ⟨w, post, rfl, ⟨w1, w2, rfl, ⟨hall, _⟩, hacc⟩, hp⟩
        exact ⟨w1, w2 ++ post, List.append_assoc _ _ _, hall,
          (tail _).2 ⟨w2, post, rfl, hacc, hp⟩⟩
    | plus =>
      simp only [rxMatchesAt]
      rw [rxOne_iff a (rxStar a (rxMatchesAt e is)) cs]
      constructor
      · rintro ⟨c, rest0, rfl, hc, hs⟩
        obtain ⟨w1, rest, rfl, hall, hk⟩ := (rxStar_iff a _ rest0).1 hs
        obtain ⟨w, post, rfl, hacc, hp⟩ := (tail rest).1 hk
        refine ⟨c :: w1 ++ w, post, by simp, ⟨c :: w1, w, rfl, ⟨?_, ?_⟩, hacc⟩, hp⟩
        · intro x hx
          rcases List.mem_cons.1 hx with rfl | hx
          · exact hc
          · exact hall x hx
        · simp
      · rintro ⟨w, post, rfl, ⟨w1, w2, rfl, ⟨hall, hlen⟩, hacc⟩, hp⟩
        cases w1 with
        | nil => simp at hlen
        | cons c w1 =>
          refine ⟨c, w1 ++ (w2 ++ post), by simp, hall c (List.mem_cons_self _ _), ?_⟩
          exact (rxStar_iff a _ _).2 ⟨w1, w2 ++ post, rfl,
            fun y hy => hall y (List.mem_cons_of_mem _ hy),
            (tail _).2 ⟨w2, post, rfl, hacc, hp⟩⟩

theorem rxSearch_iff (e : Bool) (is : List RxItem) (cs : List Char) :
    rxSearch e is cs = true ↔
      ∃ pre rest, cs = pre ++ rest ∧ rxMatchesAt e is rest = true := by
  induction cs with
  | nil =>
    simp only [rxSearch]
    constructor
    · intro h
      exact ⟨[], [], rfl, h⟩
    · rintro ⟨pre, rest, hw, h⟩
      have hr : rest = [] := (List.append_eq_nil.1 hw.symm).2
      rw [hr] at h
      exact h
  | cons c cs ih =>
    simp only [rxSearch, Bool.or_eq_true]
    constructor
    · rintro (h | h)
      · exact ⟨[], c :: cs, rfl, h⟩
      · obtain ⟨pre, rest, hw, hm⟩ := ih.1 h
        exact ⟨c :: pre, rest, by rw [hw]; rfl, hm⟩
    · rintro ⟨pre, rest, hw, hm⟩
      cases pre with
      | nil =>
        left
        rw [List.nil_append] at hw
        rw [hw]
        exact hm
      | cons x pre =>
        right
        rw [List.cons_append, List.cons.injEq] at hw
        exact ih.2 ⟨pre, rest, hw.2, hm⟩

/-- The test of a pattern of the fragment decides the match relation of the pattern
language. -/
theorem RxPattern.test_iff (p : RxPattern) (cs : List Char) :
    p.test cs = true ↔ p.Matches cs := by
  obtain ⟨s, is, e⟩ := p
  unfold RxPattern.test RxPattern.Matches
  cases s with
  | true =>
    simp only [if_true]
    rw [rxMatchesAt_iff]
    constructor
    · rintro ⟨w, post, rfl, hacc, hp⟩
      exact ⟨[], w, post, rfl, fun _ => rfl, hp, hacc⟩
    · rintro ⟨pre, w, post, rfl, hpre, hp, hacc⟩
      rw [hpre trivial]
      exact ⟨w, post, rfl, hacc, hp⟩
  | false =>
    simp only [Bool.false_eq_true, if_false]
    rw [rxSearch_iff]
    constructor
    · rintro ⟨pre, rest, rfl, hm⟩
      obtain ⟨w, post, rfl, hacc, hp⟩ := (rxMatchesAt_iff e is rest).1 hm
      exact ⟨pre, w, post, (List.append_assoc _ _ _).symm, fun h => by simp at h, hp, hacc⟩
    · rintro ⟨pre, w, post, rfl, _, hp, hacc⟩
      exact ⟨pre, w ++ post, List.append_assoc _ _ _,
        (rxMatchesAt_iff e is _).2 ⟨w, post, rfl, hacc, hp⟩⟩

/-! ## The regular-expression fragment: patterns of ordinary characters -/

theorem rxAtomOf_ordinary (c : Char) (hp : isPlainChar c = true) (hm : isRegexMeta c = false) :
    rxAtomOf c = some (.lit c) := by
  have h46 : ¬ c.toNat = 46 := by
    intro e
    simp [isRegexMeta, e] at hm
  simp [rxAtomOf, h46, hp, hm]

theorem rxQuantOf_ordinary (c : Char) (hm : isRegexMeta c = false) : rxQuantOf c = none := by
  have h63 : ¬ c.toNat = 63 := by
    intro e
    simp [isRegexMeta, e] at hm
  have h42 : ¬ c.toNat = 42 := by
    intro e
    simp [isRegexMeta, e] at hm
  have h43 : ¬ c.toNat = 43 := by
    intro e
    simp [isRegexMeta, e] at hm
  simp [rxQuantOf, h63, h42, h43]

theorem parseItems_ordinary (ps : List Char)
    (h : ∀ c ∈ ps, isPlainChar c = true ∧ isRegexMeta c = false) :
    parseItems ps = some (literalItems ps, false) := by
  induction ps with
  | nil => rfl
  | cons p rest ih =>
    have hp := h p (List.mem_cons_self _ _)
    have hrest : ∀ c ∈ rest, isPlainChar c = true ∧ isRegexMeta c = false :=
      fun c hc => h c (List.mem_cons_of_mem _ hc)
    have h36 : ¬ p.toNat = 36 := by
      intro e
      have := hp.2
      simp [isRegexMeta, e] at this
    have hne : ¬ (p.toNat = 36 ∧ rest = []) := fun hh => h36 hh.1
    cases rest with
    | nil =>
      unfold parseItems
      rw [if_neg hne, rxAtomOf_ordinary p hp.1 hp.2]
      rfl
    | cons q rest' =>
      have hq := hrest q (List.mem_cons_self _ _)
      unfold parseItems
      rw [if_neg hne, rxAtomOf_ordinary p hp.1 hp.2]
      simp only [rxQuantOf_ordinary q hq.2]
      rw [ih hrest]
      rfl

theorem parsePattern_ordinary (ps : List Char)
    (h : ∀ c ∈ ps, isPlainChar c = true ∧ isRegexMeta c = false) :
    parsePattern ps = some ⟨false, literalItems ps, false⟩ := by
  cases ps with
  | nil => rfl
  | cons p rest =>
    have hp := h p (List.mem_cons_self _ _)
    have h94 : ¬ p.toNat = 94 := by
      intro e
      have := hp.2
      simp [isRegexMeta, e] at this
    unfold parsePattern
    simp only [h94, if_false]
    rw [parseItems_ordinary _ h]
    rfl

theorem rxMatchesAt_literal (ps cs : List Char) :
    rxMatchesAt false (literalItems ps) cs = true ↔
      ps.map Char.toLower <+: cs.map Char.toLower := by
  induction ps generalizing cs with
  | nil => simp [literalItems, rxMatchesAt]
  | cons p ps ih =>
    cases cs with
    | nil => simp [literalItems, rxMatchesAt]
    | cons c cs =>
      have := ih cs
      simp only [literalItems] at this
      simp only [literalItems, List.map_cons, rxMatchesAt, Bool.and_eq_true,
        List.cons_prefix_cons, rxAtomMatches, beq_iff_eq]
      rw [this]

theorem rxSearch_literal (ps cs : List Char) :
    rxSearch false (literalItems ps) cs = true ↔
      ps.map Char.toLower <:+: cs.map Char.toLower := by
  induction cs with
  | nil =>
    simp only [rxSearch, List.map_nil]
    rw [rxMatchesAt_literal ps []]
    simp
  | cons c cs ih =>
    simp only [rxSearch, Bool.or_eq_true, List.map_cons]
    rw [rxMatchesAt_literal ps (c :: cs), ih, List.infix_cons_iff]
    simp only [List.map_cons]

theorem regexI_of_parse (s t : String) (pat : RxPattern) (hp : parsePattern s.data = some pat)
    (ht : ∀ c ∈ t.data, isPlainChar c = true) : regexI s t = some (pat.test t.data) := by
  have hall : t.data.all isPlainChar = true := List.all_eq_true.2 ht
  simp [regexI, hall, hp]

theorem regexOrFalse_agrees : AgreesWithRegexI regexOrFalse := by
  intro p t b h
  simp [regexOrFalse, h]

/-- The fragment on a few patterns with a quantifier or an anchor, and one outside it. -/
theorem regexI_examples :
    regexI "Nov+a" "Nova" = some true ∧ regexI "Nov+a" "Noa" = some false ∧
      regexI "^o" "Nova" = some false ∧ regexI "^o" "Orbit" = some true ∧
      regexI "a$" "Nova" = some true ∧ regexI "a$" "Orbit" = some false ∧
      regexI "n.?v" "Nova" = some true ∧ regexI "o.*t$" "Orbit" = some true ∧
      regexI "(" "Nova" = none ∧ regexI "[no]" "Nova" = none := by
  decide

/-- C24, as the code has it: for a non-empty search string `s`, `getGames` selects a game
exactly when the database's case-insensitive regular-expression test `rx`, given `s` itself
as the pattern, accepts the title. Of that test it is assumed only that it answers as
`regexI` does for a pattern of the fragment (ordinary characters, dots, the quantifiers
`?`, `*` and `+` after one of these, a caret in first place, a dollar in last place) and a
title of printable ASCII characters. Then: when `s` is a pattern of the fragment, the game
is selected exactly when the pattern matches the title, as the pattern language defines it;
and when `s` has ordinary characters only, exactly when `s` occurs in the title as a
literal substring, letter case ignored. -/
theorem search_is_regex (rx : String → String → Bool) (hrx : AgreesWithRegexI rx)
    (s : String) (g : Game) (hs : s ≠ "") :
    (gamesFilter rx { search := some s } g = true ↔ rx s g.title = true) ∧
      (∀ pat, parsePattern s.data = some pat →
        (∀ c ∈ g.title.data, isPlainChar c = true) →
        (gamesFilter rx { search := some s } g = true ↔ pat.Matches g.title.data)) ∧
      ((∀ c ∈ s.data, isPlainChar c = true ∧ isRegexMeta c = false) →
        (∀ c ∈ g.title.data, isPlainChar c = true) →
        (gamesFilter rx { search := some s } g = true ↔ containsIgnoringCase s g.title)) := by
  have h1 : gamesFilter rx { search := some s } g = true ↔ rx s g.title = true := by
    simp [gamesFilter, queryGiven, hs]
  refine ⟨h1, ?_, ?_⟩
  · intro pat hp ht
    rw [h1, hrx s g.title _ (regexI_of_parse s g.title pat hp ht)]
    exact RxPattern.test_iff pat g.title.data
  · intro hlit ht
    rw [h1, hrx s g.title _
      (regexI_of_parse s g.title _ (parsePattern_ordinary s.data hlit) ht)]
    exact rxSearch_literal s.data g.title.data

/-- C24 (amended) at the test `regexOrFalse`, the search string `"OV"` and the game
`Sample.nova`, titled "Nova": the game is selected, and `"OV"` occurs in its title, letter
case ignored. -/
theorem search_is_regex_witness :
    AgreesWithRegexI regexOrFalse ∧ ("OV" : String) ≠ "" ∧
      (∀ c ∈ ("OV" : String).data, isPlainChar c = true ∧ isRegexMeta c = false) ∧
      (∀ c ∈ Sample.nova.title.data, isPlainChar c = true) ∧
      containsIgnoringCase "OV" Sample.nova.title ∧
      gamesFilter regexOrFalse { search := some "OV" } Sample.nova = true := by
  have h := search_is_regex regexOrFalse regexOrFalse_agrees "OV" Sample.nova (by decide)
  have hs : ∀ c ∈ ("OV" : String).data, isPlainChar c = true ∧ isRegexMeta c = false := by
    decide
  have ht : ∀ c ∈ Sample.nova.title.data, isPlainChar c = true := by decide
  have hc : containsIgnoringCase "OV" Sample.nova.title := by
    unfold containsIgnoringCase
    decide
  exact ⟨regexOrFalse_agrees, by decide, hs, ht, hc, (h.2.2 hs ht).2 hc⟩

/-- C24 fails as stated: whatever the database's test answers outside the fragment, the
search string `"."` selects the game titled "Nova", in which no dot occurs. -/
theorem search_is_regex_counterexample :
    ("." : String) ≠ "" ∧
      (∀ rx, AgreesWithRegexI rx →
        gamesFilter rx { search := some "." } Sample.nova = true ∧
          Sample.nova ∈ getGames rx Sample.store { search := some "." }) ∧
      ¬ containsIgnoringCase "." Sample.nova.title := by
  refine ⟨by decide, ?_, ?_⟩
  · intro rx hrx
    have hsel : gamesFilter rx { search := some "." } Sample.nova = true := by
      have hr : rx "." Sample.nova.title = true := hrx "." Sample.nova.title true (by decide)
      simpa [gamesFilter, queryGiven] using hr
    refine ⟨hsel, ?_⟩
    rw [(getGames_mem rx Sample.store { search := some "." } Sample.nova)]
    exact ⟨by simp [Sample.store], hsel⟩
  · unfold containsIgnoringCase
    decide

/-! ## Escaping for HTML -/

theorem escChar_cases (apos : List Char) (c : Char) :
    (isEscSpecial c = true ∧
        escChar apos c ∈ ["&amp;".data, "&lt;".data, "&gt;".data, "&quot;".data, apos]) ∨
      (isEscSpecial c = false ∧ escChar apos c = [c]) := by
  unfold escChar isEscSpecial
  by_cases h1 : c.toNat = 38
  · simp [h1]
  · by_cases h2 : c.toNat = 60
    · simp [h2]
    · by_cases h3 : c.toNat = 62
      · simp [h3]
      · by_cases h4 : c.toNat = 34
        · simp [h4]
        · by_cases h5 : c.toNat = 39
          · simp [h5]
          · simp [h1, h2, h3, h4, h5]

theorem entity_props (apos : List Char)
    (ha : ∃ t, apos = '&' :: t ∧ '&' ∉ t)
    (hb : ∀ c ∈ apos, c.toNat ≠ 60 ∧ c.toNat ≠ 62 ∧ c.toNat ≠ 34 ∧ c.toNat ≠ 39) :
    ∀ e ∈ ["&amp;".data, "&lt;".data, "&gt;".data, "&quot;".data, apos],
      (∃ t, e = '&' :: t ∧ '&' ∉ t) ∧
        ∀ c ∈ e, c.toNat ≠ 60 ∧ c.toNat ≠ 62 ∧ c.toNat ≠ 34 ∧ c.toNat ≠ 39 := by
  intro e he
  simp only [List.mem_cons, List.mem_singleton, List.not_mem_nil, or_false] at he
  rcases he with rfl | rfl | rfl | rfl | rfl
  · exact ⟨⟨"amp;".data, rfl, by decide⟩, by decide⟩
  · exact ⟨⟨"lt;".data, rfl, by decide⟩, by decide⟩
  · exact ⟨⟨"gt;".data, rfl, by decide⟩, by decide⟩
  · exact ⟨⟨"quot;".data, rfl, by decide⟩, by decide⟩
  · exact ⟨ha, hb⟩

theorem escChars_clean (apos : List Char)
    (ha : ∃ t, apos = '&' :: t ∧ '&' ∉ t)
    (hb : ∀ c ∈ apos, c.toNat ≠ 60 ∧ c.toNat ≠ 62 ∧ c.toNat ≠ 34 ∧ c.toNat ≠ 39)
    (cs : List Char) :
    ∀ c ∈ escChars apos cs, c.toNat ≠ 60 ∧ c.toNat ≠ 62 ∧ c.toNat ≠ 34 ∧ c.toNat ≠ 39 := by
  induction cs with
  | nil => simp [escChars]
  | cons x xs ih =>
    intro c hc
    simp only [escChars, List.mem_append] at hc
    rcases hc with hc | hc
    · rcases escChar_cases apos x with ⟨_, he⟩ | ⟨hx, he⟩
      · exact (entity_props apos ha hb _ he).2 c hc
      · rw [he, List.mem_singleton] at hc
        subst hc
        simp only [isEscSpecial, decide_eq_false_iff_not, List.mem_cons, List.mem_singleton,
          List.not_mem_nil, or_false, not_or] at hx
        exact ⟨hx.2.1, hx.2.2.1, hx.2.2.2.1, hx.2.2.2.2⟩
    · exact ih c hc

theorem escChars_amp (apos : List Char)
    (ha : ∃ t, apos = '&' :: t ∧ '&' ∉ t)
    (hb : ∀ c ∈ apos, c.toNat ≠ 60 ∧ c.toNat ≠ 62 ∧ c.toNat ≠ 34 ∧ c.toNat ≠ 39)
    (cs : List Char) :
    ∀ pre post, escChars apos cs = pre ++ '&' :: post →
      ∃ e ∈ ["&amp;".data, "&lt;".data, "&gt;".data, "&quot;".data, apos],
        e <+: '&' :: post := by
  induction cs with
  | nil =>
    intro pre post h
    simp [escChars] at h
  | cons x xs ih =>
    intro pre post h
    simp only [escChars] at h
    rcases List.append_eq_append_iff.1 h with ⟨a2, hpre, hrest⟩ | ⟨c2, hx, hrest⟩
    · exact ih a2 post hrest
    · cases c2 with
      | nil =>
        simp only [List.nil_append] at hrest
        exact ih [] post hrest.symm
      | cons y c3 =>
        simp only [List.cons_append, List.cons.injEq] at hrest
        obtain ⟨hy, hpost⟩ := hrest
        subst hy
        rcases escChar_cases apos x with ⟨_, he⟩ | ⟨hsp, he⟩
        · obtain ⟨⟨t, het, hnt⟩, _⟩ := entity_props apos ha hb _ he
          have hpre : pre = [] := by
            cases pre with
            | nil => rfl
            | cons z zs =>
              exfalso
              rw [het] at hx
              simp only [List.cons_append, List.cons.injEq] at hx
              apply hnt
              rw [hx.2]
              simp
          subst hpre
          simp only [List.nil_append] at hx
          refine ⟨escChar apos x, he, ?_⟩
          rw [hx, hpost]
          exact ⟨escChars apos xs, rfl⟩
        · exfalso
          rw [he] at hx
          cases pre with
          | nil =>
            simp only [List.nil_append, List.cons.injEq] at hx
            rw [hx.1] at hsp
            revert hsp
            decide
          | cons z zs =>
            simp only [List.cons_append, List.cons.injEq] at hx
            have := hx.2
            simp at this

theorem escChars_id (apos : List Char) (cs : List Char)
    (h : ∀ c ∈ cs, isEscSpecial c = false) : escChars apos cs = cs := by
  induction cs with
  | nil => rfl
  | cons x xs ih =>
    have hx := h x (List.mem_cons_self _ _)
    rcases escChar_cases apos x with ⟨hsp, _⟩ | ⟨_, he⟩
    · rw [hx] at hsp
      cases hsp
    · simp only [escChars, he, List.singleton_append]
      rw [ih (fun c hc => h c (List.mem_cons_of_mem _ hc))]

theorem escChars_append (apos : List Char) (xs ys : List Char) :
    escChars apos (xs ++ ys) = escChars apos xs ++ escChars apos ys := by
  induction xs with
  | nil => rfl
  | cons x xs ih =>
    show escChar apos x ++ escChars apos (xs ++ ys) =
      (escChar apos x ++ escChars apos xs) ++ escChars apos ys
    rw [ih, List.append_assoc]

/-- The properties of `esc` for any apostrophe entity that starts with an ampersand, has
no other ampersand and none of `<`, `>`, double quote, apostrophe. -/
theorem escWith_spec (apos : String)
    (ha : ∃ t, apos.data = '&' :: t ∧ '&' ∉ t)
    (hb : ∀ c ∈ apos.data, c.toNat ≠ 60 ∧ c.toNat ≠ 62 ∧ c.toNat ≠ 34 ∧ c.toNat ≠ 39)
    (s : JsField String) :
    (∀ c ∈ (escWith apos s).data,
        c.toNat ≠ 60 ∧ c.toNat ≠ 62 ∧ c.toNat ≠ 34 ∧ c.toNat ≠ 39) ∧
      (∀ pre post, (escWith apos s).data = pre ++ '&' :: post →
        ∃ e ∈ ["&amp;", "&lt;", "&gt;", "&quot;", apos], e.data <+: '&' :: post) ∧
      (∀ v, s = .val v → (∀ c ∈ v.data, isEscSpecial c = false) → escWith apos s = v) ∧
      (∀ a b : String,
        escWith apos (.val (a ++ b)) = escWith apos (.val a) ++ escWith apos (.val b)) ∧
      escWith apos .undefined = "" ∧ escWith apos .null = "" := by
  refine ⟨?_, ?_, ?_, ?_, rfl, rfl⟩
  · cases s with
    | undefined => intro c hc; simp [escWith] at hc
    | null => intro c hc; simp [escWith] at hc
    | val v => exact escChars_clean apos.data ha hb v.data
  · intro pre post h
    cases s with
    | undefined => simp [escWith] at h
    | null => simp [escWith] at h
    | val v =>
      obtain ⟨e, he, hpre⟩ := escChars_amp apos.data ha hb v.data pre post h
      simp only [List.mem_cons, List.mem_singleton, List.not_mem_nil, or_false] at he
      rcases he with rfl | rfl | rfl | rfl | rfl
      · exact ⟨"&amp;", by simp, hpre⟩
      · exact ⟨"&lt;", by simp, hpre⟩
      · exact ⟨"&gt;", by simp, hpre⟩
      · exact ⟨"&quot;", by simp, hpre⟩
      · exact ⟨apos, by simp, hpre⟩
  · intro v hv hc
    subst hv
    show String.mk (escChars apos.data v.data) = v
    rw [escChars_id apos.data v.data hc]
  · intro a b
    show String.mk (escChars apos.data (a ++ b).data) =
      String.mk (escChars apos.data a.data) ++ String.mk (escChars apos.data b.data)
    rw [String.data_append, escChars_append]
    rfl

/-- C29: for an input that is missing, `null` or a string, `esc` returns a string with no
`<`, `>`, double quote or apostrophe, in which every ampersand begins one of the five
entities it emits; it maps a string without any of the five special characters to
itself, maps a concatenation to the concatenation of the results, and maps `null` and
`undefined` to the empty string. This holds for the copy in `utils/helpers.js`, whose
apostrophe entity is `&#39;`, and for the copy in `js/main.js`, which writes `&#039;`. -/
theorem esc_spec (s : JsField String) :
    ((∀ c ∈ (esc s).data, c.toNat ≠ 60 ∧ c.toNat ≠ 62 ∧ c.toNat ≠ 34 ∧ c.toNat ≠ 39) ∧
      (∀ pre post, (esc s).data = pre ++ '&' :: post →
        ∃ e ∈ escEntities, e.data <+: '&' :: post) ∧
      (∀ v, s = .val v → (∀ c ∈ v.data, isEscSpecial c = false) → esc s = v) ∧
      (∀ a b : String, esc (.val (a ++ b)) = esc (.val a) ++ esc (.val b)) ∧
      esc .undefined = "" ∧ esc .null = "") ∧
    ((∀ c ∈ (Main.esc s).data,
        c.toNat ≠ 60 ∧ c.toNat ≠ 62 ∧ c.toNat ≠ 34 ∧ c.toNat ≠ 39) ∧
      (∀ pre post, (Main.esc s).data = pre ++ '&' :: post →
        ∃ e ∈ Main.escEntities, e.data <+: '&' :: post) ∧
      (∀ v, s = .val v → (∀ c ∈ v.data, isEscSpecial c = false) → Main.esc s = v) ∧
      (∀ a b : String, Main.esc (.val (a ++ b)) = Main.esc (.val a) ++ Main.esc (.val b)) ∧
      Main.esc .undefined = "" ∧ Main.esc .null = "") :=
  ⟨escWith_spec "&#39;" ⟨"#39;".data, rfl, by decide⟩ (by decide) s,
    escWith_spec "&#039;" ⟨"#039;".data, rfl, by decide⟩ (by decide) s⟩

/-! ## Stars -/

theorem clamp_not_finite (parse : String → JsNum) (n : JsValue) (min max : ℚ)
    (h : (toNumber parse n).isFinite = false) : clamp parse n min max = min := by
  unfold clamp
  cases hx : toNumber parse n with
  | finite x => rw [hx] at h; cases h
  | nan => rfl
  | posInf => rfl
  | negInf => rfl

theorem clamp_finite (parse : String → JsNum) (n : JsValue) (min max : ℚ)
    (h : (toNumber parse n).isFinite = true) (hmm : min ≤ max) :
    min ≤ clamp parse n min max ∧ clamp parse n min max ≤ max := by
  unfold clamp
  cases hx : toNumber parse n with
  | finite x =>
    simp only
    exact ⟨le_max_left _ _, max_le hmm (min_le_left _ _)⟩
  | nan => rw [hx] at h; cases h
  | posInf => rw [hx] at h; cases h
  | negInf => rw [hx] at h; cases h

theorem clamp_bounds (parse : String → JsNum) (n : JsValue) (min max : ℚ) (hmm : min ≤ max) :
    min ≤ clamp parse n min max ∧ clamp parse n min max ≤ max := by
  cases hf : (toNumber parse n).isFinite with
  | true => exact clamp_finite parse n min max hf hmm
  | false =>
    rw [clamp_not_finite parse n min max hf]
    exact ⟨le_refl _, hmm⟩

/-- C30: for a rating that is missing, `null` or the empty string `starString` returns the
dash; for any other rating it returns exactly five glyphs, `floor(clamp(rating, 0, 5))`
filled stars followed by empty stars. `clamp` returns `min` when its argument does not
convert to a finite number, and otherwise, for `min ≤ max`, a value between `min` and
`max`. -/
theorem starString_spec (parse : String → JsNum) (rating : JsValue) :
    ((rating = .undefined ∨ rating = .null ∨ rating = .str "") →
      starString parse rating = "—") ∧
    ((¬ (rating = .undefined ∨ rating = .null ∨ rating = .str "")) →
      ∃ k : ℕ, k ≤ 5 ∧ (k : ℤ) = ⌊clamp parse rating 0 5⌋ ∧
        starString parse rating =
          String.mk (List.replicate k '★' ++ List.replicate (5 - k) '☆') ∧
        (starString parse rating).length = 5) ∧
    (∀ (n : JsValue) (min max : ℚ), (toNumber parse n).isFinite = false →
      clamp parse n min max = min) ∧
    (∀ (n : JsValue) (min max : ℚ), (toNumber parse n).isFinite = true → min ≤ max →
      min ≤ clamp parse n min max ∧ clamp parse n min max ≤ max) := by
  refine ⟨?_, ?_, clamp_not_finite parse, clamp_finite parse⟩
  · intro h
    unfold starString
    rw [if_pos h]
  · intro h
    have hb := clamp_bounds parse rating 0 5 (by norm_num)
    have h0 : (0 : ℤ) ≤ ⌊clamp parse rating 0 5⌋ := Int.floor_nonneg.2 hb.1
    have h5 : ⌊clamp parse rating 0 5⌋ ≤ 5 := by
      have : ⌊clamp parse rating 0 5⌋ ≤ ⌊(5 : ℚ)⌋ := Int.floor_le_floor hb.2
      simpa using this
    refine ⟨Int.toNat ⌊clamp parse rating 0 5⌋, ?_, ?_, ?_, ?_⟩
    · omega
    · exact Int.toNat_of_nonneg h0
    · unfold starString
      rw [if_neg h]
      simp only
      have : Int.toNat (5 - ⌊clamp parse rating 0 5⌋) =
          5 - Int.toNat ⌊clamp parse rating 0 5⌋ := by
        omega
      rw [this]
    · unfold starString
      rw [if_neg h]
      simp only [String.length, List.length_append, List.length_replicate]
      omega

/-- C30 at the rating `7/2` and at a string that converts to `NaN`. -/
theorem starString_spec_witness :
    starString (fun _ => .nan) (.num (.finite (7 / 2))) = "★★★☆☆" ∧
      starString (fun _ => .nan) (.str "n/a") = "☆☆☆☆☆" ∧
      starString (fun _ => .nan) (.str "") = "—" := by
  have h1 := (starString_spec (fun _ => .nan) (.num (.finite (7 / 2)))).2.1 (by decide)
  have h2 := (starString_spec (fun _ => .nan) (.str "n/a")).2.1 (by decide)
  have h3 := (starString_spec (fun _ => .nan) (.str "")).1 (Or.inr (Or.inr rfl))
  refine ⟨?_, ?_, h3⟩
  · obtain ⟨k, _, hk, hs, _⟩ := h1
    have hc : clamp (fun _ => JsNum.nan) (.num (.finite (7 / 2))) 0 5 = 7 / 2 := by
      norm_num [clamp, toNumber]
    have hf : ⌊(7 / 2 : ℚ)⌋ = 3 := by
      rw [Int.floor_eq_iff]
      norm_num
    rw [hc, hf] at hk
    have hk3 : k = 3 := by exact_mod_cast hk
    rw [hs, hk3]
    rfl
  · obtain ⟨k, _, hk, hs, _⟩ := h2
    have hc : clamp (fun _ => JsNum.nan) (.str "n/a") 0 5 = 0 := by
      simp [clamp, toNumber]
    rw [hc, Int.floor_zero] at hk
    have hk0 : k = 0 := by exact_mod_cast hk
    rw [hs, hk0]
    rfl

/-! ## Filtering and sorting in the browser -/

theorem orZero_eq (x : ℚ) : orZero x = x := by
  unfold orZero
  by_cases h : x = 0
  · rw [if_pos h, h]
  · rw [if_neg h]

theorem filter_unless (c : Prop) [Decidable c] (l : List Game) (p : Game → Bool) :
    (if ¬ c then l.filter p else l) = l.filter (fun g => decide c || p g) := by
  by_cases h : c
  · simp [h]
  · simp [h]

theorem filterAndSortGames_eq (rt : JsRuntime) (games : List Game) (f : GameFilters) :
    filterAndSortGames rt games f =
      (games.filter (keptBy rt f)).insertionSort
        (fun a b => compareGames rt f.sortBy a b ≤ 0) := by
  unfold filterAndSortGames
  obtain ⟨q, st, mr, df, dt, sb, pf, gn⟩ := f
  simp only [ne_eq]
  congr 1
  rw [filter_unless, filter_unless, filter_unless, filter_unless]
  cases mr <;> cases df <;> cases dt <;>
  · simp only [List.filter_filter]
    apply List.filter_congr
    intro g _
    simp only [keptBy, Bool.and_true]
    ac_rfl

theorem keptBy_iff (rt : JsRuntime) (f : GameFilters) (g : Game) :
    keptBy rt f g = true ↔ passesFilters rt f g := by
  have h1 : (decide (f.q = "") || keywordTest rt f.q g) = true ↔
      (f.q ≠ "" →
        f.q.data <:+: (rt.toLowerCase g.title).data ∨
          f.q.data <:+: (rt.toLowerCase (strOrEmpty g.description)).data) := by
    by_cases h : f.q = ""
    · simp [h]
    · simp [h, keywordTest, includes]
  have h2 : (decide (f.status = "") || statusTest f.status g) = true ↔
      (f.status ≠ "" → g.status = .val f.status) := by
    by_cases h : f.status = ""
    · simp [h]
    · simp [h, statusTest]
  have htag : ∀ sel tags : List String,
      (decide (sel.length = 0) || tagTest sel tags) = true ↔
        (sel ≠ [] → ∃ p ∈ tags, p ∈ sel) := by
    intro sel tags
    by_cases h : sel = []
    · simp [h]
    · have hl : ¬ sel.length = 0 := fun e => h (List.length_eq_zero.1 e)
      simp [h, hl, tagTest]
  have h5 : (match f.minRating with
      | some m => minRatingTest m g
      | none => true) = true ↔ (∀ m, f.minRating = some m → m ≤ g.averageRating) := by
    cases f.minRating with
    | none => simp
    | some m => simp [minRatingTest, orZero_eq]
  have h6 : (match f.dateFrom with
      | some d => fromTest d g
      | none => true) = true ↔
      (∀ d, f.dateFrom = some d → ∃ r, g.releaseDate = .val r ∧ d ≤ r) := by
    cases f.dateFrom with
    | none => simp
    | some d => cases hr : g.releaseDate <;> simp [fromTest, hr]
  have h7 : (match f.dateTo with
      | some d => toTest rt d g
      | none => true) = true ↔
      (∀ d, f.dateTo = some d → ∃ r, g.releaseDate = .val r ∧ r ≤ rt.endOfDay d) := by
    cases f.dateTo with
    | none => simp
    | some d => cases hr : g.releaseDate <;> simp [toTest, hr]
  unfold keptBy passesFilters
  simp only [Bool.and_eq_true]
  rw [h1, h2, htag f.platforms g.platform, htag f.genres g.genre, h5, h6, h7]
  constructor
  · rintro ⟨⟨⟨⟨⟨⟨a1, a2⟩, a3⟩, a4⟩, a5⟩, a6⟩, a7⟩
    exact ⟨a1, a2, a3, a4, a5, a6, a7⟩
  · rintro ⟨a1, a2, a3, a4, a5, a6, a7⟩
    exact ⟨⟨⟨⟨⟨⟨a1, a2⟩, a3⟩, a4⟩, a5⟩, a6⟩, a7⟩

theorem insertionSort_sorted_of (r t : Game → Game → Prop) [DecidableRel r]
    (htot : ∀ a b, r a b ∨ r b a) (htr : ∀ a b c, r a b → r b c → r a c)
    (hrt : ∀ a b, r a b → t a b) (l : List Game) : (l.insertionSort r).Sorted t := by
  have hs := @List.sorted_insertionSort Game r _ ⟨htot⟩ ⟨htr⟩ l
  exact List.Pairwise.imp (fun hab => hrt _ _ hab) hs

theorem compareGames_rating (rt : JsRuntime) (a b : Game) :
    compareGames rt "ratingDesc" a b ≤ 0 ↔ b.averageRating ≤ a.averageRating := by
  unfold compareGames
  rw [if_neg (by decide), if_pos rfl, orZero_eq, orZero_eq]
  exact sub_nonpos

theorem compareGames_releaseAsc (rt : JsRuntime) (a b : Game) :
    compareGames rt "releaseAsc" a b ≤ 0 ↔ releaseTime a ≤ releaseTime b := by
  unfold compareGames
  rw [if_neg (by decide), if_neg (by decide), if_pos rfl]
  rw [show ((0 : ℚ) = ((0 : ℤ) : ℚ)) by norm_num, Int.cast_le]
  exact sub_nonpos

theorem compareGames_default (rt : JsRuntime) (sortBy : String) (a b : Game)
    (h1 : sortBy ≠ "titleAsc") (h2 : sortBy ≠ "ratingDesc") (h3 : sortBy ≠ "releaseAsc") :
    compareGames rt sortBy a b ≤ 0 ↔ releaseTime b ≤ releaseTime a := by
  unfold compareGames
  rw [if_neg h1, if_neg h2, if_neg h3]
  rw [show ((0 : ℚ) = ((0 : ℤ) : ℚ)) by norm_num, Int.cast_le]
  exact sub_nonpos

theorem compareGames_title (rt : JsRuntime) (a b : Game) :
    compareGames rt "titleAsc" a b ≤ 0 ↔ rt.localeCompare a.title b.title ≤ 0 := by
  unfold compareGames
  rw [if_pos rfl]
  rw [show ((0 : ℚ) = ((0 : ℤ) : ℚ)) by norm_num, Int.cast_le]

/-- C28: `filterAndSortGames` computes a new list from its arguments, which it cannot
modify. The list holds exactly the input games that pass every active criterion (keyword
in the lower-cased title or description, status, one of the selected platforms, one of the
selected genres, minimum rating, release date from `dateFrom` to the end of the day
`dateTo`), each as often as in the input, and it is ordered by `sortBy`: by rating from
highest for `ratingDesc`, by release time from earliest for `releaseAsc`, by
`localeCompare` of the titles for `titleAsc` when that comparison is a total preorder, and
by release time from latest for every other value, the default included. -/
theorem filterAndSortGames_spec (rt : JsRuntime) (games : List Game) (f : GameFilters) :
    (∀ g, keptBy rt f g = true ↔ passesFilters rt f g) ∧
      (filterAndSortGames rt games f).Perm (games.filter (keptBy rt f)) ∧
      (∀ g, g ∈ filterAndSortGames rt games f ↔ g ∈ games ∧ passesFilters rt f g) ∧
      (f.sortBy = "ratingDesc" →
        (filterAndSortGames rt games f).Sorted
          (fun a b => b.averageRating ≤ a.averageRating)) ∧
      (f.sortBy = "releaseAsc" →
        (filterAndSortGames rt games f).Sorted (fun a b => releaseTime a ≤ releaseTime b)) ∧
      (f.sortBy ≠ "titleAsc" → f.sortBy ≠ "ratingDesc" → f.sortBy ≠ "releaseAsc" →
        (filterAndSortGames rt games f).Sorted (fun a b => releaseTime b ≤ releaseTime a)) ∧
      (f.sortBy = "titleAsc" →
        (∀ a b, rt.localeCompare a b ≤ 0 ∨ rt.localeCompare b a ≤ 0) →
        (∀ a b c, rt.localeCompare a b ≤ 0 → rt.localeCompare b c ≤ 0 →
          rt.localeCompare a c ≤ 0) →
        (filterAndSortGames rt games f).Sorted
          (fun a b => rt.localeCompare a.title b.title ≤ 0)) := by
  have hperm : (filterAndSortGames rt games f).Perm (games.filter (keptBy rt f)) := by
    rw [filterAndSortGames_eq]
    exact List.perm_insertionSort _ _
  refine ⟨keptBy_iff rt f, hperm, ?_, ?_, ?_, ?_, ?_⟩
  · intro g
    rw [hperm.mem_iff, List.mem_filter, keptBy_iff]
  · intro hs
    rw [filterAndSortGames_eq, hs]
    apply insertionSort_sorted_of
    · intro a b
      rw [compareGames_rating, compareGames_rating]
      exact le_total _ _
    · intro a b c
      rw [compareGames_rating, compareGames_rating, compareGames_rating]
      exact fun h1 h2 => le_trans h2 h1
    · intro a b
      exact (compareGames_rating rt a b).1
  · intro hs
    rw [filterAndSortGames_eq, hs]
    apply insertionSort_sorted_of
    · intro a b
      rw [compareGames_releaseAsc, compareGames_releaseAsc]
      exact le_total _ _
    · intro a b c
      rw [compareGames_releaseAsc, compareGames_releaseAsc, compareGames_releaseAsc]
      exact fun h1 h2 => le_trans h1 h2
    · intro a b
      exact (compareGames_releaseAsc rt a b).1
  · intro h1 h2 h3
    rw [filterAndSortGames_eq]
    apply insertionSort_sorted_of
    · intro a b
      rw [compareGames_default rt _ a b h1 h2 h3, compareGames_default rt _ b a h1 h2 h3]
      exact le_total _ _
    · intro a b c
      rw [compareGames_default rt _ a b h1 h2 h3, compareGames_default rt _ b c h1 h2 h3,
        compareGames_default rt _ a c h1 h2 h3]
      exact fun h4 h5 => le_trans h5 h4
    · intro a b
      exact (compareGames_default rt _ a b h1 h2 h3).1
  · intro hs htot htr
    rw [filterAndSortGames_eq, hs]
    apply insertionSort_sorted_of
    · intro a b
      rw [compareGames_title, compareGames_title]
      exact htot _ _
    · intro a b c
      rw [compareGames_title, compareGames_title, compareGames_title]
      exact htr _ _ _
    · intro a b
      exact (compareGames_title rt a b).1

end VGB
